import Mathlib

/-!
# NetCAS split-ratio control loop

A shallow embedding of `netCAS_split.c` / `netCAS_split.h`: the moving-average
window over RDMA throughput, the split-ratio formula, the mode state machine
and one cycle of the monitor thread.

Conventions of the embedding.

* `uint64_t` values are natural numbers; every C operation that can wrap is
  written with an explicit reduction modulo `2^64` (`add64`, `sub64`, `mul64`).
* The module-level variables of `netCAS_split.c`, the function-local `static`
  variable `current_mode` of `determine_netcas_mode` and the loop-carried local
  `drop_permil` of `split_monitor_func` are the fields of one record, `ControllerState`.
* A C division whose divisor is zero has no result; functions that can reach
  one return `Option`, with `none` standing for the division fault.
* The reader/writer locks only serialise the accesses of the single writer
  thread and are not represented.
* `lookup_bandwidth` (declared in `pmem_nvme_table.h`) is a parameter.
* `split_monitor_cycle_log` is the same iteration as `split_monitor_cycle` and
  returns in addition the arguments of the calls of `split_set_optimal_ratio`
  it makes; `cycle_drop`, `cycle_determine` and `cycle_push` name the
  controller variables at three points inside an iteration.
-/

namespace NetCAS

/-! ## Machine arithmetic -/

/-- Number of values of a `uint64_t`, that is `2^64`. -/
def U64 : Nat := 18446744073709551616

/-- Wrapping `uint64_t` addition. -/
def add64 (a b : Nat) : Nat := (a + b) % U64

/-- Wrapping `uint64_t` subtraction (operands below `2^64`). -/
def sub64 (a b : Nat) : Nat := (a + U64 - b) % U64

/-- Wrapping `uint64_t` multiplication. -/
def mul64 (a b : Nat) : Nat := (a * b) % U64

/-! ## Constants of `netCAS_split.h` and `netCAS_split.c` -/

def RDMA_WINDOW_SIZE : Nat := 20
def MONITOR_INTERVAL_MS : Nat := 100
def WARMUP_PERIOD_NS : Nat := 3000000000
def RDMA_THRESHOLD : Nat := 100
def CONGESTION_THRESHOLD : Nat := 90
def IOPS_THRESHOLD : Nat := 1000
def SPLIT_RATIO_SCALE : Nat := 10000
def SPLIT_RATIO_MAX : Nat := 10000
def SPLIT_RATIO_MIN : Nat := 0
def IO_DEPTH : Nat := 16
def NUM_JOBS : Nat := 1
def CACHING_FAILED : Bool := false

/-- Operation modes, `netCAS_mode_t`. -/
inductive netCAS_mode_t where
  | NETCAS_MODE_IDLE
  | NETCAS_MODE_WARMUP
  | NETCAS_MODE_STABLE
  | NETCAS_MODE_CONGESTION
  | NETCAS_MODE_FAILURE
  deriving DecidableEq, Repr

open netCAS_mode_t

/-- Result of `measure_performance`, `struct performance_metrics`. -/
structure performance_metrics where
  rdma_latency : Nat
  rdma_throughput : Nat
  iops : Nat
  deriving DecidableEq, Repr

/-- The mutable variables of the controller.  All but the last two are the
file-scope variables of `netCAS_split.c`; `current_mode` is the `static` local
of `determine_netcas_mode` and `drop_permil` the local of `split_monitor_func`
that keeps its value from one loop iteration to the next. -/
structure ControllerState where
  rdma_throughput_window : List Nat
  rdma_window_index : Nat
  rdma_window_sum : Nat
  rdma_window_count : Nat
  rdma_window_average : Nat
  max_average_rdma_throughput : Nat
  last_nonzero_transition_time : Nat
  netCAS_initialized : Bool
  split_ratio_calculated_in_stable : Bool
  optimal_split_ratio : Nat
  global_data_admit : Bool
  current_mode : netCAS_mode_t
  drop_permil : Nat
  deriving DecidableEq, Repr

/-- The values given by the C initialisers, before any function has run. -/
def static_state : ControllerState where
  rdma_throughput_window := List.replicate RDMA_WINDOW_SIZE 0
  rdma_window_index := 0
  rdma_window_sum := 0
  rdma_window_count := 0
  rdma_window_average := 0
  max_average_rdma_throughput := 0
  last_nonzero_transition_time := 0
  netCAS_initialized := false
  split_ratio_calculated_in_stable := false
  optimal_split_ratio := SPLIT_RATIO_MAX
  global_data_admit := true
  current_mode := NETCAS_MODE_IDLE
  drop_permil := 0

/-! ## Published values -/

/-- `split_set_optimal_ratio`: store the ratio (under the writer lock). -/
def split_set_optimal_ratio (s : ControllerState) (ratio : Nat) : ControllerState :=
  { s with optimal_split_ratio := ratio }

/-- `netcas_query_optimal_split_ratio`: read the ratio (under the reader lock). -/
def netcas_query_optimal_split_ratio (s : ControllerState) : Nat :=
  s.optimal_split_ratio

/-- `netcas_set_data_admit`. -/
def netcas_set_data_admit (s : ControllerState) ( data_admit : Bool) : ControllerState :=
  { s with global_data_admit := data_admit }

/-- `netcas_query_data_admit`. -/
def netcas_query_data_admit (s : ControllerState) : Bool :=
  s.global_data_admit

/-! ## Split-ratio formula -/

/-- `calculate_split_ratio_formula`: `A * 10000 / (A + B)` in 64-bit
arithmetic, then the two range checks.  No result when the 64-bit sum
`A + B` is zero. -/
def calculate_split_ratio_formula (bandwidth_cache_only bandwidth_backend_only : Nat) :
    Option Nat :=
  if add64 bandwidth_cache_only bandwidth_backend_only = 0 then none
  else
    let calculated_split :=
      mul64 bandwidth_cache_only SPLIT_RATIO_SCALE /
        add64 bandwidth_cache_only bandwidth_backend_only
    let calculated_split :=
      if calculated_split < SPLIT_RATIO_MIN then SPLIT_RATIO_MIN else calculated_split
    let calculated_split :=
      if calculated_split > SPLIT_RATIO_MAX then SPLIT_RATIO_MAX else calculated_split
    some calculated_split

/-- `find_best_split_ratio`.  The unused `core` argument is dropped;
`lookup_bandwidth` gives the value of the C call after its cast to
`uint64_t`. -/
def find_best_split_ratio (lookup_bandwidth : Nat → Nat → Nat → Nat)
    (io_depth numjob curr_rdma_throughput drop_permil : Nat) : Option Nat :=
  let bandwidth_cache_only := lookup_bandwidth io_depth numjob 100
  let bandwidth_backend_only := lookup_bandwidth io_depth numjob 0
  let bandwidth_backend_only :=
    if curr_rdma_throughput > RDMA_THRESHOLD then
      mul64 bandwidth_backend_only (sub64 1000 drop_permil) / 1000
    else bandwidth_backend_only
  calculate_split_ratio_formula bandwidth_cache_only bandwidth_backend_only

/-! ## Initialisation, mode state machine, window -/

/-- `init_netCAS`. -/
def init_netCAS (s : ControllerState) : ControllerState :=
  let s := { s with
    rdma_throughput_window := List.replicate RDMA_WINDOW_SIZE 0
    rdma_window_sum := 0
    rdma_window_index := 0
    rdma_window_count := 0
    rdma_window_average := 0
    max_average_rdma_throughput := 0 }
  let s := netcas_set_data_admit s true
  let s := split_set_optimal_ratio s SPLIT_RATIO_MAX
  { s with
    last_nonzero_transition_time := 0
    netCAS_initialized := true
    split_ratio_calculated_in_stable := false }

/-- `determine_netcas_mode`.  `curr_time` is the reading of
`env_get_tick_count()` taken on entry.  The C function returns `current_mode`
as it stands on exit, which is the `current_mode` field of the result. -/
def determine_netcas_mode (s : ControllerState) (curr_time : Nat)
    (curr_rdma_throughput _curr_rdma_latency curr_iops drop_permil : Nat) : ControllerState :=
  if curr_rdma_throughput ≤ RDMA_THRESHOLD ∧ curr_iops ≤ IOPS_THRESHOLD then
    { s with current_mode := NETCAS_MODE_IDLE, last_nonzero_transition_time := 0 }
  else if s.current_mode = NETCAS_MODE_IDLE then
    { s with
      current_mode := NETCAS_MODE_WARMUP
      last_nonzero_transition_time := curr_time
      netCAS_initialized := false }
  else if s.current_mode = NETCAS_MODE_WARMUP then
    if sub64 curr_time s.last_nonzero_transition_time ≥ WARMUP_PERIOD_NS then
      { s with
        current_mode := NETCAS_MODE_STABLE
        split_ratio_calculated_in_stable := false }
    else s
  else if s.current_mode = NETCAS_MODE_CONGESTION ∧ drop_permil < CONGESTION_THRESHOLD then
    { s with
      current_mode := NETCAS_MODE_STABLE
      split_ratio_calculated_in_stable := false }
  else if s.current_mode = NETCAS_MODE_STABLE ∧ drop_permil > CONGESTION_THRESHOLD then
    { s with
      current_mode := NETCAS_MODE_CONGESTION
      split_ratio_calculated_in_stable := true }
  else if CACHING_FAILED then
    { s with current_mode := NETCAS_MODE_FAILURE }
  else s

/-- `update_rdma_window`.  The slot index stays below `RDMA_WINDOW_SIZE`, so
the array accesses are list accesses; the divisor `rdma_window_count` is at
least one after the first branch. -/
def update_rdma_window (s : ControllerState) (curr_rdma_throughput : Nat) : ControllerState :=
  let s :=
    if s.rdma_window_count < RDMA_WINDOW_SIZE then
      { s with rdma_window_count := add64 s.rdma_window_count 1 }
    else
      { s with rdma_window_sum :=
          sub64 s.rdma_window_sum (s.rdma_throughput_window.getD s.rdma_window_index 0) }
  let s := { s with rdma_throughput_window :=
    s.rdma_throughput_window.set s.rdma_window_index curr_rdma_throughput }
  let s := { s with rdma_window_sum := add64 s.rdma_window_sum curr_rdma_throughput }
  let s := { s with rdma_window_average := s.rdma_window_sum / s.rdma_window_count }
  let s := { s with rdma_window_index := add64 s.rdma_window_index 1 % RDMA_WINDOW_SIZE }
  if s.max_average_rdma_throughput < s.rdma_window_average then
    { s with max_average_rdma_throughput := s.rdma_window_average }
  else s

/-! ## The monitor loop -/

/-- What one iteration of the loop of `split_monitor_func` reads from outside:
the result of `measure_performance(MONITOR_INTERVAL_MS)` and the tick count
read inside `determine_netcas_mode`. -/
structure cycle_input where
  current_rdma_metrics : performance_metrics
  curr_time : Nat
  deriving DecidableEq, Repr

/-- One iteration of the `while (1)` loop of `split_monitor_func` when
`kthread_should_stop()` is false, up to the end of the `switch`.  The timing
code after the `switch` does not touch the controller variables. -/
def split_monitor_cycle (lookup_bandwidth : Nat → Nat → Nat → Nat)
    (s : ControllerState) (inp : cycle_input) : Option ControllerState :=
  let curr_rdma_throughput := inp.current_rdma_metrics.rdma_throughput
  let curr_rdma_latency := inp.current_rdma_metrics.rdma_latency
  let curr_iops := inp.current_rdma_metrics.iops
  let s :=
    if s.max_average_rdma_throughput > 0 then
      { s with drop_permil :=
          mul64 (sub64 s.max_average_rdma_throughput s.rdma_window_average) 1000 /
            s.max_average_rdma_throughput }
    else s
  let s := determine_netcas_mode s inp.curr_time curr_rdma_throughput curr_rdma_latency
    curr_iops s.drop_permil
  match s.current_mode with
  | NETCAS_MODE_IDLE =>
    if !s.netCAS_initialized then some (init_netCAS s) else some s
  | NETCAS_MODE_WARMUP =>
    let s := netcas_set_data_admit s false
    let s := update_rdma_window s curr_rdma_throughput
    match find_best_split_ratio lookup_bandwidth IO_DEPTH NUM_JOBS curr_rdma_throughput 0 with
    | none => none
    | some split_ratio =>
      let s := { s with optimal_split_ratio := split_ratio }
      some (split_set_optimal_ratio s s.optimal_split_ratio)
  | NETCAS_MODE_STABLE =>
    let s := netcas_set_data_admit s false
    let s := update_rdma_window s curr_rdma_throughput
    if !s.split_ratio_calculated_in_stable ∧ s.rdma_window_count ≥ RDMA_WINDOW_SIZE then
      match find_best_split_ratio lookup_bandwidth IO_DEPTH NUM_JOBS curr_rdma_throughput
          s.drop_permil with
      | none => none
      | some split_ratio =>
        let s := { s with optimal_split_ratio := split_ratio }
        let s := split_set_optimal_ratio s s.optimal_split_ratio
        some { s with split_ratio_calculated_in_stable := true }
    else some s
  | NETCAS_MODE_CONGESTION =>
    let s := netcas_set_data_admit s false
    let s := update_rdma_window s curr_rdma_throughput
    if s.rdma_window_count ≥ RDMA_WINDOW_SIZE then
      match find_best_split_ratio lookup_bandwidth IO_DEPTH NUM_JOBS curr_rdma_throughput
          s.drop_permil with
      | none => none
      | some split_ratio =>
        if split_ratio ≠ s.optimal_split_ratio then
          let s := { s with optimal_split_ratio := split_ratio }
          some (split_set_optimal_ratio s split_ratio)
        else some s
    else some s
  | NETCAS_MODE_FAILURE => some s

/-- The loop of `split_monitor_func` run over a finite list of iterations;
`none` as soon as one of them has no result. -/
def split_monitor_run (lookup_bandwidth : Nat → Nat → Nat → Nat) :
    ControllerState → List cycle_input → Option ControllerState
  | s, [] => some s
  | s, inp :: rest =>
    match split_monitor_cycle lookup_bandwidth s inp with
    | none => none
    | some s1 => split_monitor_run lookup_bandwidth s1 rest

/-- The controller as `netcas_mngt_split_monitor_start` leaves it when the
monitor thread is first started: `init_netCAS()` on the initial variables. -/
def start_state : ControllerState := init_netCAS static_state

/-- The sleep time chosen at the end of an iteration of the loop of
`split_monitor_func`, as a function of the measured `elapsed_time_ms`. -/
def sleep_time_ms (elapsed_time_ms : Nat) : Nat :=
  if elapsed_time_ms ≥ MONITOR_INTERVAL_MS then 1
  else sub64 MONITOR_INTERVAL_MS elapsed_time_ms

/-! ## The monitor loop, step by step -/

/-- The controller variables once the congestion signal has been computed at
the top of an iteration: `drop_permil` is assigned only when
`max_average_rdma_throughput > 0`, and keeps its value otherwise. -/
def cycle_drop (s : ControllerState) : ControllerState :=
  if s.max_average_rdma_throughput > 0 then
    { s with drop_permil :=
        mul64 (sub64 s.max_average_rdma_throughput s.rdma_window_average) 1000 /
          s.max_average_rdma_throughput }
  else s

/-- The controller variables once `determine_netcas_mode` has returned in an
iteration; the `current_mode` field is the mode the `switch` dispatches on. -/
def cycle_determine (s : ControllerState) (inp : cycle_input) : ControllerState :=
  determine_netcas_mode (cycle_drop s) inp.curr_time inp.current_rdma_metrics.rdma_throughput
    inp.current_rdma_metrics.rdma_latency inp.current_rdma_metrics.iops (cycle_drop s).drop_permil

/-- The controller variables after the first two statements of the Warmup,
Stable and Congestion cases: `netcas_set_data_admit(false)` and
`update_rdma_window(curr_rdma_throughput)`. -/
def cycle_push (s : ControllerState) (inp : cycle_input) : ControllerState :=
  update_rdma_window ( netcas_set_data_admit (cycle_determine s inp) false)
    inp.current_rdma_metrics.rdma_throughput

/-- One iteration of the loop of `split_monitor_func`, as `split_monitor_cycle`,
returning in addition the arguments of the calls of `split_set_optimal_ratio`
made during the iteration, in order (the call inside `init_netCAS` included). -/
def split_monitor_cycle_log (lookup_bandwidth : Nat → Nat → Nat → Nat)
    (s : ControllerState) (inp : cycle_input) : Option (ControllerState × List Nat) :=
  let curr_rdma_throughput := inp.current_rdma_metrics.rdma_throughput
  let curr_rdma_latency := inp.current_rdma_metrics.rdma_latency
  let curr_iops := inp.current_rdma_metrics.iops
  let s :=
    if s.max_average_rdma_throughput > 0 then
      { s with drop_permil :=
          mul64 (sub64 s.max_average_rdma_throughput s.rdma_window_average) 1000 /
            s.max_average_rdma_throughput }
    else s
  let s := determine_netcas_mode s inp.curr_time curr_rdma_throughput curr_rdma_latency
    curr_iops s.drop_permil
  match s.current_mode with
  | NETCAS_MODE_IDLE =>
    if !s.netCAS_initialized then some (init_netCAS s, [SPLIT_RATIO_MAX]) else some (s, [])
  | NETCAS_MODE_WARMUP =>
    let s := netcas_set_data_admit s false
    let s := update_rdma_window s curr_rdma_throughput
    match find_best_split_ratio lookup_bandwidth IO_DEPTH NUM_JOBS curr_rdma_throughput 0 with
    | none => none
    | some split_ratio =>
      let s := { s with optimal_split_ratio := split_ratio }
      some (split_set_optimal_ratio s s.optimal_split_ratio, [s.optimal_split_ratio])
  | NETCAS_MODE_STABLE =>
    let s := netcas_set_data_admit s false
    let s := update_rdma_window s curr_rdma_throughput
    if !s.split_ratio_calculated_in_stable ∧ s.rdma_window_count ≥ RDMA_WINDOW_SIZE then
      match find_best_split_ratio lookup_bandwidth IO_DEPTH NUM_JOBS curr_rdma_throughput
          s.drop_permil with
      | none => none
      | some split_ratio =>
        let s := { s with optimal_split_ratio := split_ratio }
        let s := split_set_optimal_ratio s s.optimal_split_ratio
        some ({ s with split_ratio_calculated_in_stable := true }, [s.optimal_split_ratio])
    else some (s, [])
  | NETCAS_MODE_CONGESTION =>
    let s := netcas_set_data_admit s false
    let s := update_rdma_window s curr_rdma_throughput
    if s.rdma_window_count ≥ RDMA_WINDOW_SIZE then
      match find_best_split_ratio lookup_bandwidth IO_DEPTH NUM_JOBS curr_rdma_throughput
          s.drop_permil with
      | none => none
      | some split_ratio =>
        if split_ratio ≠ s.optimal_split_ratio then
          let s := { s with optimal_split_ratio := split_ratio }
          some (split_set_optimal_ratio s split_ratio, [split_ratio])
        else some (s, [])
    else some (s, [])
  | NETCAS_MODE_FAILURE => some (s, [])

/-- The `switch` statement of `split_monitor_func`, with the write log, as a
function of the controller variables `d` left by `determine_netcas_mode`. -/
def cycle_dispatch_log (lookup_bandwidth : Nat → Nat → Nat → Nat)
    (d : ControllerState) (curr_rdma_throughput : Nat) :
    Option (ControllerState × List Nat) :=
  match d.current_mode with
  | NETCAS_MODE_IDLE =>
    if !d.netCAS_initialized then some (init_netCAS d, [SPLIT_RATIO_MAX]) else some (d, [])
  | NETCAS_MODE_WARMUP =>
    let s := netcas_set_data_admit d false
    let s := update_rdma_window s curr_rdma_throughput
    match find_best_split_ratio lookup_bandwidth IO_DEPTH NUM_JOBS curr_rdma_throughput 0 with
    | none => none
    | some split_ratio =>
      let s := { s with optimal_split_ratio := split_ratio }
      some (split_set_optimal_ratio s s.optimal_split_ratio, [s.optimal_split_ratio])
  | NETCAS_MODE_STABLE =>
    let s := netcas_set_data_admit d false
    let s := update_rdma_window s curr_rdma_throughput
    if !s.split_ratio_calculated_in_stable ∧ s.rdma_window_count ≥ RDMA_WINDOW_SIZE then
      match find_best_split_ratio lookup_bandwidth IO_DEPTH NUM_JOBS curr_rdma_throughput
          s.drop_permil with
      | none => none
      | some split_ratio =>
        let s := { s with optimal_split_ratio := split_ratio }
        let s := split_set_optimal_ratio s s.optimal_split_ratio
        some ({ s with split_ratio_calculated_in_stable := true }, [s.optimal_split_ratio])
    else some (s, [])
  | NETCAS_MODE_CONGESTION =>
    let s := netcas_set_data_admit d false
    let s := update_rdma_window s curr_rdma_throughput
    if s.rdma_window_count ≥ RDMA_WINDOW_SIZE then
      match find_best_split_ratio lookup_bandwidth IO_DEPTH NUM_JOBS curr_rdma_throughput
          s.drop_permil with
      | none => none
      | some split_ratio =>
        if split_ratio ≠ s.optimal_split_ratio then
          let s := { s with optimal_split_ratio := split_ratio }
          some (split_set_optimal_ratio s split_ratio, [split_ratio])
        else some (s, [])
    else some (s, [])
  | NETCAS_MODE_FAILURE => some (d, [])

/-! ## Relations between states, invariants and example data -/

/-- The congestion signal as computed from the variables `s` at the start of
an iteration, when `max_average_rdma_throughput > 0`. -/
def cycle_start_drop_permil (s : ControllerState) : Nat :=
  mul64 (sub64 s.max_average_rdma_throughput s.rdma_window_average) 1000 /
    s.max_average_rdma_throughput

/-- The two states have the same window variables: array, index, sum, count,
average and maximum of the average. -/
def same_window (a b : ControllerState) : Prop :=
  a.rdma_throughput_window = b.rdma_throughput_window ∧
  a.rdma_window_index = b.rdma_window_index ∧
  a.rdma_window_sum = b.rdma_window_sum ∧
  a.rdma_window_count = b.rdma_window_count ∧
  a.rdma_window_average = b.rdma_window_average ∧
  a.max_average_rdma_throughput = b.max_average_rdma_throughput

/-- An example bandwidth oracle: 3000 with all traffic to the cache, 1000
with all traffic to the backend. -/
def sample_lookup_bandwidth : Nat → Nat → Nat → Nat :=
  fun _ _ split => if split = 100 then 3000 else 1000

/-- An example of controller variables in mode Stable with a full window:
twenty samples of 1000 after the average had peaked at 2000. -/
def sample_full_state : ControllerState where
  rdma_throughput_window := List.replicate 20 1000
  rdma_window_index := 0
  rdma_window_sum := 20000
  rdma_window_count := 20
  rdma_window_average := 1000
  max_average_rdma_throughput := 2000
  last_nonzero_transition_time := 0
  netCAS_initialized := false
  split_ratio_calculated_in_stable := true
  optimal_split_ratio := 7500
  global_data_admit := false
  current_mode := NETCAS_MODE_STABLE
  drop_permil := 0

/-- Relation between the mode and the variables that the dispatch on the mode
maintains, between two iterations of the monitor loop. -/
def phase_invariant (s : ControllerState) : Prop :=
  s.current_mode ≠ NETCAS_MODE_FAILURE ∧
  (s.current_mode = NETCAS_MODE_IDLE →
    s.netCAS_initialized = true ∧ s.global_data_admit = true ∧
    s.optimal_split_ratio = SPLIT_RATIO_MAX ∧ s.last_nonzero_transition_time = 0 ∧
    s.rdma_window_count = 0 ∧ s.rdma_window_average = 0 ∧
    s.max_average_rdma_throughput = 0) ∧
  (s.current_mode ≠ NETCAS_MODE_IDLE →
    s.netCAS_initialized = false ∧ s.global_data_admit = false)

/-- Example for a stable episode: the controller variables before it, in mode
Congestion with a full window whose average equals its maximum. -/
def sample_episode_start : ControllerState :=
  { sample_full_state with
    current_mode := NETCAS_MODE_CONGESTION
    max_average_rdma_throughput := 1000 }

/-- Example for a stable episode: two cycles with throughput 1000. -/
def sample_episode_inputs : List cycle_input :=
  [⟨⟨0, 1000, 0⟩, 10⟩, ⟨⟨0, 1000, 0⟩, 11⟩]

/-- Example for a stable episode: the controller variables after `k` of its
cycles. -/
def sample_episode_states (k : Nat) : ControllerState :=
  (split_monitor_run sample_lookup_bandwidth sample_episode_start
    (sample_episode_inputs.take k)).getD sample_episode_start

/-- Example for a stable episode: the ratio is written in its first cycle. -/
def sample_episode_writes (k : Nat) : List Nat :=
  if k = 1 then [7500] else []

/-- Example of the constant-throughput scenario: throughput 500 at clocks 10,
20 and 3000000010. -/
def sample_scenario_inputs : List cycle_input :=
  [⟨⟨0, 500, 0⟩, 10⟩, ⟨⟨0, 500, 0⟩, 20⟩, ⟨⟨0, 500, 0⟩, 3000000010⟩]

/-- Twenty cycles with the constant throughput `10^18` at clocks 0, 1, ..., 19;
twenty such samples do not fit in 64 bits. -/
def sample_overflow_inputs : List cycle_input :=
  (List.range 20).map (fun i => ⟨⟨0, 1000000000000000000, 0⟩, i⟩)

/-- An operation on the window variables: a push of a sample with
`update_rdma_window`, or a re-initialisation with `init_netCAS`. -/
inductive window_op where
  | push (sample : Nat)
  | reinit
  deriving DecidableEq, Repr

/-- The effect of a window operation on the controller variables. -/
def apply_window_op (s : ControllerState) : window_op → ControllerState
  | window_op.push sample => update_rdma_window s sample
  | window_op.reinit => init_netCAS s

/-- Bounds on the variables the congestion signal is computed from, and on
the signal itself. -/
def signal_invariant (s : ControllerState) : Prop :=
  s.rdma_window_average ≤ s.max_average_rdma_throughput ∧
  s.max_average_rdma_throughput < U64 ∧
  s.drop_permil ≤ 1000

/-! ## The loop without the flag assignment of the Stable to Congestion transition -/

/-- `determine_netcas_mode` with the assignment
`split_ratio_calculated_in_stable = true` of the Stable -> Congestion
transition removed; every other statement is that of the source. -/
def determine_netcas_mode_assignment_removed (s : ControllerState) (curr_time : Nat)
    (curr_rdma_throughput _curr_rdma_latency curr_iops drop_permil : Nat) : ControllerState :=
  if curr_rdma_throughput ≤ RDMA_THRESHOLD ∧ curr_iops ≤ IOPS_THRESHOLD then
    { s with current_mode := NETCAS_MODE_IDLE, last_nonzero_transition_time := 0 }
  else if s.current_mode = NETCAS_MODE_IDLE then
    { s with
      current_mode := NETCAS_MODE_WARMUP
      last_nonzero_transition_time := curr_time
      netCAS_initialized := false }
  else if s.current_mode = NETCAS_MODE_WARMUP then
    if sub64 curr_time s.last_nonzero_transition_time ≥ WARMUP_PERIOD_NS then
      { s with
        current_mode := NETCAS_MODE_STABLE
        split_ratio_calculated_in_stable := false }
    else s
  else if s.current_mode = NETCAS_MODE_CONGESTION ∧ drop_permil < CONGESTION_THRESHOLD then
    { s with
      current_mode := NETCAS_MODE_STABLE
      split_ratio_calculated_in_stable := false }
  else if s.current_mode = NETCAS_MODE_STABLE ∧ drop_permil > CONGESTION_THRESHOLD then
    { s with current_mode := NETCAS_MODE_CONGESTION }
  else if CACHING_FAILED then
    { s with current_mode := NETCAS_MODE_FAILURE }
  else s

/-- One iteration of the loop of `split_monitor_func`, as
`split_monitor_cycle`, calling `determine_netcas_mode_assignment_removed`. -/
def split_monitor_cycle_assignment_removed (lookup_bandwidth : Nat → Nat → Nat → Nat)
    (s : ControllerState) (inp : cycle_input) : Option ControllerState :=
  let curr_rdma_throughput := inp.current_rdma_metrics.rdma_throughput
  let curr_rdma_latency := inp.current_rdma_metrics.rdma_latency
  let curr_iops := inp.current_rdma_metrics.iops
  let s :=
    if s.max_average_rdma_throughput > 0 then
      { s with drop_permil :=
          mul64 (sub64 s.max_average_rdma_throughput s.rdma_window_average) 1000 /
            s.max_average_rdma_throughput }
    else s
  let s := determine_netcas_mode_assignment_removed s inp.curr_time curr_rdma_throughput
    curr_rdma_latency curr_iops s.drop_permil
  match s.current_mode with
  | NETCAS_MODE_IDLE =>
    if !s.netCAS_initialized then some (init_netCAS s) else some s
  | NETCAS_MODE_WARMUP =>
    let s := netcas_set_data_admit s false
    let s := update_rdma_window s curr_rdma_throughput
    match find_best_split_ratio lookup_bandwidth IO_DEPTH NUM_JOBS curr_rdma_throughput 0 with
    | none => none
    | some split_ratio =>
      let s := { s with optimal_split_ratio := split_ratio }
      some (split_set_optimal_ratio s s.optimal_split_ratio)
  | NETCAS_MODE_STABLE =>
    let s := netcas_set_data_admit s false
    let s := update_rdma_window s curr_rdma_throughput
    if !s.split_ratio_calculated_in_stable ∧ s.rdma_window_count ≥ RDMA_WINDOW_SIZE then
      match find_best_split_ratio lookup_bandwidth IO_DEPTH NUM_JOBS curr_rdma_throughput
          s.drop_permil with
      | none => none
      | some split_ratio =>
        let s := { s with optimal_split_ratio := split_ratio }
        let s := split_set_optimal_ratio s s.optimal_split_ratio
        some { s with split_ratio_calculated_in_stable := true }
    else some s
  | NETCAS_MODE_CONGESTION =>
    let s := netcas_set_data_admit s false
    let s := update_rdma_window s curr_rdma_throughput
    if s.rdma_window_count ≥ RDMA_WINDOW_SIZE then
      match find_best_split_ratio lookup_bandwidth IO_DEPTH NUM_JOBS curr_rdma_throughput
          s.drop_permil with
      | none => none
      | some split_ratio =>
        if split_ratio ≠ s.optimal_split_ratio then
          let s := { s with optimal_split_ratio := split_ratio }
          some (split_set_optimal_ratio s split_ratio)
        else some s
    else some s
  | NETCAS_MODE_FAILURE => some s

/-- The loop built from `split_monitor_cycle_assignment_removed`, run over a
finite list of iterations. -/
def split_monitor_run_assignment_removed (lookup_bandwidth : Nat → Nat → Nat → Nat) :
    ControllerState → List cycle_input → Option ControllerState
  | s, [] => some s
  | s, inp :: rest =>
    match split_monitor_cycle_assignment_removed lookup_bandwidth s inp with
    | none => none
    | some s1 => split_monitor_run_assignment_removed lookup_bandwidth s1 rest

/-- The controller variables with `split_ratio_calculated_in_stable` replaced
by `f`. -/
def set_flag (s : ControllerState) (f : Bool) : ControllerState :=
  { s with split_ratio_calculated_in_stable := f }

/-- What is observed of the controller: every variable except
`split_ratio_calculated_in_stable`. -/
def observed (s : ControllerState) : ControllerState :=
  set_flag s false

/-- State `b` differs from state `a` at most in
`split_ratio_calculated_in_stable`, and not at all when the mode is Stable. -/
def flag_related (a b : ControllerState) : Prop :=
  b = set_flag a b.split_ratio_calculated_in_stable ∧
  (a.current_mode = NETCAS_MODE_STABLE → b = a)

/-- Two results of an iteration are both absent, or both present and
`flag_related`. -/
def option_flag_related : Option ControllerState → Option ControllerState → Prop
  | none, none => True
  | some a, some b => flag_related a b
  | _, _ => False

/-- Example inputs that lead from Idle through Warmup and Stable to
Congestion: throughput 1000, then 200 three times, the third after the warmup
period. -/
def sample_congestion_inputs : List cycle_input :=
  [⟨⟨0, 1000, 0⟩, 0⟩, ⟨⟨0, 200, 0⟩, 1⟩, ⟨⟨0, 200, 0⟩, 3000000001⟩, ⟨⟨0, 200, 0⟩, 3000000002⟩]

/-- The `drop_permil` argument of the call of `find_best_split_ratio` made in
an iteration of the loop of `split_monitor_func`, if the iteration makes one:
the constant 0 in the Warmup case, the loop local `drop_permil` in the Stable
and Congestion cases. -/
def cycle_find_best_drop_permil (s : ControllerState) (inp : cycle_input) : Option Nat :=
  match (cycle_determine s inp).current_mode with
  | NETCAS_MODE_IDLE => none
  | NETCAS_MODE_WARMUP => some 0
  | NETCAS_MODE_STABLE =>
    if !(cycle_push s inp).split_ratio_calculated_in_stable ∧
        (cycle_push s inp).rdma_window_count ≥ RDMA_WINDOW_SIZE then
      some (cycle_push s inp).drop_permil
    else none
  | NETCAS_MODE_CONGESTION =>
    if (cycle_push s inp).rdma_window_count ≥ RDMA_WINDOW_SIZE then
      some (cycle_push s inp).drop_permil
    else none
  | NETCAS_MODE_FAILURE => none

/-- Example of controller variables in mode Warmup with a non-empty window:
the variables after the cycles with throughput 1000 and 200 from the start
state (average 600, maximum of the average 1000). -/
def sample_warmup_state : ControllerState :=
  (split_monitor_run sample_lookup_bandwidth start_state
    [⟨⟨0, 1000, 0⟩, 0⟩, ⟨⟨0, 200, 0⟩, 1⟩]).getD start_state


/-! ## Specification-side definitions -/

/-- The backend estimate after derating, as the specification words it, over
the natural numbers: `bw_backend * (1000 - drop_permil) / 1000` when the
throughput exceeds `RDMA_THRESHOLD`, and `bw_backend` otherwise. -/
def spec_derated_backend (bw_backend curr_rdma_throughput drop_permil : Nat) : Nat :=
  if curr_rdma_throughput > RDMA_THRESHOLD then bw_backend * (1000 - drop_permil) / 1000
  else bw_backend

/-- The samples a window of capacity `RDMA_WINDOW_SIZE` holds after the
samples `xs` were pushed in order: the last `min xs.length 20` of them. -/
def spec_window_samples (xs : List Nat) : List Nat :=
  xs.drop (xs.length - RDMA_WINDOW_SIZE)

/-- Facts that hold of the controller variables between two iterations of the
monitor loop. -/
def loop_invariant (s : ControllerState) : Prop :=
  s.optimal_split_ratio ≤ SPLIT_RATIO_MAX ∧
  s.rdma_window_average ≤ s.max_average_rdma_throughput ∧
  s.max_average_rdma_throughput < U64 ∧
  s.drop_permil ≤ 1000

/-- The array as a history: its 20 initial zeros followed by the samples
pushed since the reset. -/
def window_history (xs : List Nat) : List Nat :=
  List.replicate RDMA_WINDOW_SIZE 0 ++ xs

/-- How the window variables relate to the samples `xs` pushed since the
reset: slot `(k + j) % 20` holds entry `k + j` of the history, where
`k = xs.length`, and the running sum is the sum of the last 20 entries of the
history modulo `2^64`. -/
def window_holds (s : ControllerState) (xs : List Nat) : Prop :=
  s.rdma_throughput_window.length = RDMA_WINDOW_SIZE ∧
  s.rdma_window_index = xs.length % RDMA_WINDOW_SIZE ∧
  s.rdma_window_count = min xs.length RDMA_WINDOW_SIZE ∧
  (∀ j, j < RDMA_WINDOW_SIZE →
    s.rdma_throughput_window.getD ((xs.length + j) % RDMA_WINDOW_SIZE) 0 =
      (window_history xs).getD (xs.length + j) 0) ∧
  s.rdma_window_sum = ((window_history xs).drop xs.length).sum % U64

/-- The condition of the first branch of `determine_netcas_mode`. -/
def idle_condition (curr_rdma_throughput curr_iops : Nat) : Prop :=
  curr_rdma_throughput ≤ RDMA_THRESHOLD ∧ curr_iops ≤ IOPS_THRESHOLD

instance (t i : Nat) : Decidable (idle_condition t i) := by
  unfold idle_condition; infer_instance

/-- The clock reading of cycle number `n`, counted from 0, of a list of
inputs (0 past its end). -/
def clock_of (inputs : List cycle_input) (n : Nat) : Nat :=
  (inputs.map (fun i => i.curr_time)).getD n 0

/-- The mode the constant-throughput scenario predicts after its `n`-th cycle,
`n >= 1`: Stable once the time elapsed since the first cycle, where Warmup is
entered, has reached `WARMUP_PERIOD_NS`, and Warmup before that. -/
def scenario_mode (inputs : List cycle_input) (n : Nat) : netCAS_mode_t :=
  if WARMUP_PERIOD_NS ≤ clock_of inputs (n - 1) - clock_of inputs 0 then NETCAS_MODE_STABLE
  else NETCAS_MODE_WARMUP

/-- The controller variables after `n >= 1` cycles of the constant-throughput
scenario: throughput `c`, Warmup entered at clock `t1`, ratio `r0`. -/
def scenario_invariant (c t1 r0 : Nat) (mode : netCAS_mode_t) (n : Nat)
    (s : ControllerState) : Prop :=
  s.current_mode = mode ∧
  s.last_nonzero_transition_time = t1 ∧
  s.netCAS_initialized = false ∧
  s.global_data_admit = false ∧
  s.drop_permil = 0 ∧
  s.rdma_window_average = c ∧
  s.max_average_rdma_throughput = c ∧
  window_holds s (List.replicate n c) ∧
  (s.split_ratio_calculated_in_stable = true ↔
    (mode = NETCAS_MODE_STABLE ∧ RDMA_WINDOW_SIZE ≤ n)) ∧
  s.optimal_split_ratio = r0

/-! ## Mode state machine: lemmas -/

theorem determine_idle (s : ControllerState) (ct thr lat iops dp : Nat)
    (h : idle_condition thr iops) :
    determine_netcas_mode s ct thr lat iops dp =
      { s with current_mode := NETCAS_MODE_IDLE, last_nonzero_transition_time := 0 } := by
  unfold idle_condition at h
  simp [determine_netcas_mode, h]

theorem determine_active_ne_idle (s : ControllerState) (ct thr lat iops dp : Nat)
    (h : ¬ idle_condition thr iops) :
    (determine_netcas_mode s ct thr lat iops dp).current_mode ≠ NETCAS_MODE_IDLE := by
  unfold idle_condition at h
  unfold determine_netcas_mode
  rw [if_neg h]
  split_ifs <;> simp_all [CACHING_FAILED]

theorem cycle_idle (lookup_bandwidth : Nat → Nat → Nat → Nat) (s : ControllerState)
    (inp : cycle_input)
    (h : idle_condition inp.current_rdma_metrics.rdma_throughput inp.current_rdma_metrics.iops) :
    ∃ s1, split_monitor_cycle lookup_bandwidth s inp = some s1 ∧
      s1.current_mode = NETCAS_MODE_IDLE := by
  unfold split_monitor_cycle
  simp only [determine_idle _ _ _ _ _ _ h]
  split_ifs <;> simp [init_netCAS, netcas_set_data_admit, split_set_optimal_ratio]

theorem run_idle (lookup_bandwidth : Nat → Nat → Nat → Nat) :
    ∀ (inputs : List cycle_input) (s : ControllerState),
      s.current_mode = NETCAS_MODE_IDLE →
      (∀ inp ∈ inputs,
        idle_condition inp.current_rdma_metrics.rdma_throughput inp.current_rdma_metrics.iops) →
      ∃ s1, split_monitor_run lookup_bandwidth s inputs = some s1 ∧
        s1.current_mode = NETCAS_MODE_IDLE := by
  intro inputs
  induction inputs with
  | nil => intro s hs _; exact ⟨s, rfl, hs⟩
  | cons inp rest ih =>
    intro s _ hall
    obtain ⟨s1, h1, hm⟩ := cycle_idle lookup_bandwidth s inp (hall inp (List.mem_cons_self _ _))
    obtain ⟨s2, h2, hm2⟩ := ih s1 hm (fun i hi => hall i (List.mem_cons_of_mem _ hi))
    exact ⟨s2, by simp [split_monitor_run, h1, h2], hm2⟩

/-- C7: for every prior mode and every input, `determine_netcas_mode` returns
Idle exactly when throughput <= RDMA_THRESHOLD and iops <= IOPS_THRESHOLD;
when it returns Idle the transition time is 0 afterwards; and from any state,
any non-empty run of monitor cycles whose snapshots all satisfy that condition
completes and ends in mode Idle. -/
theorem determine_netcas_mode_idle_iff (s : ControllerState)
    (curr_time thr lat iops dp : Nat) :
    ((determine_netcas_mode s curr_time thr lat iops dp).current_mode = NETCAS_MODE_IDLE ↔
      (thr ≤ RDMA_THRESHOLD ∧ iops ≤ IOPS_THRESHOLD)) ∧
    ((determine_netcas_mode s curr_time thr lat iops dp).current_mode = NETCAS_MODE_IDLE →
      (determine_netcas_mode s curr_time thr lat iops dp).last_nonzero_transition_time = 0) ∧
    (∀ (lookup_bandwidth : Nat → Nat → Nat → Nat) (inputs : List cycle_input),
      inputs ≠ [] →
      (∀ inp ∈ inputs, inp.current_rdma_metrics.rdma_throughput ≤ RDMA_THRESHOLD ∧
        inp.current_rdma_metrics.iops ≤ IOPS_THRESHOLD) →
      ∃ s1, split_monitor_run lookup_bandwidth s inputs = some s1 ∧
        s1.current_mode = NETCAS_MODE_IDLE) := by
  have hiff : (determine_netcas_mode s curr_time thr lat iops dp).current_mode
      = NETCAS_MODE_IDLE ↔ (thr ≤ RDMA_THRESHOLD ∧ iops ≤ IOPS_THRESHOLD) := by
    constructor
    · intro hm
      by_contra hc
      exact determine_active_ne_idle s curr_time thr lat iops dp hc hm
    · intro hc
      rw [determine_idle s curr_time thr lat iops dp hc]
  refine ⟨hiff, ?_, ?_⟩
  · intro hm
    rw [determine_idle s curr_time thr lat iops dp (hiff.mp hm)]
  · intro lookup_bandwidth inputs hne hall
    cases inputs with
    | nil => exact absurd rfl hne
    | cons inp rest =>
      obtain ⟨s1, h1, hm⟩ :=
        cycle_idle lookup_bandwidth s inp (hall inp (List.mem_cons_self _ _))
      obtain ⟨s2, h2, hm2⟩ := run_idle lookup_bandwidth rest s1 hm
        (fun i hi => hall i (List.mem_cons_of_mem _ hi))
      exact ⟨s2, by simp [split_monitor_run, h1, h2], hm2⟩

/-- Witness for C7 at throughput 0, iops 0 from the start state, over ten
cycles. -/
theorem determine_netcas_mode_idle_iff_witness :
    (determine_netcas_mode start_state 7 0 0 0 0).current_mode = NETCAS_MODE_IDLE ∧
    (determine_netcas_mode start_state 7 0 0 0 0).last_nonzero_transition_time = 0 ∧
    ∃ s1, split_monitor_run (fun _ _ _ => 1) start_state
        (List.replicate 10 ⟨⟨0, 0, 0⟩, 7⟩) = some s1 ∧
      s1.current_mode = NETCAS_MODE_IDLE :=
  have h := determine_netcas_mode_idle_iff start_state 7 0 0 0 0
  have hidle : (determine_netcas_mode start_state 7 0 0 0 0).current_mode
      = NETCAS_MODE_IDLE := h.1.mpr ⟨by decide, by decide⟩
  ⟨hidle, h.2.1 hidle,
    h.2.2 (fun _ _ _ => 1) (List.replicate 10 ⟨⟨0, 0, 0⟩, 7⟩) (by decide)
      (by
        intro inp hi
        rw [List.eq_of_mem_replicate hi]
        exact ⟨by decide, by decide⟩)⟩

/-- C8: for every input that does not satisfy the idle condition, a step of
`determine_netcas_mode` from mode Idle returns Warmup, stores the clock reading
in `last_nonzero_transition_time`, clears `netCAS_initialized` and changes
nothing else: the window, `split_ratio_calculated_in_stable` and every other
variable keep their values. -/
theorem determine_netcas_mode_idle_to_warmup (s : ControllerState)
    (curr_time thr lat iops dp : Nat)
    (hmode : s.current_mode = NETCAS_MODE_IDLE)
    (hactive : ¬ (thr ≤ RDMA_THRESHOLD ∧ iops ≤ IOPS_THRESHOLD)) :
    determine_netcas_mode s curr_time thr lat iops dp =
      { s with
        current_mode := NETCAS_MODE_WARMUP
        last_nonzero_transition_time := curr_time
        netCAS_initialized := false } ∧
    (determine_netcas_mode s curr_time thr lat iops dp).current_mode = NETCAS_MODE_WARMUP ∧
    (determine_netcas_mode s curr_time thr lat iops dp).last_nonzero_transition_time
      = curr_time ∧
    (determine_netcas_mode s curr_time thr lat iops dp).netCAS_initialized = false ∧
    (determine_netcas_mode s curr_time thr lat iops dp).rdma_throughput_window
      = s.rdma_throughput_window ∧
    (determine_netcas_mode s curr_time thr lat iops dp).rdma_window_index
      = s.rdma_window_index ∧
    (determine_netcas_mode s curr_time thr lat iops dp).rdma_window_sum
      = s.rdma_window_sum ∧
    (determine_netcas_mode s curr_time thr lat iops dp).rdma_window_count
      = s.rdma_window_count ∧
    (determine_netcas_mode s curr_time thr lat iops dp).rdma_window_average
      = s.rdma_window_average ∧
    (determine_netcas_mode s curr_time thr lat iops dp).max_average_rdma_throughput
      = s.max_average_rdma_throughput ∧
    (determine_netcas_mode s curr_time thr lat iops dp).split_ratio_calculated_in_stable
      = s.split_ratio_calculated_in_stable := by
  have h : determine_netcas_mode s curr_time thr lat iops dp =
      { s with
        current_mode := NETCAS_MODE_WARMUP
        last_nonzero_transition_time := curr_time
        netCAS_initialized := false } := by
    unfold determine_netcas_mode
    rw [if_neg hactive, if_pos hmode]
  rw [h]
  simp

/-- Witness for C8: throughput 200, iops 0, clock 12345, from the start
state. -/
theorem determine_netcas_mode_idle_to_warmup_witness :
    (determine_netcas_mode start_state 12345 200 0 0 0).current_mode = NETCAS_MODE_WARMUP ∧
    (determine_netcas_mode start_state 12345 200 0 0 0).last_nonzero_transition_time
      = 12345 :=
  have h := determine_netcas_mode_idle_to_warmup start_state 12345 200 0 0 0
    (by decide) (by decide)
  ⟨h.2.1, h.2.2.1⟩

theorem sub64_of_le (a b : Nat) (hb : b ≤ a) (ha : a < U64) : sub64 a b = a - b := by
  unfold sub64 U64 at *
  omega

/-- C9: for every non-idle input and every 64-bit clock reading
`now >= last_nonzero_transition_time`, a step of `determine_netcas_mode` from
mode Warmup returns Stable if and only if
`now - last_nonzero_transition_time >= WARMUP_PERIOD_NS`; in that case the only
changes are the mode and the cleared `split_ratio_calculated_in_stable`;
otherwise the step returns Warmup and changes no controller variable. -/
theorem determine_netcas_mode_warmup_step (s : ControllerState)
    (now thr lat iops dp : Nat)
    (hmode : s.current_mode = NETCAS_MODE_WARMUP)
    (hactive : ¬ (thr ≤ RDMA_THRESHOLD ∧ iops ≤ IOPS_THRESHOLD))
    (hclock : s.last_nonzero_transition_time ≤ now)
    (hnow : now < U64) :
    ((determine_netcas_mode s now thr lat iops dp).current_mode = NETCAS_MODE_STABLE ↔
      now - s.last_nonzero_transition_time ≥ WARMUP_PERIOD_NS) ∧
    (now - s.last_nonzero_transition_time ≥ WARMUP_PERIOD_NS →
      determine_netcas_mode s now thr lat iops dp =
        { s with
          current_mode := NETCAS_MODE_STABLE
          split_ratio_calculated_in_stable := false }) ∧
    (now - s.last_nonzero_transition_time < WARMUP_PERIOD_NS →
      determine_netcas_mode s now thr lat iops dp = s ∧
      (determine_netcas_mode s now thr lat iops dp).current_mode = NETCAS_MODE_WARMUP) := by
  have hne : s.current_mode ≠ NETCAS_MODE_IDLE := by rw [hmode]; decide
  have hsub := sub64_of_le now s.last_nonzero_transition_time hclock hnow
  have hge : now - s.last_nonzero_transition_time ≥ WARMUP_PERIOD_NS →
      determine_netcas_mode s now thr lat iops dp =
        { s with
          current_mode := NETCAS_MODE_STABLE
          split_ratio_calculated_in_stable := false } := by
    intro h
    unfold determine_netcas_mode
    rw [if_neg hactive, if_neg hne, if_pos hmode, hsub, if_pos h]
  have hlt : now - s.last_nonzero_transition_time < WARMUP_PERIOD_NS →
      determine_netcas_mode s now thr lat iops dp = s := by
    intro h
    unfold determine_netcas_mode
    rw [if_neg hactive, if_neg hne, if_pos hmode, hsub, if_neg (Nat.not_le.mpr h)]
  refine ⟨?_, hge, fun h => ⟨hlt h, by rw [hlt h, hmode]⟩⟩
  constructor
  · intro hst
    by_contra hc
    rw [hlt (Nat.not_le.mp hc), hmode] at hst
    exact absurd hst (by decide)
  · intro h
    rw [hge h]

/-- Witness for C9: Warmup entered at clock 1000; at clock 3000001000 the
elapsed time is exactly the warm-up period and the step returns Stable. -/
theorem determine_netcas_mode_warmup_step_witness :
    (determine_netcas_mode (determine_netcas_mode start_state 1000 200 0 0 0)
      3000001000 200 0 0 0).current_mode = NETCAS_MODE_STABLE :=
  (determine_netcas_mode_warmup_step (determine_netcas_mode start_state 1000 200 0 0 0)
    3000001000 200 0 0 0 (by decide) (by decide) (by decide) (by decide)).1.mpr (by decide)

/-- C10: for every non-idle input, a step of `determine_netcas_mode` from
Stable returns Congestion if and only if `drop_permil > 90`, a step from
Congestion returns Stable if and only if `drop_permil < 90`, and at
`drop_permil = 90` a step from Stable or from Congestion changes nothing, so
the mode is kept. -/
theorem determine_netcas_mode_stable_congestion (s : ControllerState)
    (curr_time thr lat iops dp : Nat)
    (hactive : ¬ (thr ≤ RDMA_THRESHOLD ∧ iops ≤ IOPS_THRESHOLD)) :
    (s.current_mode = NETCAS_MODE_STABLE →
      ((determine_netcas_mode s curr_time thr lat iops dp).current_mode
        = NETCAS_MODE_CONGESTION ↔ dp > CONGESTION_THRESHOLD)) ∧
    (s.current_mode = NETCAS_MODE_CONGESTION →
      ((determine_netcas_mode s curr_time thr lat iops dp).current_mode
        = NETCAS_MODE_STABLE ↔ dp < CONGESTION_THRESHOLD)) ∧
    (dp = CONGESTION_THRESHOLD →
      s.current_mode = NETCAS_MODE_STABLE ∨ s.current_mode = NETCAS_MODE_CONGESTION →
      determine_netcas_mode s curr_time thr lat iops dp = s ∧
      (determine_netcas_mode s curr_time thr lat iops dp).current_mode = s.current_mode) := by
  refine ⟨?_, ?_, ?_⟩
  · intro hm
    unfold determine_netcas_mode
    rw [if_neg hactive]
    by_cases hd : dp > CONGESTION_THRESHOLD
    · simp [hm, hd]
    · simp [hm, hd, CACHING_FAILED]
  · intro hm
    unfold determine_netcas_mode
    rw [if_neg hactive]
    by_cases hd : dp < CONGESTION_THRESHOLD
    · simp [hm, hd]
    · simp [hm, hd, CACHING_FAILED]
  · intro hd hm
    have hst : determine_netcas_mode s curr_time thr lat iops dp = s := by
      unfold determine_netcas_mode
      rw [if_neg hactive]
      rcases hm with hm | hm <;> simp [hm, hd, CACHING_FAILED, CONGESTION_THRESHOLD]
    exact ⟨hst, by rw [hst]⟩

/-- Witness for C10: from Stable with throughput 500, a drop of 150 permil
gives Congestion. -/
theorem determine_netcas_mode_stable_congestion_witness :
    (determine_netcas_mode { start_state with current_mode := NETCAS_MODE_STABLE }
      5 500 0 0 150).current_mode = NETCAS_MODE_CONGESTION :=
  ((determine_netcas_mode_stable_congestion
    { start_state with current_mode := NETCAS_MODE_STABLE } 5 500 0 0 150
    (by decide)).1 rfl).mpr (by decide)

/-! ## Arithmetic lemmas -/

theorem sub64_1000 (dp : Nat) (h : dp ≤ 1000) : sub64 1000 dp = 1000 - dp := by
  unfold sub64 U64
  omega

theorem derate_le (b dp : Nat) (h : dp ≤ 1000) : mul64 b (sub64 1000 dp) / 1000 ≤ b := by
  rw [sub64_1000 dp h]
  unfold mul64
  calc b * (1000 - dp) % U64 / 1000 ≤ b * (1000 - dp) / 1000 :=
        Nat.div_le_div_right (Nat.mod_le _ _)
    _ ≤ b * 1000 / 1000 := Nat.div_le_div_right (Nat.mul_le_mul_left b (Nat.sub_le _ _))
    _ = b := Nat.mul_div_cancel b (by norm_num)

theorem drop_le (m a : Nat) (ham : a ≤ m) (hm : m < U64) (hpos : 0 < m) :
    mul64 (sub64 m a) 1000 / m ≤ 1000 := by
  rw [sub64_of_le m a ham hm]
  unfold mul64
  by_cases h : (m - a) * 1000 < U64
  · rw [Nat.mod_eq_of_lt h]
    apply Nat.div_le_of_le_mul
    have : m - a ≤ m := Nat.sub_le _ _
    nlinarith
  · have h1 : (m - a) * 1000 % U64 < U64 := Nat.mod_lt _ (by unfold U64; norm_num)
    have h2 : U64 ≤ m * 1000 := by
      have : (m - a) * 1000 ≤ m * 1000 := Nat.mul_le_mul_right _ (Nat.sub_le _ _)
      omega
    apply Nat.le_of_lt
    rw [Nat.div_lt_iff_lt_mul hpos]
    omega

/-! ## Split-ratio formula: lemmas -/

theorem formula_none_iff (a b : Nat) :
    calculate_split_ratio_formula a b = none ↔ add64 a b = 0 := by
  unfold calculate_split_ratio_formula
  split_ifs with h <;> simp [h]

theorem formula_le (a b r : Nat) (h : calculate_split_ratio_formula a b = some r) :
    r ≤ SPLIT_RATIO_MAX := by
  unfold calculate_split_ratio_formula at h
  simp only [SPLIT_RATIO_MIN, SPLIT_RATIO_MAX] at *
  split_ifs at h <;> simp at h <;> omega

theorem formula_some (a b : Nat) (h : add64 a b ≠ 0) :
    ∃ r, calculate_split_ratio_formula a b = some r ∧ r ≤ SPLIT_RATIO_MAX := by
  cases hr : calculate_split_ratio_formula a b with
  | none => exact absurd ((formula_none_iff a b).mp hr) h
  | some r => exact ⟨r, rfl, formula_le a b r hr⟩

theorem find_best_some_le (lookup_bandwidth : Nat → Nat → Nat → Nat)
    (io_depth numjob thr dp : Nat)
    (hc : 0 < lookup_bandwidth io_depth numjob 100)
    (hsum : lookup_bandwidth io_depth numjob 100 + lookup_bandwidth io_depth numjob 0 < U64)
    (hdp : dp ≤ 1000) :
    ∃ r, find_best_split_ratio lookup_bandwidth io_depth numjob thr dp = some r ∧
      r ≤ SPLIT_RATIO_MAX := by
  unfold find_best_split_ratio
  apply formula_some
  have hle := derate_le (lookup_bandwidth io_depth numjob 0) dp hdp
  unfold add64
  split_ifs
  · rw [Nat.mod_eq_of_lt (by omega)]
    omega
  · rw [Nat.mod_eq_of_lt hsum]
    omega

/-- C5: for `drop_permil <= 1000`, a non-zero denominator and no 64-bit
overflow, `find_best_split_ratio` returns
`bw_cache * 10000 / (bw_cache + b)` with `b` the derated backend estimate of
the specification; the quotient is at most 10000, so the range checks leave it
as it is; and when the throughput is at most `RDMA_THRESHOLD` the result is
`bw_cache * 10000 / (bw_cache + bw_backend)`, whatever `drop_permil` is. -/
theorem find_best_split_ratio_formula (lookup_bandwidth : Nat → Nat → Nat → Nat)
    (io_depth numjob thr dp : Nat)
    (hdp : dp ≤ 1000)
    (hden : 0 < lookup_bandwidth io_depth numjob 100 +
      spec_derated_backend (lookup_bandwidth io_depth numjob 0) thr dp)
    (hmul : lookup_bandwidth io_depth numjob 100 * SPLIT_RATIO_SCALE < U64)
    (hderate : thr > RDMA_THRESHOLD →
      lookup_bandwidth io_depth numjob 0 * (1000 - dp) < U64)
    (hadd : lookup_bandwidth io_depth numjob 100 +
      spec_derated_backend (lookup_bandwidth io_depth numjob 0) thr dp < U64) :
    find_best_split_ratio lookup_bandwidth io_depth numjob thr dp =
      some (lookup_bandwidth io_depth numjob 100 * 10000 /
        (lookup_bandwidth io_depth numjob 100 +
          spec_derated_backend (lookup_bandwidth io_depth numjob 0) thr dp)) ∧
    lookup_bandwidth io_depth numjob 100 * 10000 /
        (lookup_bandwidth io_depth numjob 100 +
          spec_derated_backend (lookup_bandwidth io_depth numjob 0) thr dp) ≤ 10000 ∧
    (thr ≤ RDMA_THRESHOLD →
      find_best_split_ratio lookup_bandwidth io_depth numjob thr dp =
        some (lookup_bandwidth io_depth numjob 100 * 10000 /
          (lookup_bandwidth io_depth numjob 100 + lookup_bandwidth io_depth numjob 0))) := by
  have hq : lookup_bandwidth io_depth numjob 100 * 10000 /
        (lookup_bandwidth io_depth numjob 100 +
          spec_derated_backend (lookup_bandwidth io_depth numjob 0) thr dp) ≤ 10000 := by
    apply Nat.div_le_of_le_mul
    nlinarith [Nat.zero_le (spec_derated_backend (lookup_bandwidth io_depth numjob 0) thr dp)]
  have hb : (if thr > RDMA_THRESHOLD then
        mul64 (lookup_bandwidth io_depth numjob 0) (sub64 1000 dp) / 1000
      else lookup_bandwidth io_depth numjob 0) =
      spec_derated_backend (lookup_bandwidth io_depth numjob 0) thr dp := by
    unfold spec_derated_backend
    split_ifs with ht
    · rw [sub64_1000 dp hdp]
      unfold mul64
      rw [Nat.mod_eq_of_lt (hderate ht)]
    · rfl
  have hmain : find_best_split_ratio lookup_bandwidth io_depth numjob thr dp =
      some (lookup_bandwidth io_depth numjob 100 * 10000 /
        (lookup_bandwidth io_depth numjob 100 +
          spec_derated_backend (lookup_bandwidth io_depth numjob 0) thr dp)) := by
    unfold find_best_split_ratio
    simp only [hb]
    unfold calculate_split_ratio_formula add64 mul64
    simp only [SPLIT_RATIO_SCALE] at hmul
    simp only [SPLIT_RATIO_SCALE, SPLIT_RATIO_MIN, SPLIT_RATIO_MAX,
      Nat.mod_eq_of_lt hadd, Nat.mod_eq_of_lt hmul]
    rw [if_neg (by omega)]
    simp only [Nat.not_lt_zero, if_false]
    rw [if_neg (by omega)]
  refine ⟨hmain, hq, ?_⟩
  intro ht
  rw [hmain]
  unfold spec_derated_backend
  rw [if_neg (by omega)]

/-- Witness for C5: `bw_cache = 3000`, `bw_backend = 1000`, throughput 500,
`drop_permil = 100`: the backend is derated to 900 and the result is
`3000 * 10000 / 3900 = 7692`. -/
theorem find_best_split_ratio_formula_witness :
    find_best_split_ratio (fun _ _ split => if split = 100 then 3000 else 1000)
      IO_DEPTH NUM_JOBS 500 100 = some 7692 :=
  (find_best_split_ratio_formula (fun _ _ split => if split = 100 then 3000 else 1000)
    IO_DEPTH NUM_JOBS 500 100 (by decide) (by decide) (by decide) (by decide)
    (by decide)).1

/-- C6 (behaviour of the code where the claim fails): with both bandwidth
estimates 0 the 64-bit denominator is 0, so `find_best_split_ratio` has no
result, whatever the throughput and `drop_permil`; consequently a Warmup
cycle of the monitor loop (throughput 200) has no result either: no ratio,
old or new, is returned. -/
theorem find_best_split_ratio_zero_denominator :
    (∀ thr dp : Nat,
      find_best_split_ratio (fun _ _ _ => 0) IO_DEPTH NUM_JOBS thr dp = none) ∧
    split_monitor_cycle (fun _ _ _ => 0) start_state ⟨⟨0, 200, 0⟩, 5⟩ = none := by
  have h : ∀ thr dp : Nat,
      find_best_split_ratio (fun _ _ _ => 0) IO_DEPTH NUM_JOBS thr dp = none := by
    intro thr dp
    unfold find_best_split_ratio
    rw [formula_none_iff]
    split_ifs <;> simp [add64, mul64]
  refine ⟨h, ?_⟩
  decide

/-! ## Window: lemmas -/

theorem update_max_eq (s : ControllerState) (x : Nat) :
    (update_rdma_window s x).max_average_rdma_throughput =
      max s.max_average_rdma_throughput (update_rdma_window s x).rdma_window_average := by
  unfold update_rdma_window
  by_cases hc : s.rdma_window_count < RDMA_WINDOW_SIZE <;> simp only [hc, if_true, if_false]
  all_goals split_ifs with hm
  all_goals simp only []
  all_goals omega

theorem update_max_ge (s : ControllerState) (x : Nat) :
    s.max_average_rdma_throughput ≤ (update_rdma_window s x).max_average_rdma_throughput := by
  rw [update_max_eq]
  exact Nat.le_max_left _ _

theorem foldl_update_max_ge (xs : List Nat) :
    ∀ s : ControllerState, s.max_average_rdma_throughput ≤
      (xs.foldl update_rdma_window s).max_average_rdma_throughput := by
  induction xs with
  | nil => intro s; exact Nat.le_refl _
  | cons x rest ih =>
    intro s
    exact Nat.le_trans (update_max_ge s x) (ih (update_rdma_window s x))

/-- C3: for every window state and every sample, `max_average_rdma_throughput`
after `update_rdma_window` is the maximum of its old value and the new
`rdma_window_average`, hence at least its old value; and along any sequence of
pushes it never decreases: after more pushes it is at least what it was after
fewer. -/
theorem update_rdma_window_max_average (s : ControllerState) (x : Nat) :
    (update_rdma_window s x).max_average_rdma_throughput =
      max s.max_average_rdma_throughput (update_rdma_window s x).rdma_window_average ∧
    s.max_average_rdma_throughput ≤ (update_rdma_window s x).max_average_rdma_throughput ∧
    (∀ xs ys : List Nat,
      (xs.foldl update_rdma_window s).max_average_rdma_throughput ≤
        ((xs ++ ys).foldl update_rdma_window s).max_average_rdma_throughput) := by
  refine ⟨update_max_eq s x, update_max_ge s x, ?_⟩
  intro xs ys
  rw [List.foldl_append]
  exact foldl_update_max_ge ys _

/-! ## The monitor loop: invariant -/

theorem U64_pos : 0 < U64 := by decide

theorem determine_keeps (s : ControllerState) (ct thr lat iops dp : Nat) :
    (determine_netcas_mode s ct thr lat iops dp).optimal_split_ratio = s.optimal_split_ratio ∧
    (determine_netcas_mode s ct thr lat iops dp).rdma_window_average
      = s.rdma_window_average ∧
    (determine_netcas_mode s ct thr lat iops dp).max_average_rdma_throughput
      = s.max_average_rdma_throughput ∧
    (determine_netcas_mode s ct thr lat iops dp).drop_permil = s.drop_permil ∧
    ControllerState.global_data_admit (determine_netcas_mode s ct thr lat iops dp)
      = s.global_data_admit := by
  unfold determine_netcas_mode
  split_ifs <;> simp

theorem determine_invariant (s : ControllerState) (ct thr lat iops dp : Nat)
    (h : loop_invariant s) : loop_invariant (determine_netcas_mode s ct thr lat iops dp) := by
  obtain ⟨h1, h2, h3, h4, _⟩ := determine_keeps s ct thr lat iops dp
  unfold loop_invariant at *
  rw [h1, h2, h3, h4]
  exact h

theorem update_keeps (s : ControllerState) (x : Nat) :
    (update_rdma_window s x).optimal_split_ratio = s.optimal_split_ratio ∧
    (update_rdma_window s x).drop_permil = s.drop_permil ∧
    (update_rdma_window s x).current_mode = s.current_mode ∧
    ControllerState.global_data_admit (update_rdma_window s x) = s.global_data_admit ∧
    (update_rdma_window s x).netCAS_initialized = s.netCAS_initialized ∧
    (update_rdma_window s x).split_ratio_calculated_in_stable
      = s.split_ratio_calculated_in_stable ∧
    (update_rdma_window s x).last_nonzero_transition_time
      = s.last_nonzero_transition_time := by
  unfold update_rdma_window
  by_cases hc : s.rdma_window_count < RDMA_WINDOW_SIZE <;> simp only [hc, if_true, if_false]
  all_goals split_ifs
  all_goals simp

theorem update_average_lt (s : ControllerState) (x : Nat) :
    (update_rdma_window s x).rdma_window_average < U64 := by
  unfold update_rdma_window
  by_cases hc : s.rdma_window_count < RDMA_WINDOW_SIZE <;> simp only [hc, if_true, if_false]
  all_goals split_ifs
  all_goals simp only [add64]
  all_goals exact Nat.lt_of_le_of_lt (Nat.div_le_self _ _) (Nat.mod_lt _ U64_pos)

theorem update_invariant (s : ControllerState) (x : Nat) (h : loop_invariant s) :
    loop_invariant (update_rdma_window s x) := by
  obtain ⟨h1, h2, _⟩ := update_keeps s x
  have hmax := update_max_eq s x
  have havg := update_average_lt s x
  unfold loop_invariant at *
  rw [h1, h2, hmax]
  refine ⟨h.1, Nat.le_max_right _ _, ?_, h.2.2.2⟩
  exact max_lt h.2.2.1 havg

theorem init_invariant (s : ControllerState) (h : s.drop_permil ≤ 1000) :
    loop_invariant (init_netCAS s) := by
  unfold loop_invariant init_netCAS split_set_optimal_ratio netcas_set_data_admit
  simp only []
  exact ⟨Nat.le_refl _, Nat.le_refl _, U64_pos, h⟩

theorem cycle_invariant (lookup_bandwidth : Nat → Nat → Nat → Nat)
    (hc : 0 < lookup_bandwidth IO_DEPTH NUM_JOBS 100)
    (hsum : lookup_bandwidth IO_DEPTH NUM_JOBS 100 + lookup_bandwidth IO_DEPTH NUM_JOBS 0 < U64)
    (s : ControllerState) (inp : cycle_input) (h : loop_invariant s) :
    ∃ s1, split_monitor_cycle lookup_bandwidth s inp = some s1 ∧ loop_invariant s1 := by
  -- the congestion signal computed at the top of the iteration
  have hdrop : loop_invariant
      (if s.max_average_rdma_throughput > 0 then
        { s with drop_permil :=
            mul64 (sub64 s.max_average_rdma_throughput s.rdma_window_average) 1000 /
              s.max_average_rdma_throughput }
      else s) := by
    split_ifs with hpos
    · exact ⟨h.1, h.2.1, h.2.2.1, drop_le _ _ h.2.1 h.2.2.1 hpos⟩
    · exact h
  unfold split_monitor_cycle
  simp only []
  generalize (if s.max_average_rdma_throughput > 0 then
        { s with drop_permil :=
            mul64 (sub64 s.max_average_rdma_throughput s.rdma_window_average) 1000 /
              s.max_average_rdma_throughput }
      else s) = s0 at hdrop ⊢
  have hdet := determine_invariant s0 inp.curr_time inp.current_rdma_metrics.rdma_throughput
    inp.current_rdma_metrics.rdma_latency inp.current_rdma_metrics.iops s0.drop_permil hdrop
  generalize determine_netcas_mode s0 inp.curr_time inp.current_rdma_metrics.rdma_throughput
    inp.current_rdma_metrics.rdma_latency inp.current_rdma_metrics.iops s0.drop_permil
    = s2 at hdet ⊢
  have hadm : loop_invariant ( netcas_set_data_admit s2 false) := hdet
  have hupd := update_invariant ( netcas_set_data_admit s2 false)
    inp.current_rdma_metrics.rdma_throughput hadm
  generalize hs3 : update_rdma_window ( netcas_set_data_admit s2 false)
    inp.current_rdma_metrics.rdma_throughput = s3 at hupd
  cases hm : s2.current_mode with
  | NETCAS_MODE_IDLE =>
    simp only []
    split_ifs
    · exact ⟨_, rfl, init_invariant s2 hdet.2.2.2⟩
    · exact ⟨_, rfl, hdet⟩
  | NETCAS_MODE_WARMUP =>
    simp only [hs3]
    obtain ⟨r, hr, hle⟩ := find_best_some_le lookup_bandwidth IO_DEPTH NUM_JOBS
      inp.current_rdma_metrics.rdma_throughput 0 hc hsum (Nat.zero_le _)
    rw [hr]
    exact ⟨_, rfl, hle, hupd.2.1, hupd.2.2.1, hupd.2.2.2⟩
  | NETCAS_MODE_STABLE =>
    simp only [hs3]
    obtain ⟨r, hr, hle⟩ := find_best_some_le lookup_bandwidth IO_DEPTH NUM_JOBS
      inp.current_rdma_metrics.rdma_throughput s3.drop_permil hc hsum hupd.2.2.2
    rw [hr]
    split_ifs
    · exact ⟨_, rfl, hle, hupd.2.1, hupd.2.2.1, hupd.2.2.2⟩
    · exact ⟨_, rfl, hupd⟩
  | NETCAS_MODE_CONGESTION =>
    simp only [hs3]
    obtain ⟨r, hr, hle⟩ := find_best_some_le lookup_bandwidth IO_DEPTH NUM_JOBS
      inp.current_rdma_metrics.rdma_throughput s3.drop_permil hc hsum hupd.2.2.2
    rw [hr]
    by_cases hfull : s3.rdma_window_count ≥ RDMA_WINDOW_SIZE
    · by_cases hneq : r ≠ s3.optimal_split_ratio
      · simp only [hfull, hneq, if_true, ne_eq, not_false_eq_true]
        exact ⟨_, rfl, hle, hupd.2.1, hupd.2.2.1, hupd.2.2.2⟩
      · simp only [hfull, hneq, if_true, if_false]
        exact ⟨_, rfl, hupd⟩
    · simp only [hfull, if_false]
      exact ⟨_, rfl, hupd⟩
  | NETCAS_MODE_FAILURE =>
    exact ⟨_, rfl, hdet⟩

theorem run_invariant (lookup_bandwidth : Nat → Nat → Nat → Nat)
    (hc : 0 < lookup_bandwidth IO_DEPTH NUM_JOBS 100)
    (hsum : lookup_bandwidth IO_DEPTH NUM_JOBS 100 + lookup_bandwidth IO_DEPTH NUM_JOBS 0 < U64) :
    ∀ (inputs : List cycle_input) (s : ControllerState), loop_invariant s →
      ∃ s1, split_monitor_run lookup_bandwidth s inputs = some s1 ∧ loop_invariant s1 := by
  intro inputs
  induction inputs with
  | nil => intro s hs; exact ⟨s, rfl, hs⟩
  | cons inp rest ih =>
    intro s hs
    obtain ⟨s1, h1, hi1⟩ := cycle_invariant lookup_bandwidth hc hsum s inp hs
    obtain ⟨s2, h2, hi2⟩ := ih s1 hi1
    exact ⟨s2, by simp [split_monitor_run, h1, h2], hi2⟩

/-- C1: start the controller with `init_netCAS` (the loop local `drop_permil`
being 0, as at thread start) and run any finite sequence of monitor cycles
with arbitrary snapshots and clock readings.  If the bandwidth oracle gives
`bw_cache > 0` and the products `bw_cache * 10000` and `bw_backend * 1000` fit
in 64 bits, every cycle completes and the value returned by
`netcas_query_optimal_split_ratio` in the state reached is within [0,10000]. -/
theorem query_optimal_split_ratio_in_range (lookup_bandwidth : Nat → Nat → Nat → Nat)
    (s0 : ControllerState) (inputs : List cycle_input)
    (hstart : s0.drop_permil = 0)
    (hc : 0 < lookup_bandwidth IO_DEPTH NUM_JOBS 100)
    (hmulc : lookup_bandwidth IO_DEPTH NUM_JOBS 100 * SPLIT_RATIO_SCALE < U64)
    (hmulb : lookup_bandwidth IO_DEPTH NUM_JOBS 0 * 1000 < U64) :
    ∃ s, split_monitor_run lookup_bandwidth (init_netCAS s0) inputs = some s ∧
      SPLIT_RATIO_MIN ≤ netcas_query_optimal_split_ratio s ∧
      netcas_query_optimal_split_ratio s ≤ SPLIT_RATIO_MAX := by
  have hsum : lookup_bandwidth IO_DEPTH NUM_JOBS 100 + lookup_bandwidth IO_DEPTH NUM_JOBS 0
      < U64 := by
    unfold SPLIT_RATIO_SCALE U64 at *
    omega
  have hinit : loop_invariant (init_netCAS s0) := init_invariant s0 (by omega)
  obtain ⟨s, hrun, hinv⟩ := run_invariant lookup_bandwidth hc hsum inputs (init_netCAS s0) hinit
  exact ⟨s, hrun, Nat.zero_le _, hinv.1⟩

/-- Witness for C1: `bw_cache = 3000`, `bw_backend = 1000`, from the first
start of the monitor, over an idle cycle and two active cycles. -/
theorem query_optimal_split_ratio_in_range_witness :
    ∃ s, split_monitor_run (fun _ _ split => if split = 100 then 3000 else 1000)
        (init_netCAS static_state)
        [⟨⟨0, 0, 0⟩, 10⟩, ⟨⟨0, 500, 2000⟩, 20⟩, ⟨⟨0, 400, 2000⟩, 30⟩] = some s ∧
      SPLIT_RATIO_MIN ≤ netcas_query_optimal_split_ratio s ∧
      netcas_query_optimal_split_ratio s ≤ SPLIT_RATIO_MAX :=
  query_optimal_split_ratio_in_range (fun _ _ split => if split = 100 then 3000 else 1000)
    static_state [⟨⟨0, 0, 0⟩, 10⟩, ⟨⟨0, 500, 2000⟩, 20⟩, ⟨⟨0, 400, 2000⟩, 30⟩]
    (by decide) (by decide) (by decide) (by decide)

/-! ## Window: contents after a sequence of pushes -/

theorem update_fields (s : ControllerState) (x : Nat) :
    (update_rdma_window s x).rdma_throughput_window
      = s.rdma_throughput_window.set s.rdma_window_index x ∧
    (update_rdma_window s x).rdma_window_index
      = add64 s.rdma_window_index 1 % RDMA_WINDOW_SIZE ∧
    (update_rdma_window s x).rdma_window_count
      = (if s.rdma_window_count < RDMA_WINDOW_SIZE then add64 s.rdma_window_count 1
          else s.rdma_window_count) ∧
    (update_rdma_window s x).rdma_window_sum
      = add64 (if s.rdma_window_count < RDMA_WINDOW_SIZE then s.rdma_window_sum
          else sub64 s.rdma_window_sum
            (s.rdma_throughput_window.getD s.rdma_window_index 0)) x ∧
    (update_rdma_window s x).rdma_window_average
      = (update_rdma_window s x).rdma_window_sum /
          (update_rdma_window s x).rdma_window_count := by
  unfold update_rdma_window
  by_cases hc : s.rdma_window_count < RDMA_WINDOW_SIZE <;> simp only [hc, if_true, if_false]
  all_goals split_ifs
  all_goals simp

theorem window_history_length (xs : List Nat) :
    (window_history xs).length = RDMA_WINDOW_SIZE + xs.length := by
  simp [window_history]

theorem window_history_snoc (xs : List Nat) (x : Nat) :
    window_history (xs ++ [x]) = window_history xs ++ [x] := by
  simp [window_history]

theorem window_history_zero (xs : List Nat) (k : Nat) (hk : k < RDMA_WINDOW_SIZE) :
    (window_history xs).getD k 0 = 0 := by
  unfold window_history
  rw [List.getD_eq_getElem?_getD, List.getElem?_append_left (by simpa using hk)]
  simp [hk]

theorem window_history_lt (xs : List Nat) (hxs : ∀ y ∈ xs, y < U64) (k : Nat) :
    (window_history xs).getD k 0 < U64 := by
  rw [List.getD_eq_getElem?_getD]
  cases h : (window_history xs)[k]? with
  | none => exact U64_pos
  | some v =>
    have hmem : v ∈ window_history xs := List.getElem?_mem h
    unfold window_history at hmem
    rcases List.mem_append.mp hmem with h0 | h1
    · rw [(List.mem_replicate.mp h0).2]
      exact U64_pos
    · exact hxs v h1

theorem drop_sum_split (H : List Nat) (k : Nat) (hk : k < H.length) :
    (H.drop k).sum = H.getD k 0 + (H.drop (k + 1)).sum := by
  rw [List.drop_eq_getElem_cons hk, List.sum_cons, List.getD_eq_getElem?_getD,
    List.getElem?_eq_getElem hk]
  rfl

theorem drop_sum_snoc (H : List Nat) (k x : Nat) (hk : k + 1 ≤ H.length) :
    ((H ++ [x]).drop (k + 1)).sum = (H.drop (k + 1)).sum + x := by
  rw [List.drop_append_of_le_length hk]
  simp

theorem window_history_sum (xs : List Nat) :
    ((window_history xs).drop xs.length).sum = (spec_window_samples xs).sum := by
  unfold window_history spec_window_samples
  rw [List.drop_append_eq_append_drop]
  simp

theorem init_window_holds (s : ControllerState) : window_holds (init_netCAS s) [] := by
  unfold window_holds init_netCAS split_set_optimal_ratio netcas_set_data_admit
  refine ⟨by simp, by simp, by simp, ?_, ?_⟩
  · intro j hj
    simp only [List.length_nil, Nat.zero_add, Nat.mod_eq_of_lt hj]
    rw [window_history_zero [] j hj]
    simp [List.getD_eq_getElem?_getD, hj]
  · simp [window_history, U64]

theorem update_window_holds (s : ControllerState) (xs : List Nat) (x : Nat)
    (h : window_holds s xs) (hxs : ∀ y ∈ xs, y < U64) :
    window_holds (update_rdma_window s x) (xs ++ [x]) := by
  obtain ⟨hlen, hidx, hcnt, hpt, hsum⟩ := h
  obtain ⟨fw, fi, fc, fs, _⟩ := update_fields s x
  have hHlen := window_history_length xs
  have hR : RDMA_WINDOW_SIZE = 20 := rfl
  have hhead : s.rdma_throughput_window.getD s.rdma_window_index 0
      = (window_history xs).getD xs.length 0 := by
    have := hpt 0 (by decide)
    rw [Nat.add_zero] at this
    rw [hidx]
    exact this
  have hheadlt := window_history_lt xs hxs xs.length
  have hsplit := drop_sum_split (window_history xs) xs.length (by omega)
  have hsnoc := drop_sum_snoc (window_history xs) xs.length x (by omega)
  unfold window_holds
  rw [fw, fi, fc, fs, window_history_snoc, List.length_append, List.length_singleton]
  refine ⟨by simp [hlen], ?_, ?_, ?_, ?_⟩
  · rw [hidx]
    unfold add64 U64 RDMA_WINDOW_SIZE
    omega
  · rw [hcnt]
    unfold add64 U64 RDMA_WINDOW_SIZE
    split_ifs <;> omega
  · intro j hj
    by_cases hj19 : j + 1 < RDMA_WINDOW_SIZE
    · have hne : s.rdma_window_index ≠ (xs.length + 1 + j) % RDMA_WINDOW_SIZE := by
        rw [hidx]
        unfold RDMA_WINDOW_SIZE at *
        omega
      have hold := hpt (j + 1) hj19
      rw [List.getD_eq_getElem?_getD, List.getElem?_set_ne hne,
        ← List.getD_eq_getElem?_getD]
      rw [show xs.length + 1 + j = xs.length + (j + 1) by omega, hold]
      rw [List.getD_eq_getElem?_getD, List.getD_eq_getElem?_getD,
        List.getElem?_append_left (by omega)]
    · have hj' : j = RDMA_WINDOW_SIZE - 1 := by omega
      have heq : (xs.length + 1 + j) % RDMA_WINDOW_SIZE = s.rdma_window_index := by
        rw [hidx, hj']
        unfold RDMA_WINDOW_SIZE
        omega
      have hpos : xs.length + 1 + j = (window_history xs).length := by
        rw [hHlen, hj']
        unfold RDMA_WINDOW_SIZE
        omega
      have hlt : s.rdma_window_index < s.rdma_throughput_window.length := by
        rw [hlen, hidx]
        exact Nat.mod_lt _ (by decide)
      rw [heq, hpos]
      simp [List.getD_eq_getElem?_getD, List.getElem?_set, hlt]
  · rw [hsnoc, hcnt, hsum, hhead, hsplit]
    by_cases hk : xs.length < RDMA_WINDOW_SIZE
    · have hz := window_history_zero xs xs.length hk
      have hmin : min xs.length RDMA_WINDOW_SIZE < RDMA_WINDOW_SIZE := by
        rw [Nat.min_eq_left (Nat.le_of_lt hk)]; exact hk
      rw [if_pos hmin, hz]
      unfold add64 U64
      omega
    · have hmin : ¬ min xs.length RDMA_WINDOW_SIZE < RDMA_WINDOW_SIZE := by
        rw [Nat.min_eq_right (by omega)]; exact Nat.lt_irrefl _
      rw [if_neg hmin]
      unfold add64 sub64 U64 at *
      omega

theorem foldl_window_holds (s : ControllerState) (xs : List Nat) (hxs : ∀ y ∈ xs, y < U64) :
    window_holds (xs.foldl update_rdma_window (init_netCAS s)) xs := by
  induction xs using List.reverseRecOn with
  | nil => exact init_window_holds s
  | append_singleton xs x ih =>
    rw [List.foldl_append]
    have hxs' : ∀ y ∈ xs, y < U64 := fun y hy => hxs y (List.mem_append_left _ hy)
    exact update_window_holds _ xs x (ih hxs') hxs'

/-- C2: push `k >= 1` 64-bit samples `xs` with `update_rdma_window` onto the
window left by `init_netCAS`.  If the sum of the last `min k 20` samples fits
in 64 bits (overflow of earlier running sums does not matter, the arithmetic
being modular), then `rdma_window_count = min k 20`, so it is at most 20;
`rdma_window_sum` is the sum of the last `min k 20` samples; and
`rdma_window_average = rdma_window_sum / rdma_window_count`, truncated. -/
theorem update_rdma_window_after_pushes (s : ControllerState) (xs : List Nat)
    (hk : 1 ≤ xs.length)
    (hxs : ∀ y ∈ xs, y < U64)
    (hfit : (spec_window_samples xs).sum < U64) :
    (xs.foldl update_rdma_window (init_netCAS s)).rdma_window_count
      = min xs.length RDMA_WINDOW_SIZE ∧
    (xs.foldl update_rdma_window (init_netCAS s)).rdma_window_count ≤ RDMA_WINDOW_SIZE ∧
    (spec_window_samples xs).length = min xs.length RDMA_WINDOW_SIZE ∧
    (xs.foldl update_rdma_window (init_netCAS s)).rdma_window_sum
      = (spec_window_samples xs).sum ∧
    (xs.foldl update_rdma_window (init_netCAS s)).rdma_window_average
      = (xs.foldl update_rdma_window (init_netCAS s)).rdma_window_sum /
        (xs.foldl update_rdma_window (init_netCAS s)).rdma_window_count := by
  obtain ⟨_, _, hcnt, _, hsum⟩ := foldl_window_holds s xs hxs
  refine ⟨hcnt, ?_, ?_, ?_, ?_⟩
  · rw [hcnt]
    exact Nat.min_le_right _ _
  · unfold spec_window_samples
    rw [List.length_drop]
    omega
  · rw [hsum, window_history_sum, Nat.mod_eq_of_lt hfit]
  · rcases List.eq_nil_or_concat xs with hnil | ⟨ys, x, hys⟩
    · rw [hnil] at hk
      exact absurd hk (by decide)
    · rw [hys, List.concat_eq_append, List.foldl_append]
      exact (update_fields _ x).2.2.2.2

/-- Witness for C2: 21 samples 10, 20, ..., 210 pushed after the first
initialisation; the first sample has been evicted. -/
theorem update_rdma_window_after_pushes_witness :
    ([10, 20, 30, 40, 50, 60, 70, 80, 90, 100, 110, 120, 130, 140, 150, 160, 170, 180,
        190, 200, 210].foldl update_rdma_window (init_netCAS static_state)).rdma_window_count
      = 20 ∧
    ([10, 20, 30, 40, 50, 60, 70, 80, 90, 100, 110, 120, 130, 140, 150, 160, 170, 180,
        190, 200, 210].foldl update_rdma_window (init_netCAS static_state)).rdma_window_sum
      = 2300 :=
  have h := update_rdma_window_after_pushes static_state
    [10, 20, 30, 40, 50, 60, 70, 80, 90, 100, 110, 120, 130, 140, 150, 160, 170, 180,
      190, 200, 210] (by decide) (by decide) (by decide)
  ⟨h.1, h.2.2.2.1⟩

/-! ## The monitor loop, case by case -/

theorem cycle_log_dispatch (lookup_bandwidth : Nat → Nat → Nat → Nat) (s : ControllerState)
    (inp : cycle_input) :
    split_monitor_cycle_log lookup_bandwidth s inp =
      cycle_dispatch_log lookup_bandwidth (cycle_determine s inp)
        inp.current_rdma_metrics.rdma_throughput := rfl

theorem cycle_eq_log (lookup_bandwidth : Nat → Nat → Nat → Nat) (s : ControllerState)
    (inp : cycle_input) :
    split_monitor_cycle lookup_bandwidth s inp =
      (split_monitor_cycle_log lookup_bandwidth s inp).map Prod.fst := by
  rw [cycle_log_dispatch]
  have hc : split_monitor_cycle lookup_bandwidth s inp =
      match (cycle_determine s inp).current_mode with
      | NETCAS_MODE_IDLE =>
        if !(cycle_determine s inp).netCAS_initialized then
          some (init_netCAS (cycle_determine s inp))
        else some (cycle_determine s inp)
      | NETCAS_MODE_WARMUP =>
        match find_best_split_ratio lookup_bandwidth IO_DEPTH NUM_JOBS
            inp.current_rdma_metrics.rdma_throughput 0 with
        | none => none
        | some split_ratio =>
          some (split_set_optimal_ratio
            { cycle_push s inp with optimal_split_ratio := split_ratio } split_ratio)
      | NETCAS_MODE_STABLE =>
        if !(cycle_push s inp).split_ratio_calculated_in_stable ∧
            (cycle_push s inp).rdma_window_count ≥ RDMA_WINDOW_SIZE then
          match find_best_split_ratio lookup_bandwidth IO_DEPTH NUM_JOBS
              inp.current_rdma_metrics.rdma_throughput (cycle_push s inp).drop_permil with
          | none => none
          | some split_ratio =>
            some { split_set_optimal_ratio
              { cycle_push s inp with optimal_split_ratio := split_ratio } split_ratio with
              split_ratio_calculated_in_stable := true }
        else some (cycle_push s inp)
      | NETCAS_MODE_CONGESTION =>
        if (cycle_push s inp).rdma_window_count ≥ RDMA_WINDOW_SIZE then
          match find_best_split_ratio lookup_bandwidth IO_DEPTH NUM_JOBS
              inp.current_rdma_metrics.rdma_throughput (cycle_push s inp).drop_permil with
          | none => none
          | some split_ratio =>
            if split_ratio ≠ (cycle_push s inp).optimal_split_ratio then
              some (split_set_optimal_ratio
                { cycle_push s inp with optimal_split_ratio := split_ratio } split_ratio)
            else some (cycle_push s inp)
        else some (cycle_push s inp)
      | NETCAS_MODE_FAILURE => some (cycle_determine s inp) := rfl
  rw [hc]
  unfold cycle_dispatch_log cycle_push
  generalize cycle_determine s inp = d
  cases d.current_mode with
  | NETCAS_MODE_IDLE => simp only []; split_ifs <;> rfl
  | NETCAS_MODE_WARMUP => simp only []; split <;> rfl
  | NETCAS_MODE_STABLE =>
    simp only []
    split_ifs
    · split <;> rfl
    · rfl
  | NETCAS_MODE_CONGESTION =>
    simp only []
    split_ifs
    · split
      · rfl
      · split_ifs <;> rfl
    · rfl
  | NETCAS_MODE_FAILURE => rfl

theorem cycle_log_idle (lookup_bandwidth : Nat → Nat → Nat → Nat) (s : ControllerState)
    (inp : cycle_input) (h : (cycle_determine s inp).current_mode = NETCAS_MODE_IDLE) :
    split_monitor_cycle_log lookup_bandwidth s inp =
      if (cycle_determine s inp).netCAS_initialized = false then
        some (init_netCAS (cycle_determine s inp), [SPLIT_RATIO_MAX])
      else some (cycle_determine s inp, []) := by
  rw [cycle_log_dispatch]
  unfold cycle_dispatch_log
  rw [h]
  simp only []
  split_ifs <;> simp_all

theorem cycle_log_warmup (lookup_bandwidth : Nat → Nat → Nat → Nat) (s : ControllerState)
    (inp : cycle_input) (h : (cycle_determine s inp).current_mode = NETCAS_MODE_WARMUP) :
    split_monitor_cycle_log lookup_bandwidth s inp =
      (find_best_split_ratio lookup_bandwidth IO_DEPTH NUM_JOBS
        inp.current_rdma_metrics.rdma_throughput 0).map
        (fun r => ({ cycle_push s inp with optimal_split_ratio := r }, [r])) := by
  rw [cycle_log_dispatch]
  unfold cycle_dispatch_log cycle_push
  rw [h]
  simp only []
  cases find_best_split_ratio lookup_bandwidth IO_DEPTH NUM_JOBS
    inp.current_rdma_metrics.rdma_throughput 0 <;> rfl

theorem cycle_log_stable (lookup_bandwidth : Nat → Nat → Nat → Nat) (s : ControllerState)
    (inp : cycle_input) (h : (cycle_determine s inp).current_mode = NETCAS_MODE_STABLE) :
    split_monitor_cycle_log lookup_bandwidth s inp =
      if (cycle_push s inp).split_ratio_calculated_in_stable = false ∧
          RDMA_WINDOW_SIZE ≤ (cycle_push s inp).rdma_window_count then
        (find_best_split_ratio lookup_bandwidth IO_DEPTH NUM_JOBS
          inp.current_rdma_metrics.rdma_throughput (cycle_push s inp).drop_permil).map
          (fun r => ({ cycle_push s inp with
            optimal_split_ratio := r, split_ratio_calculated_in_stable := true }, [r]))
      else some (cycle_push s inp, []) := by
  rw [cycle_log_dispatch]
  unfold cycle_dispatch_log cycle_push
  rw [h]
  simp only []
  generalize update_rdma_window ( netcas_set_data_admit (cycle_determine s inp) false)
    inp.current_rdma_metrics.rdma_throughput = p
  by_cases hf : p.split_ratio_calculated_in_stable = false ∧ RDMA_WINDOW_SIZE ≤ p.rdma_window_count
  · rw [if_pos hf, if_pos (by simpa using hf)]
    cases find_best_split_ratio lookup_bandwidth IO_DEPTH NUM_JOBS
      inp.current_rdma_metrics.rdma_throughput p.drop_permil <;> rfl
  · rw [if_neg hf, if_neg (by simpa using hf)]

theorem cycle_log_congestion (lookup_bandwidth : Nat → Nat → Nat → Nat) (s : ControllerState)
    (inp : cycle_input) (h : (cycle_determine s inp).current_mode = NETCAS_MODE_CONGESTION) :
    split_monitor_cycle_log lookup_bandwidth s inp =
      if RDMA_WINDOW_SIZE ≤ (cycle_push s inp).rdma_window_count then
        (find_best_split_ratio lookup_bandwidth IO_DEPTH NUM_JOBS
          inp.current_rdma_metrics.rdma_throughput (cycle_push s inp).drop_permil).map
          (fun r =>
            if r ≠ (cycle_push s inp).optimal_split_ratio then
              ({ cycle_push s inp with optimal_split_ratio := r }, [r])
            else (cycle_push s inp, []))
      else some (cycle_push s inp, []) := by
  rw [cycle_log_dispatch]
  unfold cycle_dispatch_log cycle_push
  rw [h]
  simp only []
  generalize update_rdma_window ( netcas_set_data_admit (cycle_determine s inp) false)
    inp.current_rdma_metrics.rdma_throughput = p
  by_cases hf : RDMA_WINDOW_SIZE ≤ p.rdma_window_count
  · rw [if_pos hf, if_pos hf]
    cases find_best_split_ratio lookup_bandwidth IO_DEPTH NUM_JOBS
      inp.current_rdma_metrics.rdma_throughput p.drop_permil with
    | none => rfl
    | some r =>
      simp only [Option.map]
      split_ifs <;> rfl
  · rw [if_neg hf, if_neg hf]

theorem cycle_log_failure (lookup_bandwidth : Nat → Nat → Nat → Nat) (s : ControllerState)
    (inp : cycle_input) (h : (cycle_determine s inp).current_mode = NETCAS_MODE_FAILURE) :
    split_monitor_cycle_log lookup_bandwidth s inp = some (cycle_determine s inp, []) := by
  rw [cycle_log_dispatch]
  unfold cycle_dispatch_log
  rw [h]

/-! ## The monitor loop: which variables each step leaves alone -/

theorem cycle_drop_keeps (s : ControllerState) :
    cycle_drop s = { s with drop_permil := (cycle_drop s).drop_permil } := by
  unfold cycle_drop
  split_ifs <;> rfl

theorem cycle_drop_of_zero (s : ControllerState) (h : s.max_average_rdma_throughput = 0) :
    cycle_drop s = s := by
  unfold cycle_drop
  rw [if_neg (by omega)]

theorem cycle_drop_of_pos (s : ControllerState) (h : 0 < s.max_average_rdma_throughput) :
    cycle_drop s =
      { s with drop_permil :=
          mul64 (sub64 s.max_average_rdma_throughput s.rdma_window_average) 1000 /
            s.max_average_rdma_throughput } := by
  unfold cycle_drop
  rw [if_pos h]

theorem determine_keeps_window (s : ControllerState) (ct thr lat iops dp : Nat) :
    (determine_netcas_mode s ct thr lat iops dp).rdma_throughput_window
      = s.rdma_throughput_window ∧
    (determine_netcas_mode s ct thr lat iops dp).rdma_window_index = s.rdma_window_index ∧
    (determine_netcas_mode s ct thr lat iops dp).rdma_window_sum = s.rdma_window_sum ∧
    (determine_netcas_mode s ct thr lat iops dp).rdma_window_count = s.rdma_window_count := by
  unfold determine_netcas_mode
  split_ifs <;> simp

theorem determine_not_failure (s : ControllerState) (ct thr lat iops dp : Nat)
    (h : s.current_mode ≠ NETCAS_MODE_FAILURE) :
    (determine_netcas_mode s ct thr lat iops dp).current_mode ≠ NETCAS_MODE_FAILURE := by
  unfold determine_netcas_mode
  split_ifs <;> simp_all [CACHING_FAILED]

theorem cycle_drop_mode (s : ControllerState) :
    (cycle_drop s).current_mode = s.current_mode := by
  rw [cycle_drop_keeps]

theorem cycle_push_keeps (s : ControllerState) (inp : cycle_input) :
    (cycle_push s inp).current_mode = (cycle_determine s inp).current_mode ∧
    (cycle_push s inp).drop_permil = (cycle_drop s).drop_permil ∧
    (cycle_push s inp).optimal_split_ratio = s.optimal_split_ratio ∧
    ControllerState.global_data_admit (cycle_push s inp) = false ∧
    (cycle_push s inp).netCAS_initialized = (cycle_determine s inp).netCAS_initialized ∧
    (cycle_push s inp).split_ratio_calculated_in_stable
      = (cycle_determine s inp).split_ratio_calculated_in_stable ∧
    (cycle_push s inp).last_nonzero_transition_time
      = (cycle_determine s inp).last_nonzero_transition_time := by
  obtain ⟨h1, h2, h3, h4, h5, h6, h7⟩ :=
    update_keeps ( netcas_set_data_admit (cycle_determine s inp) false)
      inp.current_rdma_metrics.rdma_throughput
  obtain ⟨d1, _, _, d4, _⟩ := determine_keeps (cycle_drop s) inp.curr_time
    inp.current_rdma_metrics.rdma_throughput inp.current_rdma_metrics.rdma_latency
    inp.current_rdma_metrics.iops (cycle_drop s).drop_permil
  unfold cycle_push
  rw [h1, h2, h3, h4, h5, h6, h7]
  refine ⟨rfl, ?_, ?_, rfl, rfl, rfl, rfl⟩
  · exact d4
  · show (cycle_determine s inp).optimal_split_ratio = s.optimal_split_ratio
    unfold cycle_determine
    rw [d1, cycle_drop_keeps]

theorem cycle_log_mode (lookup_bandwidth : Nat → Nat → Nat → Nat) (s s1 : ControllerState)
    (inp : cycle_input) (w : List Nat)
    (h : split_monitor_cycle_log lookup_bandwidth s inp = some (s1, w)) :
    s1.current_mode = (cycle_determine s inp).current_mode := by
  have hp := (cycle_push_keeps s inp).1
  cases hm : (cycle_determine s inp).current_mode with
  | NETCAS_MODE_IDLE =>
    rw [cycle_log_idle lookup_bandwidth s inp hm] at h
    split_ifs at h <;> simp only [Option.some.injEq, Prod.mk.injEq] at h <;> rw [← h.1]
    · exact hm
    · exact hm
  | NETCAS_MODE_WARMUP =>
    rw [cycle_log_warmup lookup_bandwidth s inp hm] at h
    cases hr : find_best_split_ratio lookup_bandwidth IO_DEPTH NUM_JOBS
        inp.current_rdma_metrics.rdma_throughput 0 with
    | none => rw [hr] at h; simp at h
    | some r =>
      rw [hr] at h
      simp only [Option.map, Option.some.injEq, Prod.mk.injEq] at h
      rw [← h.1]
      exact hp.trans hm
  | NETCAS_MODE_STABLE =>
    rw [cycle_log_stable lookup_bandwidth s inp hm] at h
    split_ifs at h
    · cases hr : find_best_split_ratio lookup_bandwidth IO_DEPTH NUM_JOBS
          inp.current_rdma_metrics.rdma_throughput (cycle_push s inp).drop_permil with
      | none => rw [hr] at h; simp at h
      | some r =>
        rw [hr] at h
        simp only [Option.map, Option.some.injEq, Prod.mk.injEq] at h
        rw [← h.1]
        exact hp.trans hm
    · simp only [Option.some.injEq, Prod.mk.injEq] at h
      rw [← h.1]
      exact hp.trans hm
  | NETCAS_MODE_CONGESTION =>
    rw [cycle_log_congestion lookup_bandwidth s inp hm] at h
    split_ifs at h
    · cases hr : find_best_split_ratio lookup_bandwidth IO_DEPTH NUM_JOBS
          inp.current_rdma_metrics.rdma_throughput (cycle_push s inp).drop_permil with
      | none => rw [hr] at h; simp at h
      | some r =>
        rw [hr] at h
        simp only [Option.map, Option.some.injEq] at h
        split_ifs at h <;> simp only [Prod.mk.injEq] at h <;> rw [← h.1]
        · exact hp.trans hm
        · exact hp.trans hm
    · simp only [Option.some.injEq, Prod.mk.injEq] at h
      rw [← h.1]
      exact hp.trans hm
  | NETCAS_MODE_FAILURE =>
    rw [cycle_log_failure lookup_bandwidth s inp hm] at h
    simp only [Option.some.injEq, Prod.mk.injEq] at h
    rw [← h.1]
    exact hm

theorem cycle_some_log (lookup_bandwidth : Nat → Nat → Nat → Nat) (s s1 : ControllerState)
    (inp : cycle_input) (h : split_monitor_cycle lookup_bandwidth s inp = some s1) :
    ∃ w, split_monitor_cycle_log lookup_bandwidth s inp = some (s1, w) := by
  rw [cycle_eq_log] at h
  cases hl : split_monitor_cycle_log lookup_bandwidth s inp with
  | none => rw [hl] at h; simp at h
  | some p =>
    rw [hl] at h
    simp only [Option.map, Option.some.injEq] at h
    exact ⟨p.2, by rw [← h]⟩

theorem cycle_mode (lookup_bandwidth : Nat → Nat → Nat → Nat) (s s1 : ControllerState)
    (inp : cycle_input) (h : split_monitor_cycle lookup_bandwidth s inp = some s1) :
    s1.current_mode = (cycle_determine s inp).current_mode := by
  obtain ⟨w, hw⟩ := cycle_some_log lookup_bandwidth s s1 inp h
  exact cycle_log_mode lookup_bandwidth s s1 inp w hw

theorem run_append (lookup_bandwidth : Nat → Nat → Nat → Nat) (xs ys : List cycle_input) :
    ∀ s : ControllerState, split_monitor_run lookup_bandwidth s (xs ++ ys) =
      (split_monitor_run lookup_bandwidth s xs).bind
        (fun s1 => split_monitor_run lookup_bandwidth s1 ys) := by
  induction xs with
  | nil => intro s; rfl
  | cons x rest ih =>
    intro s
    simp only [List.cons_append, split_monitor_run]
    cases split_monitor_cycle lookup_bandwidth s x with
    | none => rfl
    | some s1 => exact ih s1

theorem run_snoc (lookup_bandwidth : Nat → Nat → Nat → Nat) (xs : List cycle_input)
    (x : cycle_input) (s : ControllerState) :
    split_monitor_run lookup_bandwidth s (xs ++ [x]) =
      (split_monitor_run lookup_bandwidth s xs).bind
        (fun s1 => split_monitor_cycle lookup_bandwidth s1 x) := by
  rw [run_append]
  cases split_monitor_run lookup_bandwidth s xs with
  | none => rfl
  | some s1 =>
    simp only [Option.bind, split_monitor_run]
    cases split_monitor_cycle lookup_bandwidth s1 x <;> rfl

/-! ## Idle cycles, initialisation, the Failure mode -/

theorem cycle_determine_idle (s : ControllerState) (inp : cycle_input)
    (h : idle_condition inp.current_rdma_metrics.rdma_throughput inp.current_rdma_metrics.iops) :
    cycle_determine s inp =
      { cycle_drop s with current_mode := NETCAS_MODE_IDLE, last_nonzero_transition_time := 0 } := by
  unfold cycle_determine
  rw [determine_idle _ _ _ _ _ _ h]

theorem cycle_idle_fixed (lookup_bandwidth : Nat → Nat → Nat → Nat) (s : ControllerState)
    (inp : cycle_input)
    (hmode : s.current_mode = NETCAS_MODE_IDLE)
    (hlast : s.last_nonzero_transition_time = 0)
    (hinit : s.netCAS_initialized = true)
    (hmax : s.max_average_rdma_throughput = 0)
    (h : idle_condition inp.current_rdma_metrics.rdma_throughput inp.current_rdma_metrics.iops) :
    split_monitor_cycle_log lookup_bandwidth s inp = some (s, []) := by
  have hd : cycle_determine s inp = s := by
    rw [cycle_determine_idle s inp h, cycle_drop_of_zero s hmax]
    cases s
    simp_all
  have hm : (cycle_determine s inp).current_mode = NETCAS_MODE_IDLE := by rw [hd, hmode]
  rw [cycle_log_idle lookup_bandwidth s inp hm, hd, hinit]
  simp

theorem run_idle_fixed (lookup_bandwidth : Nat → Nat → Nat → Nat) (s : ControllerState)
    (hmode : s.current_mode = NETCAS_MODE_IDLE)
    (hlast : s.last_nonzero_transition_time = 0)
    (hinit : s.netCAS_initialized = true)
    (hmax : s.max_average_rdma_throughput = 0) :
    ∀ inputs : List cycle_input,
      (∀ inp ∈ inputs,
        idle_condition inp.current_rdma_metrics.rdma_throughput inp.current_rdma_metrics.iops) →
      split_monitor_run lookup_bandwidth s inputs = some s := by
  intro inputs
  induction inputs with
  | nil => intro _; rfl
  | cons inp rest ih =>
    intro hall
    have h1 : split_monitor_cycle lookup_bandwidth s inp = some s := by
      rw [cycle_eq_log, cycle_idle_fixed lookup_bandwidth s inp hmode hlast hinit hmax
        (hall inp (List.mem_cons_self _ _))]
      rfl
    simp only [split_monitor_run, h1]
    exact ih (fun i hi => hall i (List.mem_cons_of_mem _ hi))

/-- C11: from the start state (mode Idle after `init_netCAS`), for every
sequence of cycles whose snapshots all satisfy the idle condition and every
number `n` of them, the first `n` cycles complete and leave the mode Idle, the
published split ratio 10000 and `data_admit` true (the controller variables
are those of the start state). -/
theorem idle_cycles_from_start (lookup_bandwidth : Nat → Nat → Nat → Nat)
    (inputs : List cycle_input) (n : Nat)
    (hidle : ∀ inp ∈ inputs, inp.current_rdma_metrics.rdma_throughput ≤ RDMA_THRESHOLD ∧
      inp.current_rdma_metrics.iops ≤ IOPS_THRESHOLD) :
    ∃ s, split_monitor_run lookup_bandwidth start_state (inputs.take n) = some s ∧
      s = start_state ∧
      s.current_mode = NETCAS_MODE_IDLE ∧
      netcas_query_optimal_split_ratio s = 10000 ∧
      netcas_query_data_admit s = true := by
  refine ⟨start_state, ?_, rfl, rfl, rfl, rfl⟩
  exact run_idle_fixed lookup_bandwidth start_state rfl rfl rfl rfl (inputs.take n)
    (fun inp hi => hidle inp (List.mem_of_mem_take hi))

/-- Witness for C11: throughput 0 and iops 0 for 10 cycles. -/
theorem idle_cycles_from_start_witness :
    ∃ s, split_monitor_run (fun _ _ _ => 1) start_state
        ((List.replicate 10 ⟨⟨0, 0, 0⟩, 7⟩).take 10) = some s ∧
      s = start_state ∧
      s.current_mode = NETCAS_MODE_IDLE ∧
      netcas_query_optimal_split_ratio s = 10000 ∧
      netcas_query_data_admit s = true :=
  idle_cycles_from_start (fun _ _ _ => 1) (List.replicate 10 ⟨⟨0, 0, 0⟩, 7⟩) 10
    (by
      intro inp hi
      rw [List.eq_of_mem_replicate hi]
      exact ⟨by decide, by decide⟩)

/-- C15: from every controller state `init_netCAS` yields the reset state:
the window is 20 zeros, `rdma_window_sum`, `rdma_window_index`,
`rdma_window_count`, `rdma_window_average` and `max_average_rdma_throughput`
are 0, the published split ratio is 10000, `data_admit` is true,
`last_nonzero_transition_time` is 0, `split_ratio_calculated_in_stable` is
false and `netCAS_initialized` is true; `current_mode` (and the loop local
`drop_permil`) keep their values. -/
theorem init_netCAS_reset (s : ControllerState) :
    init_netCAS s =
      { rdma_throughput_window := List.replicate 20 0
        rdma_window_index := 0
        rdma_window_sum := 0
        rdma_window_count := 0
        rdma_window_average := 0
        max_average_rdma_throughput := 0
        last_nonzero_transition_time := 0
        netCAS_initialized := true
        split_ratio_calculated_in_stable := false
        optimal_split_ratio := 10000
        global_data_admit := true
        current_mode := s.current_mode
        drop_permil := s.drop_permil } ∧
    (init_netCAS s).rdma_throughput_window.length = 20 ∧
    (∀ i, i < 20 → (init_netCAS s).rdma_throughput_window.getD i 7 = 0) ∧
    netcas_query_optimal_split_ratio (init_netCAS s) = 10000 ∧
    netcas_query_data_admit (init_netCAS s) = true ∧
    (init_netCAS s).current_mode = s.current_mode := by
  refine ⟨rfl, ?_, ?_, rfl, rfl, rfl⟩
  · simp [init_netCAS, netcas_set_data_admit, split_set_optimal_ratio, RDMA_WINDOW_SIZE]
  · intro i hi
    simp only [init_netCAS, netcas_set_data_admit, split_set_optimal_ratio, RDMA_WINDOW_SIZE]
    rw [List.getD_eq_getElem?_getD, List.getElem?_replicate]
    simp [hi]

theorem run_not_failure (lookup_bandwidth : Nat → Nat → Nat → Nat) :
    ∀ (inputs : List cycle_input) (s s1 : ControllerState),
      s.current_mode ≠ NETCAS_MODE_FAILURE →
      split_monitor_run lookup_bandwidth s inputs = some s1 →
      s1.current_mode ≠ NETCAS_MODE_FAILURE := by
  intro inputs
  induction inputs with
  | nil =>
    intro s s1 hs h
    simp only [split_monitor_run, Option.some.injEq] at h
    rw [← h]
    exact hs
  | cons inp rest ih =>
    intro s s1 hs h
    simp only [split_monitor_run] at h
    cases hc : split_monitor_cycle lookup_bandwidth s inp with
    | none => rw [hc] at h; simp at h
    | some s2 =>
      rw [hc] at h
      have hm := cycle_mode lookup_bandwidth s s2 inp hc
      have hnf : s2.current_mode ≠ NETCAS_MODE_FAILURE := by
        rw [hm]
        unfold cycle_determine
        exact determine_not_failure _ _ _ _ _ _ (by rw [cycle_drop_mode]; exact hs)
      exact ih s2 s1 hnf h

/-- C20: in every state the monitor loop reaches from the start state (mode
Idle), over any finite sequence of snapshots and clock readings, the mode is
not Failure, and whatever the next snapshot, clock reading and `drop_permil`
are, the mode `determine_netcas_mode` returns there is not Failure either. -/
theorem mode_never_failure (lookup_bandwidth : Nat → Nat → Nat → Nat)
    (inputs : List cycle_input) (s : ControllerState)
    (hrun : split_monitor_run lookup_bandwidth start_state inputs = some s) :
    s.current_mode ≠ NETCAS_MODE_FAILURE ∧
    (∀ inp : cycle_input, (cycle_determine s inp).current_mode ≠ NETCAS_MODE_FAILURE) ∧
    (∀ curr_time thr lat iops dp : Nat,
      (determine_netcas_mode s curr_time thr lat iops dp).current_mode
        ≠ NETCAS_MODE_FAILURE) := by
  have hs : s.current_mode ≠ NETCAS_MODE_FAILURE :=
    run_not_failure lookup_bandwidth inputs start_state s (by decide) hrun
  refine ⟨hs, ?_, ?_⟩
  · intro inp
    unfold cycle_determine
    exact determine_not_failure _ _ _ _ _ _ (by rw [cycle_drop_mode]; exact hs)
  · intro curr_time thr lat iops dp
    exact determine_not_failure s curr_time thr lat iops dp hs

/-- Witness for C20: two active cycles from the start state end in mode
Stable; a step with a drop of 950 permil then gives Congestion, not Failure. -/
theorem mode_never_failure_witness :
    (determine_netcas_mode
      { rdma_throughput_window := [500, 500, 0, 0, 0, 0, 0, 0, 0, 0, 0, 0, 0, 0, 0, 0, 0, 0, 0, 0]
        rdma_window_index := 2
        rdma_window_sum := 1000
        rdma_window_count := 2
        rdma_window_average := 500
        max_average_rdma_throughput := 500
        last_nonzero_transition_time := 10
        netCAS_initialized := false
        split_ratio_calculated_in_stable := false
        optimal_split_ratio := 7500
        global_data_admit := false
        current_mode := NETCAS_MODE_STABLE
        drop_permil := 0 } 3000000020 500 0 0 950).current_mode ≠ NETCAS_MODE_FAILURE :=
  (mode_never_failure sample_lookup_bandwidth
    [⟨⟨0, 500, 0⟩, 10⟩, ⟨⟨0, 500, 0⟩, 3000000010⟩] _ (by decide)).2.2 3000000020 500 0 0 950

/-! ## Window variables through a cycle -/

theorem same_window_refl (a : ControllerState) : same_window a a :=
  ⟨rfl, rfl, rfl, rfl, rfl, rfl⟩

theorem update_same_window (a b : ControllerState) (x : Nat) (h : same_window a b) :
    same_window (update_rdma_window a x) (update_rdma_window b x) := by
  obtain ⟨hw, hi, hs, hc, _, hm⟩ := h
  obtain ⟨a1, a2, a3, a4, a5⟩ := update_fields a x
  obtain ⟨b1, b2, b3, b4, b5⟩ := update_fields b x
  have hsum : (update_rdma_window a x).rdma_window_sum
      = (update_rdma_window b x).rdma_window_sum := by
    rw [a4, b4, hw, hi, hs, hc]
  have hcnt : (update_rdma_window a x).rdma_window_count
      = (update_rdma_window b x).rdma_window_count := by
    rw [a3, b3, hc]
  have havg : (update_rdma_window a x).rdma_window_average
      = (update_rdma_window b x).rdma_window_average := by
    rw [a5, b5, hsum, hcnt]
  refine ⟨?_, ?_, hsum, hcnt, havg, ?_⟩
  · rw [a1, b1, hw, hi]
  · rw [a2, b2, hi]
  · rw [update_max_eq a x, update_max_eq b x, hm, havg]

theorem cycle_determine_same_window (s : ControllerState) (inp : cycle_input) :
    same_window (cycle_determine s inp) s := by
  obtain ⟨_, h2, h3, _, _⟩ := determine_keeps (cycle_drop s) inp.curr_time
    inp.current_rdma_metrics.rdma_throughput inp.current_rdma_metrics.rdma_latency
    inp.current_rdma_metrics.iops (cycle_drop s).drop_permil
  obtain ⟨w1, w2, w3, w4⟩ := determine_keeps_window (cycle_drop s) inp.curr_time
    inp.current_rdma_metrics.rdma_throughput inp.current_rdma_metrics.rdma_latency
    inp.current_rdma_metrics.iops (cycle_drop s).drop_permil
  unfold same_window cycle_determine
  rw [h2, h3, w1, w2, w3, w4, cycle_drop_keeps]
  exact ⟨rfl, rfl, rfl, rfl, rfl, rfl⟩

theorem cycle_push_same_window (s : ControllerState) (inp : cycle_input) :
    same_window (cycle_push s inp)
      (update_rdma_window s inp.current_rdma_metrics.rdma_throughput) := by
  unfold cycle_push
  apply update_same_window
  exact cycle_determine_same_window s inp

/-! ## The split-ratio formula without overflow -/

theorem find_best_exact (lookup_bandwidth : Nat → Nat → Nat → Nat)
    (io_depth numjob thr dp : Nat)
    (hdp : dp ≤ 1000)
    (hden : 0 < lookup_bandwidth io_depth numjob 100 +
      spec_derated_backend (lookup_bandwidth io_depth numjob 0) thr dp)
    (hmul : lookup_bandwidth io_depth numjob 100 * SPLIT_RATIO_SCALE < U64)
    (hderate : thr > RDMA_THRESHOLD →
      lookup_bandwidth io_depth numjob 0 * (1000 - dp) < U64)
    (hadd : lookup_bandwidth io_depth numjob 100 +
      spec_derated_backend (lookup_bandwidth io_depth numjob 0) thr dp < U64) :
    find_best_split_ratio lookup_bandwidth io_depth numjob thr dp =
      some (lookup_bandwidth io_depth numjob 100 * 10000 /
        (lookup_bandwidth io_depth numjob 100 +
          spec_derated_backend (lookup_bandwidth io_depth numjob 0) thr dp)) := by
  have hq : lookup_bandwidth io_depth numjob 100 * 10000 /
        (lookup_bandwidth io_depth numjob 100 +
          spec_derated_backend (lookup_bandwidth io_depth numjob 0) thr dp) ≤ 10000 := by
    apply Nat.div_le_of_le_mul
    nlinarith [Nat.zero_le (spec_derated_backend (lookup_bandwidth io_depth numjob 0) thr dp)]
  have hb : (if thr > RDMA_THRESHOLD then
        mul64 (lookup_bandwidth io_depth numjob 0) (sub64 1000 dp) / 1000
      else lookup_bandwidth io_depth numjob 0) =
      spec_derated_backend (lookup_bandwidth io_depth numjob 0) thr dp := by
    unfold spec_derated_backend
    split_ifs with ht
    · rw [sub64_1000 dp hdp]
      unfold mul64
      rw [Nat.mod_eq_of_lt (hderate ht)]
    · rfl
  unfold find_best_split_ratio
  simp only [hb]
  unfold calculate_split_ratio_formula add64 mul64
  simp only [SPLIT_RATIO_SCALE] at hmul
  simp only [SPLIT_RATIO_SCALE, SPLIT_RATIO_MIN, SPLIT_RATIO_MAX,
    Nat.mod_eq_of_lt hadd, Nat.mod_eq_of_lt hmul]
  rw [if_neg (by omega)]
  simp only [Nat.not_lt_zero, if_false]
  rw [if_neg (by omega)]

theorem spec_derated_zero_drop (b thr : Nat) : spec_derated_backend b thr 0 = b := by
  unfold spec_derated_backend
  split_ifs
  · simp
  · rfl

/-- C19: for every cycle whose resulting mode is Warmup, with a non-zero
denominator and no 64-bit overflow, the cycle completes; afterwards
`data_admit` is false, the six window variables are those that
`update_rdma_window` yields from the variables at the start of the cycle with
the cycle's throughput sample, and the published ratio is
`bw_cache * 10000 / (bw_cache + bw_backend)` with the un-derated backend
estimate, an expression that contains neither the cycle's throughput nor its
`drop_permil` nor the ratio published before. -/
theorem warmup_cycle (lookup_bandwidth : Nat → Nat → Nat → Nat)
    (s : ControllerState) (inp : cycle_input)
    (hmode : (cycle_determine s inp).current_mode = NETCAS_MODE_WARMUP)
    (hden : 0 < lookup_bandwidth IO_DEPTH NUM_JOBS 100 + lookup_bandwidth IO_DEPTH NUM_JOBS 0)
    (hmul : lookup_bandwidth IO_DEPTH NUM_JOBS 100 * SPLIT_RATIO_SCALE < U64)
    (hderate : inp.current_rdma_metrics.rdma_throughput > RDMA_THRESHOLD →
      lookup_bandwidth IO_DEPTH NUM_JOBS 0 * 1000 < U64)
    (hadd : lookup_bandwidth IO_DEPTH NUM_JOBS 100 + lookup_bandwidth IO_DEPTH NUM_JOBS 0
      < U64) :
    ∃ s1, split_monitor_cycle lookup_bandwidth s inp = some s1 ∧
      s1.current_mode = NETCAS_MODE_WARMUP ∧
      netcas_query_data_admit s1 = false ∧
      same_window s1 (update_rdma_window s inp.current_rdma_metrics.rdma_throughput) ∧
      netcas_query_optimal_split_ratio s1 =
        lookup_bandwidth IO_DEPTH NUM_JOBS 100 * 10000 /
          (lookup_bandwidth IO_DEPTH NUM_JOBS 100 + lookup_bandwidth IO_DEPTH NUM_JOBS 0) := by
  have hfb := find_best_exact lookup_bandwidth IO_DEPTH NUM_JOBS
    inp.current_rdma_metrics.rdma_throughput 0 (Nat.zero_le _)
    (by rw [spec_derated_zero_drop]; exact hden) hmul
    (by intro ht; exact hderate ht)
    (by rw [spec_derated_zero_drop]; exact hadd)
  rw [spec_derated_zero_drop] at hfb
  obtain ⟨p1, _, _, p4, _⟩ := cycle_push_keeps s inp
  have hc : split_monitor_cycle lookup_bandwidth s inp =
      some { cycle_push s inp with
        optimal_split_ratio := lookup_bandwidth IO_DEPTH NUM_JOBS 100 * 10000 /
          (lookup_bandwidth IO_DEPTH NUM_JOBS 100 + lookup_bandwidth IO_DEPTH NUM_JOBS 0) } := by
    rw [cycle_eq_log, cycle_log_warmup lookup_bandwidth s inp hmode, hfb]
    rfl
  exact ⟨_, hc, p1.trans hmode, p4, cycle_push_same_window s inp, rfl⟩

/-- Witness for C19: the first active cycle from the start state, throughput
500, with the example oracle: the published ratio is 3000 * 10000 / 4000. -/
theorem warmup_cycle_witness :
    ∃ s1, split_monitor_cycle sample_lookup_bandwidth start_state ⟨⟨0, 500, 0⟩, 10⟩ = some s1 ∧
      s1.current_mode = NETCAS_MODE_WARMUP ∧
      netcas_query_data_admit s1 = false ∧
      same_window s1 (update_rdma_window start_state 500) ∧
      netcas_query_optimal_split_ratio s1 = 3000 * 10000 / (3000 + 1000) :=
  warmup_cycle sample_lookup_bandwidth start_state ⟨⟨0, 500, 0⟩, 10⟩
    (by decide) (by decide) (by decide) (by decide) (by decide)

/-- C14: in a cycle whose resulting mode is Congestion, the sample is pushed
first (the window variables are those `update_rdma_window` yields from the
start of the cycle).  If `rdma_window_count >= 20` after the push, the ratio
is computed by `find_best_split_ratio` with the cycle's `drop_permil`; when
that value `r` exists the published ratio after the cycle is `r`, and
`split_set_optimal_ratio` is called (once, with `r`) exactly when `r` differs
from the ratio published before.  If `rdma_window_count < 20` nothing is
computed or written and the published ratio is unchanged. -/
theorem congestion_cycle (lookup_bandwidth : Nat → Nat → Nat → Nat)
    (s : ControllerState) (inp : cycle_input)
    (hmode : (cycle_determine s inp).current_mode = NETCAS_MODE_CONGESTION) :
    same_window (cycle_push s inp)
      (update_rdma_window s inp.current_rdma_metrics.rdma_throughput) ∧
    netcas_query_optimal_split_ratio (cycle_push s inp) = netcas_query_optimal_split_ratio s ∧
    (RDMA_WINDOW_SIZE ≤ (cycle_push s inp).rdma_window_count →
      split_monitor_cycle_log lookup_bandwidth s inp =
        (find_best_split_ratio lookup_bandwidth IO_DEPTH NUM_JOBS
          inp.current_rdma_metrics.rdma_throughput (cycle_drop s).drop_permil).map
          (fun r => ({ cycle_push s inp with optimal_split_ratio := r },
            if r ≠ netcas_query_optimal_split_ratio s then [r] else []))) ∧
    ((cycle_push s inp).rdma_window_count < RDMA_WINDOW_SIZE →
      split_monitor_cycle_log lookup_bandwidth s inp = some (cycle_push s inp, [])) := by
  obtain ⟨_, p2, p3, _⟩ := cycle_push_keeps s inp
  refine ⟨cycle_push_same_window s inp, p3, ?_, ?_⟩
  · intro hfull
    rw [cycle_log_congestion lookup_bandwidth s inp hmode, if_pos hfull, p2, p3]
    cases find_best_split_ratio lookup_bandwidth IO_DEPTH NUM_JOBS
      inp.current_rdma_metrics.rdma_throughput (cycle_drop s).drop_permil with
    | none => rfl
    | some r =>
      simp only [Option.map, netcas_query_optimal_split_ratio]
      by_cases hr : r = s.optimal_split_ratio
      · simp only [hr, ne_eq, not_true_eq_false, if_false]
        rw [← p3]
      · simp only [hr, ne_eq, not_false_eq_true, if_true]
  · intro hlt
    rw [cycle_log_congestion lookup_bandwidth s inp hmode, if_neg (by omega)]

/-- Witness for C14: the example full-window state, sample 500; the drop is
500 permil, the mode becomes Congestion and the ratio 8571 is written. -/
theorem congestion_cycle_witness :
    split_monitor_cycle_log sample_lookup_bandwidth sample_full_state ⟨⟨0, 500, 0⟩, 10⟩ =
      (find_best_split_ratio sample_lookup_bandwidth IO_DEPTH NUM_JOBS 500
        (cycle_drop sample_full_state).drop_permil).map
        (fun r => ({ cycle_push sample_full_state ⟨⟨0, 500, 0⟩, 10⟩ with
            optimal_split_ratio := r },
          if r ≠ netcas_query_optimal_split_ratio sample_full_state then [r] else [])) :=
  (congestion_cycle sample_lookup_bandwidth sample_full_state ⟨⟨0, 500, 0⟩, 10⟩
    (by decide)).2.2.1 (by decide)

theorem cycle_fault_iff (lookup_bandwidth : Nat → Nat → Nat → Nat) (s : ControllerState)
    (inp : cycle_input) :
    split_monitor_cycle_log lookup_bandwidth s inp = none ↔
      ∃ d, cycle_find_best_drop_permil s inp = some d ∧
        find_best_split_ratio lookup_bandwidth IO_DEPTH NUM_JOBS
          inp.current_rdma_metrics.rdma_throughput d = none := by
  unfold cycle_find_best_drop_permil
  cases hm : (cycle_determine s inp).current_mode with
  | NETCAS_MODE_IDLE =>
    rw [cycle_log_idle lookup_bandwidth s inp hm]
    simp only []
    split_ifs <;> simp
  | NETCAS_MODE_WARMUP =>
    rw [cycle_log_warmup lookup_bandwidth s inp hm]
    simp
  | NETCAS_MODE_STABLE =>
    rw [cycle_log_stable lookup_bandwidth s inp hm]
    simp only []
    by_cases hf : (cycle_push s inp).split_ratio_calculated_in_stable = false ∧
        RDMA_WINDOW_SIZE ≤ (cycle_push s inp).rdma_window_count
    · rw [if_pos hf, if_pos (by simpa using hf)]
      simp
    · rw [if_neg hf, if_neg (by simpa using hf)]
      simp
  | NETCAS_MODE_CONGESTION =>
    rw [cycle_log_congestion lookup_bandwidth s inp hm]
    simp only []
    by_cases hf : RDMA_WINDOW_SIZE ≤ (cycle_push s inp).rdma_window_count
    · rw [if_pos hf, if_pos hf]
      simp
    · rw [if_neg hf, if_neg hf]
      simp
  | NETCAS_MODE_FAILURE =>
    rw [cycle_log_failure lookup_bandwidth s inp hm]
    simp

theorem find_best_drop_stable (s : ControllerState) (inp : cycle_input)
    (h : (cycle_determine s inp).current_mode = NETCAS_MODE_STABLE) :
    cycle_find_best_drop_permil s inp =
      if (cycle_push s inp).split_ratio_calculated_in_stable = false ∧
          RDMA_WINDOW_SIZE ≤ (cycle_push s inp).rdma_window_count then
        some (cycle_push s inp).drop_permil
      else none := by
  unfold cycle_find_best_drop_permil
  rw [h]
  simp only []
  by_cases hf : (cycle_push s inp).split_ratio_calculated_in_stable = false ∧
      RDMA_WINDOW_SIZE ≤ (cycle_push s inp).rdma_window_count
  · rw [if_pos hf, if_pos (by simpa using hf)]
  · rw [if_neg hf, if_neg (by simpa using hf)]

theorem find_best_drop_congestion (s : ControllerState) (inp : cycle_input)
    (h : (cycle_determine s inp).current_mode = NETCAS_MODE_CONGESTION) :
    cycle_find_best_drop_permil s inp =
      if RDMA_WINDOW_SIZE ≤ (cycle_push s inp).rdma_window_count then
        some (cycle_push s inp).drop_permil
      else none := by
  unfold cycle_find_best_drop_permil
  rw [h]

theorem find_best_drop_warmup (s : ControllerState) (inp : cycle_input)
    (h : (cycle_determine s inp).current_mode = NETCAS_MODE_WARMUP) :
    cycle_find_best_drop_permil s inp = some 0 := by
  unfold cycle_find_best_drop_permil
  rw [h]

theorem find_best_drop_cases (s : ControllerState) (inp : cycle_input) (d : Nat)
    (h : cycle_find_best_drop_permil s inp = some d) :
    (((cycle_determine s inp).current_mode = NETCAS_MODE_STABLE ∨
        (cycle_determine s inp).current_mode = NETCAS_MODE_CONGESTION) ∧
      d = (cycle_push s inp).drop_permil) ∨
    ((cycle_determine s inp).current_mode = NETCAS_MODE_WARMUP ∧ d = 0) := by
  cases hm : (cycle_determine s inp).current_mode with
  | NETCAS_MODE_IDLE =>
    unfold cycle_find_best_drop_permil at h
    rw [hm] at h
    simp at h
  | NETCAS_MODE_WARMUP =>
    rw [find_best_drop_warmup s inp hm] at h
    right
    exact ⟨rfl, by simpa using h.symm⟩
  | NETCAS_MODE_STABLE =>
    rw [find_best_drop_stable s inp hm] at h
    left
    refine ⟨Or.inl rfl, ?_⟩
    split_ifs at h
    simpa using h.symm
  | NETCAS_MODE_CONGESTION =>
    rw [find_best_drop_congestion s inp hm] at h
    left
    refine ⟨Or.inr rfl, ?_⟩
    split_ifs at h
    simpa using h.symm
  | NETCAS_MODE_FAILURE =>
    unfold cycle_find_best_drop_permil at h
    rw [hm] at h
    simp at h

/-- C18 as stated fails in a Warmup cycle.  The example Warmup state has
average 600 and maximum 1000, so the cycle with throughput 200 computes
`drop_permil = 400` and hands it to `determine_netcas_mode`, which stays in
Warmup; the Warmup case then calls `find_best_split_ratio` with the constant
0 and publishes 7500, the ratio for drop 0, where drop 400 gives 8333. -/
theorem drop_permil_from_cycle_start_counterexample :
    0 < sample_warmup_state.max_average_rdma_throughput ∧
    cycle_start_drop_permil sample_warmup_state = 400 ∧
    (cycle_determine sample_warmup_state ⟨⟨0, 200, 0⟩, 2⟩).current_mode = NETCAS_MODE_WARMUP ∧
    cycle_find_best_drop_permil sample_warmup_state ⟨⟨0, 200, 0⟩, 2⟩ = some 0 ∧
    (split_monitor_cycle_log sample_lookup_bandwidth sample_warmup_state
      ⟨⟨0, 200, 0⟩, 2⟩).map (fun p => (p.1.optimal_split_ratio, p.2)) = some (7500, [7500]) ∧
    find_best_split_ratio sample_lookup_bandwidth IO_DEPTH NUM_JOBS 200 0 = some 7500 ∧
    find_best_split_ratio sample_lookup_bandwidth IO_DEPTH NUM_JOBS 200 400 = some 8333 ∧
    ¬ (∀ (s : ControllerState) (inp : cycle_input) (d : Nat),
        0 < s.max_average_rdma_throughput →
        cycle_find_best_drop_permil s inp = some d → d = cycle_start_drop_permil s) := by
  refine ⟨by decide, by decide, by decide, by decide, by decide, by decide, by decide, ?_⟩
  intro h
  have h0 := h sample_warmup_state ⟨⟨0, 200, 0⟩, 2⟩ 0 (by decide) (by decide)
  revert h0
  decide

/-- C18 (amended): in a cycle that starts with
`max_average_rdma_throughput > 0`, the `drop_permil` handed to
`determine_netcas_mode` is the value computed from `rdma_window_average` and
`max_average_rdma_throughput` as they stand at the start of the cycle, which
does not depend on the cycle's snapshot; when the mode has been determined the
window variables are still those of the start of the cycle; the Stable and
Congestion cases call `find_best_split_ratio` with that same value, the Warmup
case calls it with the constant 0, and no other case calls it; the cycle has
a result unless that call has none; and the value computed at the start is
the value of `drop_permil` after the cycle, whatever the cycle's snapshot
is. -/
theorem drop_permil_from_cycle_start (lookup_bandwidth : Nat → Nat → Nat → Nat)
    (s : ControllerState) (inp : cycle_input)
    (hmax : 0 < s.max_average_rdma_throughput) :
    cycle_determine s inp =
      determine_netcas_mode { s with drop_permil := cycle_start_drop_permil s } inp.curr_time
        inp.current_rdma_metrics.rdma_throughput inp.current_rdma_metrics.rdma_latency
        inp.current_rdma_metrics.iops (cycle_start_drop_permil s) ∧
    same_window (cycle_determine s inp) s ∧
    ((cycle_determine s inp).current_mode = NETCAS_MODE_WARMUP →
      cycle_find_best_drop_permil s inp = some 0 ∧
      split_monitor_cycle_log lookup_bandwidth s inp =
        (find_best_split_ratio lookup_bandwidth IO_DEPTH NUM_JOBS
          inp.current_rdma_metrics.rdma_throughput 0).map
          (fun r => ({ cycle_push s inp with optimal_split_ratio := r }, [r]))) ∧
    ((cycle_determine s inp).current_mode = NETCAS_MODE_STABLE →
      cycle_find_best_drop_permil s inp =
        (if (cycle_push s inp).split_ratio_calculated_in_stable = false ∧
            RDMA_WINDOW_SIZE ≤ (cycle_push s inp).rdma_window_count then
          some (cycle_start_drop_permil s)
        else none) ∧
      split_monitor_cycle_log lookup_bandwidth s inp =
        if (cycle_push s inp).split_ratio_calculated_in_stable = false ∧
            RDMA_WINDOW_SIZE ≤ (cycle_push s inp).rdma_window_count then
          (find_best_split_ratio lookup_bandwidth IO_DEPTH NUM_JOBS
            inp.current_rdma_metrics.rdma_throughput (cycle_start_drop_permil s)).map
            (fun r => ({ cycle_push s inp with
              optimal_split_ratio := r, split_ratio_calculated_in_stable := true }, [r]))
        else some (cycle_push s inp, [])) ∧
    ((cycle_determine s inp).current_mode = NETCAS_MODE_CONGESTION →
      cycle_find_best_drop_permil s inp =
        (if RDMA_WINDOW_SIZE ≤ (cycle_push s inp).rdma_window_count then
          some (cycle_start_drop_permil s)
        else none) ∧
      split_monitor_cycle_log lookup_bandwidth s inp =
        if RDMA_WINDOW_SIZE ≤ (cycle_push s inp).rdma_window_count then
          (find_best_split_ratio lookup_bandwidth IO_DEPTH NUM_JOBS
            inp.current_rdma_metrics.rdma_throughput (cycle_start_drop_permil s)).map
            (fun r =>
              if r ≠ (cycle_push s inp).optimal_split_ratio then
                ({ cycle_push s inp with optimal_split_ratio := r }, [r])
              else (cycle_push s inp, []))
        else some (cycle_push s inp, [])) ∧
    (∀ d : Nat, cycle_find_best_drop_permil s inp = some d →
      (((cycle_determine s inp).current_mode = NETCAS_MODE_STABLE ∨
          (cycle_determine s inp).current_mode = NETCAS_MODE_CONGESTION) ∧
        d = cycle_start_drop_permil s) ∨
      ((cycle_determine s inp).current_mode = NETCAS_MODE_WARMUP ∧ d = 0)) ∧
    (split_monitor_cycle_log lookup_bandwidth s inp = none ↔
      ∃ d, cycle_find_best_drop_permil s inp = some d ∧
        find_best_split_ratio lookup_bandwidth IO_DEPTH NUM_JOBS
          inp.current_rdma_metrics.rdma_throughput d = none) ∧
    (∀ (other : cycle_input) (s1 : ControllerState),
      split_monitor_cycle lookup_bandwidth s other = some s1 →
      s1.drop_permil = cycle_start_drop_permil s) := by
  have hdrop : cycle_drop s = { s with drop_permil := cycle_start_drop_permil s } :=
    cycle_drop_of_pos s hmax
  have hdp : (cycle_drop s).drop_permil = cycle_start_drop_permil s := by rw [hdrop]
  have hpush : ∀ i : cycle_input, (cycle_push s i).drop_permil = cycle_start_drop_permil s :=
    fun i => (cycle_push_keeps s i).2.1.trans hdp
  refine ⟨?_, cycle_determine_same_window s inp, ?_, ?_, ?_, ?_,
    cycle_fault_iff lookup_bandwidth s inp, ?_⟩
  · unfold cycle_determine
    rw [hdrop]
  · intro hm
    exact ⟨find_best_drop_warmup s inp hm, cycle_log_warmup lookup_bandwidth s inp hm⟩
  · intro hm
    rw [find_best_drop_stable s inp hm, cycle_log_stable lookup_bandwidth s inp hm, hpush inp]
    exact ⟨rfl, rfl⟩
  · intro hm
    rw [find_best_drop_congestion s inp hm, cycle_log_congestion lookup_bandwidth s inp hm,
      hpush inp]
    exact ⟨rfl, rfl⟩
  · intro d hd
    have hcases := find_best_drop_cases s inp d hd
    rw [hpush inp] at hcases
    exact hcases
  · intro other s1 h1
    have hdet : (cycle_determine s other).drop_permil = cycle_start_drop_permil s := by
      unfold cycle_determine
      rw [(determine_keeps _ _ _ _ _ _).2.2.2.1, hdp]
    obtain ⟨w, hw⟩ := cycle_some_log lookup_bandwidth s s1 other h1
    cases hm : (cycle_determine s other).current_mode with
    | NETCAS_MODE_IDLE =>
      rw [cycle_log_idle lookup_bandwidth s other hm] at hw
      split_ifs at hw <;> simp only [Option.some.injEq, Prod.mk.injEq] at hw <;> rw [← hw.1]
      · exact hdet
      · exact hdet
    | NETCAS_MODE_WARMUP =>
      rw [cycle_log_warmup lookup_bandwidth s other hm] at hw
      cases hr : find_best_split_ratio lookup_bandwidth IO_DEPTH NUM_JOBS
          other.current_rdma_metrics.rdma_throughput 0 with
      | none => rw [hr] at hw; simp at hw
      | some r =>
        rw [hr] at hw
        simp only [Option.map, Option.some.injEq, Prod.mk.injEq] at hw
        rw [← hw.1]
        exact hpush other
    | NETCAS_MODE_STABLE =>
      rw [cycle_log_stable lookup_bandwidth s other hm] at hw
      split_ifs at hw
      · cases hr : find_best_split_ratio lookup_bandwidth IO_DEPTH NUM_JOBS
            other.current_rdma_metrics.rdma_throughput (cycle_push s other).drop_permil with
        | none => rw [hr] at hw; simp at hw
        | some r =>
          rw [hr] at hw
          simp only [Option.map, Option.some.injEq, Prod.mk.injEq] at hw
          rw [← hw.1]
          exact hpush other
      · simp only [Option.some.injEq, Prod.mk.injEq] at hw
        rw [← hw.1]
        exact hpush other
    | NETCAS_MODE_CONGESTION =>
      rw [cycle_log_congestion lookup_bandwidth s other hm] at hw
      split_ifs at hw
      · cases hr : find_best_split_ratio lookup_bandwidth IO_DEPTH NUM_JOBS
            other.current_rdma_metrics.rdma_throughput (cycle_push s other).drop_permil with
        | none => rw [hr] at hw; simp at hw
        | some r =>
          rw [hr] at hw
          simp only [Option.map, Option.some.injEq] at hw
          split_ifs at hw <;> simp only [Prod.mk.injEq] at hw <;> rw [← hw.1]
          · exact hpush other
          · exact hpush other
      · simp only [Option.some.injEq, Prod.mk.injEq] at hw
        rw [← hw.1]
        exact hpush other
    | NETCAS_MODE_FAILURE =>
      rw [cycle_log_failure lookup_bandwidth s other hm] at hw
      simp only [Option.some.injEq, Prod.mk.injEq] at hw
      rw [← hw.1]
      exact hdet

/-- Witness for the amended C18: the example full-window state (average 1000,
maximum 2000): whatever the sample, the cycle runs with `drop_permil = 500`,
and the Congestion cycle with sample 500 calls `find_best_split_ratio` with
500. -/
theorem drop_permil_from_cycle_start_witness :
    same_window (cycle_determine sample_full_state ⟨⟨0, 500, 0⟩, 10⟩) sample_full_state ∧
    cycle_find_best_drop_permil sample_full_state ⟨⟨0, 500, 0⟩, 10⟩ = some 500 ∧
    (∀ (other : cycle_input) (s1 : ControllerState),
      split_monitor_cycle sample_lookup_bandwidth sample_full_state other = some s1 →
      s1.drop_permil = 500) :=
  have h := drop_permil_from_cycle_start sample_lookup_bandwidth sample_full_state
    ⟨⟨0, 500, 0⟩, 10⟩ (by decide)
  ⟨h.2.1, by decide, h.2.2.2.2.2.2.2⟩

/-! ## Mode and initialisation flag along a run -/

theorem cycle_log_active (lookup_bandwidth : Nat → Nat → Nat → Nat) (s s1 : ControllerState)
    (inp : cycle_input) (w : List Nat)
    (hmode : (cycle_determine s inp).current_mode = NETCAS_MODE_WARMUP ∨
      (cycle_determine s inp).current_mode = NETCAS_MODE_STABLE ∨
      (cycle_determine s inp).current_mode = NETCAS_MODE_CONGESTION)
    (h : split_monitor_cycle_log lookup_bandwidth s inp = some (s1, w)) :
    ∃ r f, s1 = { cycle_push s inp with
      optimal_split_ratio := r, split_ratio_calculated_in_stable := f } := by
  rcases hmode with hm | hm | hm
  · rw [cycle_log_warmup lookup_bandwidth s inp hm] at h
    cases hr : find_best_split_ratio lookup_bandwidth IO_DEPTH NUM_JOBS
        inp.current_rdma_metrics.rdma_throughput 0 with
    | none => rw [hr] at h; simp at h
    | some r =>
      rw [hr] at h
      simp only [Option.map, Option.some.injEq, Prod.mk.injEq] at h
      exact ⟨r, (cycle_push s inp).split_ratio_calculated_in_stable, h.1.symm⟩
  · rw [cycle_log_stable lookup_bandwidth s inp hm] at h
    split_ifs at h
    · cases hr : find_best_split_ratio lookup_bandwidth IO_DEPTH NUM_JOBS
          inp.current_rdma_metrics.rdma_throughput (cycle_push s inp).drop_permil with
      | none => rw [hr] at h; simp at h
      | some r =>
        rw [hr] at h
        simp only [Option.map, Option.some.injEq, Prod.mk.injEq] at h
        exact ⟨r, true, h.1.symm⟩
    · simp only [Option.some.injEq, Prod.mk.injEq] at h
      exact ⟨(cycle_push s inp).optimal_split_ratio,
        (cycle_push s inp).split_ratio_calculated_in_stable, h.1.symm⟩
  · rw [cycle_log_congestion lookup_bandwidth s inp hm] at h
    split_ifs at h
    · cases hr : find_best_split_ratio lookup_bandwidth IO_DEPTH NUM_JOBS
          inp.current_rdma_metrics.rdma_throughput (cycle_push s inp).drop_permil with
      | none => rw [hr] at h; simp at h
      | some r =>
        rw [hr] at h
        simp only [Option.map, Option.some.injEq] at h
        split_ifs at h <;> simp only [Prod.mk.injEq] at h
        · exact ⟨r, (cycle_push s inp).split_ratio_calculated_in_stable, h.1.symm⟩
        · exact ⟨(cycle_push s inp).optimal_split_ratio,
            (cycle_push s inp).split_ratio_calculated_in_stable, h.1.symm⟩
    · simp only [Option.some.injEq, Prod.mk.injEq] at h
      exact ⟨(cycle_push s inp).optimal_split_ratio,
        (cycle_push s inp).split_ratio_calculated_in_stable, h.1.symm⟩

theorem mode_cases (m : netCAS_mode_t) :
    m = NETCAS_MODE_IDLE ∨ m = NETCAS_MODE_WARMUP ∨ m = NETCAS_MODE_STABLE ∨
      m = NETCAS_MODE_CONGESTION ∨ m = NETCAS_MODE_FAILURE := by
  cases m <;> simp

theorem determine_idle_of_mode (s : ControllerState) (ct thr lat iops dp : Nat)
    (h : (determine_netcas_mode s ct thr lat iops dp).current_mode = NETCAS_MODE_IDLE) :
    idle_condition thr iops := by
  by_contra hc
  exact determine_active_ne_idle s ct thr lat iops dp hc h

theorem determine_init_false (s : ControllerState) (ct thr lat iops dp : Nat)
    (hs : s.current_mode ≠ NETCAS_MODE_IDLE → s.netCAS_initialized = false)
    (h : (determine_netcas_mode s ct thr lat iops dp).current_mode ≠ NETCAS_MODE_IDLE) :
    (determine_netcas_mode s ct thr lat iops dp).netCAS_initialized = false := by
  unfold determine_netcas_mode at h ⊢
  split_ifs at h ⊢ <;> simp_all

theorem start_phase_invariant : phase_invariant start_state := by
  unfold phase_invariant
  decide

theorem cycle_phase_invariant (lookup_bandwidth : Nat → Nat → Nat → Nat)
    (s s1 : ControllerState) (inp : cycle_input) (w : List Nat)
    (hinv : phase_invariant s)
    (h : split_monitor_cycle_log lookup_bandwidth s inp = some (s1, w)) :
    phase_invariant s1 := by
  obtain ⟨hnf, hidle, hact⟩ := hinv
  have hdm : (cycle_drop s).current_mode = s.current_mode := cycle_drop_mode s
  have hdnf : (cycle_determine s inp).current_mode ≠ NETCAS_MODE_FAILURE := by
    unfold cycle_determine
    exact determine_not_failure _ _ _ _ _ _ (by rw [hdm]; exact hnf)
  rcases mode_cases (cycle_determine s inp).current_mode with hm | hm | hm | hm | hm
  · -- Idle
    have hic := determine_idle_of_mode _ _ _ _ _ _ hm
    have hd := cycle_determine_idle s inp hic
    rw [cycle_log_idle lookup_bandwidth s inp hm] at h
    split_ifs at h with hi
    · simp only [Option.some.injEq, Prod.mk.injEq] at h
      rw [← h.1]
      unfold phase_invariant init_netCAS split_set_optimal_ratio netcas_set_data_admit
      dsimp only
      rw [hm]
      exact ⟨by decide, fun _ => ⟨rfl, rfl, rfl, rfl, rfl, rfl, rfl⟩, fun hc => absurd rfl hc⟩
    · simp only [Option.some.injEq, Prod.mk.injEq] at h
      rw [← h.1]
      have hinit : s.netCAS_initialized = true := by
        rw [hd, cycle_drop_keeps] at hi
        simpa using hi
      have hsm : s.current_mode = NETCAS_MODE_IDLE := by
        by_contra hc
        have := (hact hc).1
        rw [hinit] at this
        exact absurd this (by decide)
      obtain ⟨i1, i2, i3, _, i5, i6, i7⟩ := hidle hsm
      rw [hd, cycle_drop_keeps]
      unfold phase_invariant
      dsimp only
      exact ⟨by decide, fun _ => ⟨i1, i2, i3, rfl, i5, i6, i7⟩, fun hc => absurd rfl hc⟩
  all_goals first
    | exact absurd hm hdnf
    | (have hne : (cycle_determine s inp).current_mode ≠ NETCAS_MODE_IDLE := by
         rw [hm]; decide
       have hif : (cycle_determine s inp).netCAS_initialized = false := by
         unfold cycle_determine at hne ⊢
         apply determine_init_false _ _ _ _ _ _ _ hne
         intro hc
         rw [hdm] at hc
         rw [cycle_drop_keeps]
         exact (hact hc).1
       obtain ⟨p1, _, _, p4, p5, _⟩ := cycle_push_keeps s inp
       obtain ⟨r, f, hs1⟩ := cycle_log_active lookup_bandwidth s s1 inp w
         (by simp [hm]) h
       rw [hs1]
       unfold phase_invariant
       dsimp only
       rw [p1, p4, p5, hif]
       exact ⟨hdnf, fun hc => absurd hc hne, fun _ => ⟨rfl, rfl⟩⟩)

theorem run_phase_invariant (lookup_bandwidth : Nat → Nat → Nat → Nat) :
    ∀ (inputs : List cycle_input) (s s1 : ControllerState),
      phase_invariant s →
      split_monitor_run lookup_bandwidth s inputs = some s1 →
      phase_invariant s1 := by
  intro inputs
  induction inputs with
  | nil =>
    intro s s1 hs h
    simp only [split_monitor_run, Option.some.injEq] at h
    rw [← h]
    exact hs
  | cons inp rest ih =>
    intro s s1 hs h
    simp only [split_monitor_run] at h
    cases hc : split_monitor_cycle lookup_bandwidth s inp with
    | none => rw [hc] at h; simp at h
    | some s2 =>
      rw [hc] at h
      obtain ⟨w, hw⟩ := cycle_some_log lookup_bandwidth s s2 inp hc
      exact ih s2 s1 (cycle_phase_invariant lookup_bandwidth s s2 inp w hs hw) h

/-- C16: let `s` be a state the monitor loop reaches from the start state
with mode Warmup, Stable or Congestion, and let the next cycle's resulting
mode be Idle.  Then that cycle runs `init_netCAS` (its call of
`split_set_optimal_ratio(10000)` is the only write): afterwards the window is
empty (count 0, average 0, twenty zero slots), `max_average` is 0, the
published ratio is 10000, `data_admit` is true and `netCAS_initialized` is
true.  Every following cycle whose resulting mode is Idle writes nothing and
leaves all controller variables as they are, so `init_netCAS` does not run
again. -/
theorem reinit_when_activity_ceases (lookup_bandwidth : Nat → Nat → Nat → Nat)
    (pre : List cycle_input) (s : ControllerState) (inp : cycle_input)
    (hrun : split_monitor_run lookup_bandwidth start_state pre = some s)
    (hprev : s.current_mode = NETCAS_MODE_WARMUP ∨ s.current_mode = NETCAS_MODE_STABLE ∨
      s.current_mode = NETCAS_MODE_CONGESTION)
    (hres : (cycle_determine s inp).current_mode = NETCAS_MODE_IDLE) :
    ∃ s1, split_monitor_cycle_log lookup_bandwidth s inp = some (s1, [SPLIT_RATIO_MAX]) ∧
      s1 = init_netCAS (cycle_determine s inp) ∧
      s1.current_mode = NETCAS_MODE_IDLE ∧
      s1.rdma_throughput_window = List.replicate 20 0 ∧
      s1.rdma_window_count = 0 ∧
      s1.rdma_window_average = 0 ∧
      s1.max_average_rdma_throughput = 0 ∧
      netcas_query_optimal_split_ratio s1 = 10000 ∧
      netcas_query_data_admit s1 = true ∧
      s1.netCAS_initialized = true ∧
      (∀ next : cycle_input, (cycle_determine s1 next).current_mode = NETCAS_MODE_IDLE →
        split_monitor_cycle_log lookup_bandwidth s1 next = some (s1, [])) ∧
      (∀ rest : List cycle_input,
        (∀ next ∈ rest, next.current_rdma_metrics.rdma_throughput ≤ RDMA_THRESHOLD ∧
          next.current_rdma_metrics.iops ≤ IOPS_THRESHOLD) →
        split_monitor_run lookup_bandwidth s1 rest = some s1) := by
  have hinv := run_phase_invariant lookup_bandwidth pre start_state s start_phase_invariant hrun
  have hne : s.current_mode ≠ NETCAS_MODE_IDLE := by
    rcases hprev with h | h | h <;> rw [h] <;> decide
  have hsi : s.netCAS_initialized = false := (hinv.2.2 hne).1
  have hic := determine_idle_of_mode _ _ _ _ _ _ hres
  have hd := cycle_determine_idle s inp hic
  have hdi : (cycle_determine s inp).netCAS_initialized = false := by
    rw [hd, cycle_drop_keeps]
    exact hsi
  have hlog : split_monitor_cycle_log lookup_bandwidth s inp =
      some (init_netCAS (cycle_determine s inp), [SPLIT_RATIO_MAX]) := by
    rw [cycle_log_idle lookup_bandwidth s inp hres, if_pos hdi]
  have hm1 : (init_netCAS (cycle_determine s inp)).current_mode = NETCAS_MODE_IDLE := hres
  refine ⟨_, hlog, rfl, hm1, rfl, rfl, rfl, rfl, rfl, rfl, rfl, ?_, ?_⟩
  · intro next hnext
    exact cycle_idle_fixed lookup_bandwidth _ next hm1 rfl rfl rfl
      (determine_idle_of_mode _ _ _ _ _ _ hnext)
  · intro rest hrest
    exact run_idle_fixed lookup_bandwidth _ hm1 rfl rfl rfl rest hrest

/-- Witness for C16: two active cycles from the start state (mode Stable),
then a cycle with throughput 0 and iops 0. -/
theorem reinit_when_activity_ceases_witness :
    ∃ s1, split_monitor_cycle_log sample_lookup_bandwidth
        { rdma_throughput_window := [500, 500, 0, 0, 0, 0, 0, 0, 0, 0, 0, 0, 0, 0, 0, 0, 0, 0, 0, 0]
          rdma_window_index := 2
          rdma_window_sum := 1000
          rdma_window_count := 2
          rdma_window_average := 500
          max_average_rdma_throughput := 500
          last_nonzero_transition_time := 10
          netCAS_initialized := false
          split_ratio_calculated_in_stable := false
          optimal_split_ratio := 7500
          global_data_admit := false
          current_mode := NETCAS_MODE_STABLE
          drop_permil := 0 } ⟨⟨0, 0, 0⟩, 3000000020⟩ = some (s1, [SPLIT_RATIO_MAX]) ∧
      s1.rdma_window_count = 0 ∧
      netcas_query_optimal_split_ratio s1 = 10000 ∧
      netcas_query_data_admit s1 = true ∧
      s1.netCAS_initialized = true :=
  have ⟨s1, h1, _, _, _, h5, _, _, h8, h9, h10, _⟩ :=
    reinit_when_activity_ceases sample_lookup_bandwidth
      [⟨⟨0, 500, 0⟩, 10⟩, ⟨⟨0, 500, 0⟩, 3000000010⟩] _ ⟨⟨0, 0, 0⟩, 3000000020⟩
      (by decide) (by decide) (by decide)
  ⟨s1, h1, h5, h8, h9, h10⟩

/-! ## Stable episodes -/

theorem determine_stable_flag (s : ControllerState) (ct thr lat iops dp : Nat)
    (h : (determine_netcas_mode s ct thr lat iops dp).current_mode = NETCAS_MODE_STABLE) :
    ((determine_netcas_mode s ct thr lat iops dp).split_ratio_calculated_in_stable = true ↔
      (s.current_mode = NETCAS_MODE_STABLE ∧ s.split_ratio_calculated_in_stable = true)) := by
  unfold determine_netcas_mode at h ⊢
  split_ifs at h ⊢ <;> simp_all

theorem cycle_determine_stable_flag (s : ControllerState) (inp : cycle_input)
    (h : (cycle_determine s inp).current_mode = NETCAS_MODE_STABLE) :
    ((cycle_determine s inp).split_ratio_calculated_in_stable = true ↔
      (s.current_mode = NETCAS_MODE_STABLE ∧ s.split_ratio_calculated_in_stable = true)) := by
  unfold cycle_determine at h ⊢
  rw [determine_stable_flag _ _ _ _ _ _ h, cycle_drop_keeps]

theorem stable_step (lookup_bandwidth : Nat → Nat → Nat → Nat) (s s1 : ControllerState)
    (inp : cycle_input) (w : List Nat)
    (h : split_monitor_cycle_log lookup_bandwidth s inp = some (s1, w))
    (hm : s1.current_mode = NETCAS_MODE_STABLE) :
    (w ≠ [] ↔ ¬ (s.current_mode = NETCAS_MODE_STABLE ∧
        s.split_ratio_calculated_in_stable = true) ∧
      RDMA_WINDOW_SIZE ≤ s1.rdma_window_count) ∧
    (w ≠ [] → w = [s1.optimal_split_ratio]) ∧
    (w = [] → s1.optimal_split_ratio = s.optimal_split_ratio) ∧
    (s1.split_ratio_calculated_in_stable = true ↔
      (s.current_mode = NETCAS_MODE_STABLE ∧ s.split_ratio_calculated_in_stable = true) ∨
        RDMA_WINDOW_SIZE ≤ s1.rdma_window_count) := by
  have hd : (cycle_determine s inp).current_mode = NETCAS_MODE_STABLE := by
    rw [← cycle_log_mode lookup_bandwidth s s1 inp w h]
    exact hm
  have hflag := cycle_determine_stable_flag s inp hd
  obtain ⟨_, _, p3, _, _, p6, _⟩ := cycle_push_keeps s inp
  rw [← p6] at hflag
  rw [cycle_log_stable lookup_bandwidth s inp hd] at h
  split_ifs at h with hc
  · cases hr : find_best_split_ratio lookup_bandwidth IO_DEPTH NUM_JOBS
        inp.current_rdma_metrics.rdma_throughput (cycle_push s inp).drop_permil with
    | none => rw [hr] at h; simp at h
    | some r =>
      rw [hr] at h
      simp only [Option.map, Option.some.injEq, Prod.mk.injEq] at h
      obtain ⟨h1, h2⟩ := h
      have hnot : ¬ (s.current_mode = NETCAS_MODE_STABLE ∧
          s.split_ratio_calculated_in_stable = true) := by
        intro hb
        have := hflag.mpr hb
        rw [hc.1] at this
        exact absurd this (by decide)
      rw [← h1, ← h2]
      exact ⟨⟨fun _ => ⟨hnot, hc.2⟩, fun _ => by simp⟩, fun _ => rfl,
        fun hw => absurd hw (by simp), ⟨fun _ => Or.inr hc.2, fun _ => rfl⟩⟩
  · simp only [Option.some.injEq, Prod.mk.injEq] at h
    obtain ⟨h1, h2⟩ := h
    rw [← h1, ← h2]
    have hor : (cycle_push s inp).split_ratio_calculated_in_stable = true ∨
        (cycle_push s inp).rdma_window_count < RDMA_WINDOW_SIZE := by
      by_cases hf : (cycle_push s inp).split_ratio_calculated_in_stable = true
      · exact Or.inl hf
      · right
        by_contra hge
        exact hc ⟨by simpa using hf, by omega⟩
    refine ⟨⟨fun hw => absurd rfl hw, ?_⟩, fun hw => absurd rfl hw, fun _ => p3, ?_⟩
    · rintro ⟨hnot, hge⟩
      rcases hor with hf | hlt
      · exact absurd (hflag.mp hf) hnot
      · omega
    · constructor
      · intro hf
        exact Or.inl (hflag.mp hf)
      · rintro (hb | hge)
        · exact hflag.mpr hb
        · rcases hor with hf | hlt
          · exact hf
          · omega

/-- C13: a stable episode is a sequence of consecutive cycles that all result
in mode Stable, the cycle before it having resulted in another mode.  Write
`st k` for the controller variables after the `k`-th cycle of the episode
(`st 0` before the first) and `w k` for the arguments of the calls of
`split_set_optimal_ratio` in the `k`-th cycle.  Then the ratio is computed and
published in the `k`-th cycle exactly when `rdma_window_count >= 20` after its
push and `rdma_window_count < 20` after the push of every earlier cycle of the
episode; it is then written once, with the value that is published
afterwards; this happens in at most one cycle of the episode; and in every
other cycle nothing is written and the published ratio is unchanged. -/
theorem stable_episode_single_computation (lookup_bandwidth : Nat → Nat → Nat → Nat)
    (inputs : List cycle_input) (st : Nat → ControllerState) (w : Nat → List Nat)
    (hentry : (st 0).current_mode ≠ NETCAS_MODE_STABLE)
    (hstep : ∀ k (hk : k < inputs.length),
      split_monitor_cycle_log lookup_bandwidth (st k) (inputs.get ⟨k, hk⟩)
        = some (st (k + 1), w (k + 1)))
    (hstable : ∀ k, k < inputs.length → (st (k + 1)).current_mode = NETCAS_MODE_STABLE) :
    (∀ k, k < inputs.length →
      (w (k + 1) ≠ [] ↔
        (RDMA_WINDOW_SIZE ≤ (st (k + 1)).rdma_window_count ∧
          ∀ j, 1 ≤ j → j ≤ k → (st j).rdma_window_count < RDMA_WINDOW_SIZE)) ∧
      (w (k + 1) ≠ [] → w (k + 1) = [netcas_query_optimal_split_ratio (st (k + 1))]) ∧
      (w (k + 1) = [] →
        netcas_query_optimal_split_ratio (st (k + 1))
          = netcas_query_optimal_split_ratio (st k))) ∧
    (∀ k1 k2, k1 < inputs.length → k2 < inputs.length →
      w (k1 + 1) ≠ [] → w (k2 + 1) ≠ [] → k1 = k2) := by
  -- the flag is set after cycle `k` exactly when the window was full in some cycle up to `k`
  have hflag : ∀ k, k ≤ inputs.length →
      (((st k).current_mode = NETCAS_MODE_STABLE ∧
          (st k).split_ratio_calculated_in_stable = true) ↔
        ∃ j, 1 ≤ j ∧ j ≤ k ∧ RDMA_WINDOW_SIZE ≤ (st j).rdma_window_count) := by
    intro k
    induction k with
    | zero =>
      intro _
      constructor
      · rintro ⟨hm, _⟩
        exact absurd hm hentry
      · rintro ⟨j, h1, h2, _⟩
        omega
    | succ k ih =>
      intro hk
      have hs := stable_step lookup_bandwidth (st k) (st (k + 1)) (inputs.get ⟨k, by omega⟩)
        (w (k + 1)) (hstep k (by omega)) (hstable k (by omega))
      have hmode := hstable k (by omega)
      constructor
      · rintro ⟨_, hf⟩
        rcases hs.2.2.2.mp hf with hb | hge
        · obtain ⟨j, h1, h2, h3⟩ := (ih (by omega)).mp hb
          exact ⟨j, h1, by omega, h3⟩
        · exact ⟨k + 1, by omega, Nat.le_refl _, hge⟩
      · rintro ⟨j, h1, h2, h3⟩
        refine ⟨hmode, hs.2.2.2.mpr ?_⟩
        by_cases hj : j = k + 1
        · right
          rw [← hj]
          exact h3
        · left
          exact (ih (by omega)).mpr ⟨j, h1, by omega, h3⟩
  have hchar : ∀ k, k < inputs.length →
      (w (k + 1) ≠ [] ↔
        (RDMA_WINDOW_SIZE ≤ (st (k + 1)).rdma_window_count ∧
          ∀ j, 1 ≤ j → j ≤ k → (st j).rdma_window_count < RDMA_WINDOW_SIZE)) := by
    intro k hk
    have hs := stable_step lookup_bandwidth (st k) (st (k + 1)) (inputs.get ⟨k, hk⟩)
      (w (k + 1)) (hstep k hk) (hstable k hk)
    rw [hs.1, hflag k (by omega)]
    constructor
    · rintro ⟨hno, hge⟩
      refine ⟨hge, fun j h1 h2 => ?_⟩
      by_contra hc
      exact hno ⟨j, h1, h2, by omega⟩
    · rintro ⟨hge, hall⟩
      refine ⟨?_, hge⟩
      rintro ⟨j, h1, h2, h3⟩
      have := hall j h1 h2
      omega
  refine ⟨fun k hk => ?_, ?_⟩
  · have hs := stable_step lookup_bandwidth (st k) (st (k + 1)) (inputs.get ⟨k, hk⟩)
      (w (k + 1)) (hstep k hk) (hstable k hk)
    exact ⟨hchar k hk, hs.2.1, hs.2.2.1⟩
  · intro k1 k2 hk1 hk2 hw1 hw2
    obtain ⟨hge1, hall1⟩ := (hchar k1 hk1).mp hw1
    obtain ⟨hge2, hall2⟩ := (hchar k2 hk2).mp hw2
    by_contra hne
    rcases Nat.lt_or_gt_of_ne hne with hlt | hgt
    · have := hall2 (k1 + 1) (by omega) (by omega)
      omega
    · have := hall1 (k2 + 1) (by omega) (by omega)
      omega

/-- Witness for C13: from Congestion with a full window and no drop, two
cycles with throughput 1000 result in Stable; the ratio is written in the
first and not in the second. -/
theorem stable_episode_single_computation_witness :
    (sample_episode_writes 1 ≠ [] ↔
      (RDMA_WINDOW_SIZE ≤ (sample_episode_states 1).rdma_window_count ∧
        ∀ j, 1 ≤ j → j ≤ 0 → (sample_episode_states j).rdma_window_count < RDMA_WINDOW_SIZE)) ∧
    (sample_episode_writes 2 = [] →
      netcas_query_optimal_split_ratio (sample_episode_states 2)
        = netcas_query_optimal_split_ratio (sample_episode_states 1)) :=
  have h := stable_episode_single_computation sample_lookup_bandwidth sample_episode_inputs
    sample_episode_states sample_episode_writes (by decide) (by decide) (by decide)
  ⟨(h.1 0 (by decide)).1, (h.1 1 (by decide)).2.2⟩

/-- C17 (behaviour of the code where the claim fails): after the cycles
(throughput 1000), (throughput 200), (throughput 0, iops 0) from the start
state with the example oracle, re-initialisation has left the variables of
the start state, so `max_average_rdma_throughput` is 0, except that
`drop_permil` is still 400; the next cycle hands 400, not 0, to
`determine_netcas_mode`.  Three further cycles with throughput 0 and iops
2000 (the window maximum stays 0) end in mode Congestion because of the stale
value, where the same cycles from the same variables with `drop_permil = 0`
end in Stable.  For `max_average_rdma_throughput > 0` the value handed over
is the one computed from the window average and its maximum. -/
theorem stale_drop_permil_after_reinit :
    split_monitor_run sample_lookup_bandwidth start_state
      [⟨⟨0, 1000, 0⟩, 0⟩, ⟨⟨0, 200, 0⟩, 1⟩, ⟨⟨0, 0, 0⟩, 2⟩]
      = some { start_state with drop_permil := 400 } ∧
    ({ start_state with drop_permil := 400 } : ControllerState).max_average_rdma_throughput
      = 0 ∧
    (cycle_drop { start_state with drop_permil := 400 }).drop_permil = 400 ∧
    (split_monitor_run sample_lookup_bandwidth { start_state with drop_permil := 400 }
      [⟨⟨0, 0, 2000⟩, 3⟩, ⟨⟨0, 0, 2000⟩, 3000000003⟩, ⟨⟨0, 0, 2000⟩, 3000000004⟩]).map
      (fun s => s.current_mode) = some NETCAS_MODE_CONGESTION ∧
    (split_monitor_run sample_lookup_bandwidth start_state
      [⟨⟨0, 0, 2000⟩, 3⟩, ⟨⟨0, 0, 2000⟩, 3000000003⟩, ⟨⟨0, 0, 2000⟩, 3000000004⟩]).map
      (fun s => s.current_mode) = some NETCAS_MODE_STABLE ∧
    (∀ s : ControllerState, 0 < s.max_average_rdma_throughput →
      (cycle_drop s).drop_permil
        = mul64 (sub64 s.max_average_rdma_throughput s.rdma_window_average) 1000 /
            s.max_average_rdma_throughput) := by
  refine ⟨by decide, by decide, by decide, by decide, by decide, ?_⟩
  intro s hs
  rw [cycle_drop_of_pos s hs]

/-! ## Constant throughput above the threshold -/

theorem window_holds_congr (a b : ControllerState) (xs : List Nat)
    (h : same_window a b) (hb : window_holds b xs) : window_holds a xs := by
  obtain ⟨h1, h2, h3, h4, _, _⟩ := h
  unfold window_holds at *
  rw [h1, h2, h3, h4]
  exact hb

theorem replicate_window_sum (n c : Nat) :
    (spec_window_samples (List.replicate n c)).sum = min n RDMA_WINDOW_SIZE * c := by
  unfold spec_window_samples
  rw [List.length_replicate, List.drop_replicate, List.sum_replicate, smul_eq_mul]
  congr 1
  omega

theorem scenario_push (s : ControllerState) (inp : cycle_input) (n c : Nat)
    (hw : window_holds s (List.replicate n c))
    (hmax : s.max_average_rdma_throughput ≤ c)
    (hthr : inp.current_rdma_metrics.rdma_throughput = c)
    (h20 : 20 * c < U64) :
    window_holds (cycle_push s inp) (List.replicate (n + 1) c) ∧
    (cycle_push s inp).rdma_window_average = c ∧
    (cycle_push s inp).max_average_rdma_throughput = c ∧
    (cycle_push s inp).rdma_window_count = min (n + 1) RDMA_WINDOW_SIZE := by
  have hR : RDMA_WINDOW_SIZE = 20 := rfl
  have hc : c < U64 := by omega
  have hu := update_window_holds s (List.replicate n c) c hw
    (by intro y hy; rw [List.eq_of_mem_replicate hy]; exact hc)
  rw [← List.replicate_succ'] at hu
  have hsw := cycle_push_same_window s inp
  rw [hthr] at hsw
  have hp := window_holds_congr _ _ _ hsw hu
  have hcnt : (cycle_push s inp).rdma_window_count = min (n + 1) RDMA_WINDOW_SIZE := by
    rw [hp.2.2.1, List.length_replicate]
  have hsum : (cycle_push s inp).rdma_window_sum = min (n + 1) RDMA_WINDOW_SIZE * c := by
    rw [hp.2.2.2.2, List.length_replicate]
    have := window_history_sum (List.replicate (n + 1) c)
    rw [List.length_replicate] at this
    rw [this, replicate_window_sum]
    apply Nat.mod_eq_of_lt
    have : min (n + 1) RDMA_WINDOW_SIZE * c ≤ 20 * c :=
      Nat.mul_le_mul_right c (by omega)
    omega
  have havg : (cycle_push s inp).rdma_window_average = c := by
    rw [hsw.2.2.2.2.1, (update_fields s c).2.2.2.2, ← hsw.2.2.1, ← hsw.2.2.2.1, hsum, hcnt]
    exact Nat.mul_div_cancel_left c (by omega)
  refine ⟨hp, havg, ?_, hcnt⟩
  rw [hsw.2.2.2.2.2, update_max_eq, ← hsw.2.2.2.2.1, havg]
  exact Nat.max_eq_right hmax

theorem scenario_dispatch (lookup_bandwidth : Nat → Nat → Nat → Nat) (s : ControllerState)
    (inp : cycle_input) (r0 : Nat)
    (hm : (cycle_determine s inp).current_mode = NETCAS_MODE_WARMUP ∨
      (cycle_determine s inp).current_mode = NETCAS_MODE_STABLE)
    (hfb : find_best_split_ratio lookup_bandwidth IO_DEPTH NUM_JOBS
      inp.current_rdma_metrics.rdma_throughput 0 = some r0)
    (hdp : (cycle_push s inp).drop_permil = 0)
    (hopt : (cycle_determine s inp).current_mode = NETCAS_MODE_STABLE →
      (cycle_push s inp).optimal_split_ratio = r0) :
    ∃ s1 w, split_monitor_cycle_log lookup_bandwidth s inp = some (s1, w) ∧
      (∃ f, s1 = { cycle_push s inp with
        optimal_split_ratio := r0, split_ratio_calculated_in_stable := f }) ∧
      ((cycle_determine s inp).current_mode = NETCAS_MODE_WARMUP →
        s1.split_ratio_calculated_in_stable
          = (cycle_push s inp).split_ratio_calculated_in_stable ∧ w = [r0]) ∧
      ((cycle_determine s inp).current_mode = NETCAS_MODE_STABLE →
        (s1.split_ratio_calculated_in_stable = true ↔
          ((cycle_push s inp).split_ratio_calculated_in_stable = true ∨
            RDMA_WINDOW_SIZE ≤ (cycle_push s inp).rdma_window_count)) ∧
        (w ≠ [] ↔ ((cycle_push s inp).split_ratio_calculated_in_stable = false ∧
          RDMA_WINDOW_SIZE ≤ (cycle_push s inp).rdma_window_count)) ∧
        (w = [r0] ∨ w = [])) := by
  rcases hm with hm | hm
  · refine ⟨{ cycle_push s inp with optimal_split_ratio := r0 }, [r0], ?_,
      ⟨(cycle_push s inp).split_ratio_calculated_in_stable, rfl⟩, ?_, ?_⟩
    · rw [cycle_log_warmup lookup_bandwidth s inp hm, hfb]
      rfl
    · intro _
      exact ⟨rfl, rfl⟩
    · intro hc
      rw [hm] at hc
      exact absurd hc (by decide)
  · by_cases hc : (cycle_push s inp).split_ratio_calculated_in_stable = false ∧
        RDMA_WINDOW_SIZE ≤ (cycle_push s inp).rdma_window_count
    · refine ⟨{ cycle_push s inp with
          optimal_split_ratio := r0, split_ratio_calculated_in_stable := true }, [r0], ?_,
        ⟨true, rfl⟩, ?_, ?_⟩
      · rw [cycle_log_stable lookup_bandwidth s inp hm, if_pos hc, hdp, hfb]
        rfl
      · intro hw
        rw [hm] at hw
        exact absurd hw (by decide)
      · intro _
        exact ⟨⟨fun _ => Or.inr hc.2, fun _ => rfl⟩, ⟨fun _ => hc, fun _ => by simp⟩,
          Or.inl rfl⟩
    · have hor : (cycle_push s inp).split_ratio_calculated_in_stable = true ∨
          (cycle_push s inp).rdma_window_count < RDMA_WINDOW_SIZE := by
        by_cases hf : (cycle_push s inp).split_ratio_calculated_in_stable = true
        · exact Or.inl hf
        · right
          by_contra hge
          exact hc ⟨by simpa using hf, by omega⟩
      have heta : cycle_push s inp = { cycle_push s inp with
          optimal_split_ratio := r0,
          split_ratio_calculated_in_stable :=
            (cycle_push s inp).split_ratio_calculated_in_stable } := by
        rw [← hopt hm]
      refine ⟨cycle_push s inp, [], ?_,
        ⟨(cycle_push s inp).split_ratio_calculated_in_stable, heta⟩, ?_, ?_⟩
      · rw [cycle_log_stable lookup_bandwidth s inp hm, if_neg hc]
      · intro hw
        rw [hm] at hw
        exact absurd hw (by decide)
      · intro _
        refine ⟨⟨fun hf => Or.inl hf, ?_⟩, ⟨fun hw => absurd rfl hw, fun h => absurd h hc⟩,
          Or.inr rfl⟩
        rintro (hf | hge)
        · exact hf
        · rcases hor with hf | hlt
          · exact hf
          · omega

theorem drop_permil_zero (c : Nat) : mul64 (sub64 c c) 1000 / c = 0 := by
  have h : sub64 c c = 0 := by
    unfold sub64 U64
    omega
  rw [h]
  simp [mul64]

theorem scenario_first (lookup_bandwidth : Nat → Nat → Nat → Nat) (inp : cycle_input)
    (c r0 : Nat)
    (hc100 : RDMA_THRESHOLD < c)
    (hthr : inp.current_rdma_metrics.rdma_throughput = c)
    (h20 : 20 * c < U64)
    (hfb : find_best_split_ratio lookup_bandwidth IO_DEPTH NUM_JOBS c 0 = some r0) :
    ∃ s1 w, split_monitor_cycle_log lookup_bandwidth start_state inp = some (s1, w) ∧
      scenario_invariant c inp.curr_time r0 NETCAS_MODE_WARMUP 1 s1 ∧
      (cycle_drop start_state).drop_permil = 0 ∧
      w = [r0] := by
  have hdrop : cycle_drop start_state = start_state := cycle_drop_of_zero start_state rfl
  have hD : cycle_determine start_state inp =
      { start_state with
        current_mode := NETCAS_MODE_WARMUP
        last_nonzero_transition_time := inp.curr_time
        netCAS_initialized := false } := by
    unfold cycle_determine
    rw [hdrop]
    unfold determine_netcas_mode
    rw [if_neg (by rw [hthr]; omega),
      if_pos (show start_state.current_mode = NETCAS_MODE_IDLE from rfl)]
  have hm : (cycle_determine start_state inp).current_mode = NETCAS_MODE_WARMUP := by rw [hD]
  obtain ⟨hw, havg, hmax, _⟩ := scenario_push start_state inp 0 c
    (init_window_holds static_state) (Nat.zero_le _) hthr h20
  obtain ⟨p1, p2, _, p4, p5, p6, p7⟩ := cycle_push_keeps start_state inp
  rw [hdrop] at p2
  have d5 : (cycle_determine start_state inp).netCAS_initialized = false := by rw [hD]
  have d6 : (cycle_determine start_state inp).split_ratio_calculated_in_stable = false := by
    rw [hD]; rfl
  have d7 : (cycle_determine start_state inp).last_nonzero_transition_time = inp.curr_time := by
    rw [hD]
  rw [d5] at p5
  rw [d6] at p6
  rw [d7] at p7
  obtain ⟨s1, w, hlog, ⟨f, hs1⟩, hwarm, _⟩ := scenario_dispatch lookup_bandwidth start_state inp r0
    (Or.inl hm) (by rw [hthr]; exact hfb) p2 (by intro h; rw [hm] at h; exact absurd h (by decide))
  obtain ⟨hf, hw1⟩ := hwarm hm
  refine ⟨s1, w, hlog, ?_, by rw [hdrop]; rfl, hw1⟩
  have hflag : s1.split_ratio_calculated_in_stable = false := by rw [hf, p6]
  have hsw : same_window s1 (cycle_push start_state inp) := by
    rw [hs1]
    exact ⟨rfl, rfl, rfl, rfl, rfl, rfl⟩
  unfold scenario_invariant
  refine ⟨?_, ?_, ?_, ?_, ?_, ?_, ?_, window_holds_congr _ _ _ hsw hw, ?_, ?_⟩
  · rw [hs1]; exact p1.trans hm
  · rw [hs1]; exact p7
  · rw [hs1]; exact p5
  · rw [hs1]; exact p4
  · rw [hs1]; exact p2
  · rw [hsw.2.2.2.2.1]; exact havg
  · rw [hsw.2.2.2.2.2]; exact hmax
  · rw [hflag]
    constructor
    · intro h; exact absurd h (by decide)
    · rintro ⟨h, _⟩; exact absurd h (by decide)
  · rw [hs1]

theorem scenario_next (lookup_bandwidth : Nat → Nat → Nat → Nat) (s : ControllerState)
    (inp : cycle_input) (c t1 r0 n : Nat) (m : netCAS_mode_t)
    (hinv : scenario_invariant c t1 r0 m n s)
    (hmw : m = NETCAS_MODE_WARMUP ∨ m = NETCAS_MODE_STABLE)
    (hc100 : RDMA_THRESHOLD < c)
    (hthr : inp.current_rdma_metrics.rdma_throughput = c)
    (h20 : 20 * c < U64)
    (hfb : find_best_split_ratio lookup_bandwidth IO_DEPTH NUM_JOBS c 0 = some r0)
    (ht1 : t1 ≤ inp.curr_time) (ht : inp.curr_time < U64)
    (hst : m = NETCAS_MODE_STABLE → WARMUP_PERIOD_NS ≤ inp.curr_time - t1) :
    ∃ s1 w, split_monitor_cycle_log lookup_bandwidth s inp = some (s1, w) ∧
      scenario_invariant c t1 r0
        (if WARMUP_PERIOD_NS ≤ inp.curr_time - t1 then NETCAS_MODE_STABLE
          else NETCAS_MODE_WARMUP) (n + 1) s1 ∧
      (cycle_drop s).drop_permil = 0 ∧
      (s1.current_mode = NETCAS_MODE_WARMUP → w = [r0]) ∧
      (s1.current_mode = NETCAS_MODE_STABLE →
        (w = [r0] ∨ w = []) ∧
        (w ≠ [] ↔ (¬ (m = NETCAS_MODE_STABLE ∧ RDMA_WINDOW_SIZE ≤ n) ∧
          RDMA_WINDOW_SIZE ≤ n + 1))) := by
  obtain ⟨imode, ilast, iinit, _, idp, iavg, imax, iwin, iflag, iopt⟩ := hinv
  have hR : RDMA_WINDOW_SIZE = 20 := rfl
  have hcpos : 0 < s.max_average_rdma_throughput := by
    rw [imax]; unfold RDMA_THRESHOLD at hc100; omega
  have hdp0 : (cycle_drop s).drop_permil = 0 := by
    rw [cycle_drop_of_pos s hcpos]
    show mul64 (sub64 s.max_average_rdma_throughput s.rdma_window_average) 1000 /
      s.max_average_rdma_throughput = 0
    rw [imax, iavg]
    exact drop_permil_zero c
  have hdrop : cycle_drop s = s := by
    rw [cycle_drop_keeps, hdp0, ← idp]
  have hactive : ¬ (inp.current_rdma_metrics.rdma_throughput ≤ RDMA_THRESHOLD ∧
      inp.current_rdma_metrics.iops ≤ IOPS_THRESHOLD) := by
    rw [hthr]; omega
  -- the state left by `determine_netcas_mode`
  have hD : (cycle_determine s inp).current_mode =
        (if WARMUP_PERIOD_NS ≤ inp.curr_time - t1 then NETCAS_MODE_STABLE
          else NETCAS_MODE_WARMUP) ∧
      (cycle_determine s inp).last_nonzero_transition_time = t1 ∧
      (cycle_determine s inp).netCAS_initialized = false ∧
      ((cycle_determine s inp).split_ratio_calculated_in_stable = true ↔
        (m = NETCAS_MODE_STABLE ∧ RDMA_WINDOW_SIZE ≤ n)) := by
    unfold cycle_determine
    rw [hdrop]
    rcases hmw with hm | hm
    · have hsm : s.current_mode = NETCAS_MODE_WARMUP := by rw [imode, hm]
      have hfalse : s.split_ratio_calculated_in_stable = false := by
        cases hf : s.split_ratio_calculated_in_stable with
        | false => rfl
        | true =>
          have := (iflag.mp hf).1
          rw [hm] at this
          exact absurd this (by decide)
      have hsub : sub64 inp.curr_time s.last_nonzero_transition_time = inp.curr_time - t1 := by
        rw [ilast]
        exact sub64_of_le _ _ ht1 ht
      unfold determine_netcas_mode
      rw [if_neg hactive, if_neg (by rw [hsm]; decide), if_pos hsm, hsub]
      by_cases hp : WARMUP_PERIOD_NS ≤ inp.curr_time - t1
      · rw [if_pos hp, if_pos hp]
        refine ⟨rfl, ilast, iinit, ?_⟩
        constructor
        · intro h; simp at h
        · rintro ⟨h, _⟩; rw [hm] at h; exact absurd h (by decide)
      · rw [if_neg hp, if_neg hp]
        refine ⟨hsm, ilast, iinit, ?_⟩
        rw [hfalse]
        constructor
        · intro h; exact absurd h (by decide)
        · rintro ⟨h, _⟩; rw [hm] at h; exact absurd h (by decide)
    · have hsm : s.current_mode = NETCAS_MODE_STABLE := by rw [imode, hm]
      have hsame : determine_netcas_mode s inp.curr_time inp.current_rdma_metrics.rdma_throughput
          inp.current_rdma_metrics.rdma_latency inp.current_rdma_metrics.iops s.drop_permil
          = s := by
        unfold determine_netcas_mode
        rw [if_neg hactive]
        simp [hsm, idp, CACHING_FAILED, CONGESTION_THRESHOLD]
      rw [hsame, if_pos (hst hm)]
      exact ⟨hsm, ilast, iinit, iflag⟩
  obtain ⟨dmode, dlast, dinit, dflag⟩ := hD
  have hmw1 : (cycle_determine s inp).current_mode = NETCAS_MODE_WARMUP ∨
      (cycle_determine s inp).current_mode = NETCAS_MODE_STABLE := by
    rw [dmode]
    split_ifs
    · exact Or.inr rfl
    · exact Or.inl rfl
  obtain ⟨hw, havg, hmax, hcnt⟩ := scenario_push s inp n c iwin (by rw [imax]) hthr h20
  obtain ⟨p1, p2, p3, p4, p5, p6, p7⟩ := cycle_push_keeps s inp
  rw [hdrop, idp] at p2
  rw [iopt] at p3
  rw [dinit] at p5
  rw [dlast] at p7
  obtain ⟨s1, w, hlog, ⟨f, hs1⟩, hwarm, hstab⟩ := scenario_dispatch lookup_bandwidth s inp r0
    hmw1 (by rw [hthr]; exact hfb) p2 (fun _ => p3)
  have hsw : same_window s1 (cycle_push s inp) := by
    rw [hs1]
    exact ⟨rfl, rfl, rfl, rfl, rfl, rfl⟩
  have hm1 : s1.current_mode = (cycle_determine s inp).current_mode := by
    rw [hs1]; exact p1
  -- a Warmup result can only come from Warmup
  have hwm : (cycle_determine s inp).current_mode = NETCAS_MODE_WARMUP →
      m = NETCAS_MODE_WARMUP := by
    intro h
    rcases hmw with hm | hm
    · exact hm
    · rw [dmode, if_pos (hst hm)] at h
      exact absurd h (by decide)
  refine ⟨s1, w, hlog, ?_, by rw [hdrop]; exact idp, ?_, ?_⟩
  · unfold scenario_invariant
    refine ⟨?_, ?_, ?_, ?_, ?_, ?_, ?_, window_holds_congr _ _ _ hsw hw, ?_, ?_⟩
    · rw [hm1]; exact dmode
    · rw [hs1]; exact p7
    · rw [hs1]; exact p5
    · rw [hs1]; exact p4
    · rw [hs1]; exact p2
    · rw [hsw.2.2.2.2.1]; exact havg
    · rw [hsw.2.2.2.2.2]; exact hmax
    · rw [← dmode]
      rcases hmw1 with hm | hm
      · have hmW := hwm hm
        rw [(hwarm hm).1, p6, dflag, hm, hmW]
        constructor
        · rintro ⟨h, _⟩; exact absurd h (by decide)
        · rintro ⟨h, _⟩; exact absurd h (by decide)
      · rw [(hstab hm).1, p6, dflag, hcnt, hm]
        constructor
        · rintro (⟨_, h⟩ | h)
          · exact ⟨rfl, by omega⟩
          · exact ⟨rfl, by omega⟩
        · rintro ⟨_, h⟩
          right
          omega
    · rw [hs1]
  · intro h
    exact (hwarm (hm1 ▸ h)).2
  · intro h
    have hm : (cycle_determine s inp).current_mode = NETCAS_MODE_STABLE := hm1 ▸ h
    obtain ⟨_, hwne, hwor⟩ := hstab hm
    refine ⟨hwor, ?_⟩
    rw [hwne, hcnt, p6]
    constructor
    · rintro ⟨hf, hge⟩
      refine ⟨fun hb => ?_, by omega⟩
      have := dflag.mpr hb
      rw [hf] at this
      exact absurd this (by decide)
    · rintro ⟨hnb, hge⟩
      refine ⟨?_, by omega⟩
      cases hf : (cycle_determine s inp).split_ratio_calculated_in_stable with
      | false => rfl
      | true => exact absurd (dflag.mp hf) hnb

theorem clock_of_get (inputs : List cycle_input) (n : Nat) (hn : n < inputs.length) :
    clock_of inputs n = (inputs.get ⟨n, hn⟩).curr_time := by
  unfold clock_of
  rw [List.getD_eq_getElem?_getD, List.getElem?_map, List.getElem?_eq_getElem hn]
  rfl

theorem clock_of_mono (inputs : List cycle_input)
    (hmono : (inputs.map (fun i => i.curr_time)).Pairwise (fun a b => a ≤ b))
    (i j : Nat) (hij : i ≤ j) (hj : j < inputs.length) :
    clock_of inputs i ≤ clock_of inputs j := by
  rcases Nat.eq_or_lt_of_le hij with heq | hlt
  · rw [heq]
  · have hi : i < inputs.length := by omega
    have h := (List.pairwise_iff_getElem.mp hmono) i j (by simpa using hi) (by simpa using hj) hlt
    simp only [List.getElem_map] at h
    rw [clock_of_get inputs i hi, clock_of_get inputs j hj]
    exact h

theorem scenario_mode_first (inputs : List cycle_input) :
    scenario_mode inputs 1 = NETCAS_MODE_WARMUP := by
  unfold scenario_mode WARMUP_PERIOD_NS
  rw [if_neg (by simp)]

theorem scenario_mode_cases (inputs : List cycle_input) (n : Nat) :
    scenario_mode inputs n = NETCAS_MODE_WARMUP ∨ scenario_mode inputs n = NETCAS_MODE_STABLE := by
  unfold scenario_mode
  split_ifs
  · exact Or.inr rfl
  · exact Or.inl rfl

theorem scenario_mode_stable_iff (inputs : List cycle_input) (n : Nat) :
    scenario_mode inputs n = NETCAS_MODE_STABLE ↔
      WARMUP_PERIOD_NS ≤ clock_of inputs (n - 1) - clock_of inputs 0 := by
  unfold scenario_mode
  split_ifs with h
  · exact ⟨fun _ => h, fun _ => rfl⟩
  · exact ⟨fun hc => absurd hc (by decide), fun hc => absurd hc h⟩

theorem scenario_mode_mono (inputs : List cycle_input)
    (hmono : (inputs.map (fun i => i.curr_time)).Pairwise (fun a b => a ≤ b))
    (i j : Nat) (hi : 1 ≤ i) (hij : i ≤ j) (hj : j ≤ inputs.length)
    (h : scenario_mode inputs i = NETCAS_MODE_STABLE) :
    scenario_mode inputs j = NETCAS_MODE_STABLE := by
  rw [scenario_mode_stable_iff] at h ⊢
  have := clock_of_mono inputs hmono (i - 1) (j - 1) (by omega) (by omega)
  omega

theorem run_take_succ (lookup_bandwidth : Nat → Nat → Nat → Nat) (inputs : List cycle_input)
    (s0 s s1 : ControllerState) (w : List Nat) (n : Nat) (hn : n < inputs.length)
    (hrun : split_monitor_run lookup_bandwidth s0 (inputs.take n) = some s)
    (hlog : split_monitor_cycle_log lookup_bandwidth s (inputs.get ⟨n, hn⟩) = some (s1, w)) :
    split_monitor_run lookup_bandwidth s0 (inputs.take (n + 1)) = some s1 := by
  have ht : inputs.take (n + 1) = inputs.take n ++ [inputs.get ⟨n, hn⟩] := by
    rw [List.take_succ, List.getElem?_eq_getElem hn]
    rfl
  rw [ht, run_snoc, hrun]
  simp only [Option.bind]
  rw [cycle_eq_log, hlog]
  rfl

theorem scenario_run (lookup_bandwidth : Nat → Nat → Nat → Nat)
    (inputs : List cycle_input) (c r0 : Nat)
    (hc100 : RDMA_THRESHOLD < c) (h20 : 20 * c < U64)
    (hthr : ∀ inp ∈ inputs, inp.current_rdma_metrics.rdma_throughput = c)
    (hmono : (inputs.map (fun i => i.curr_time)).Pairwise (fun a b => a ≤ b))
    (hclk : ∀ inp ∈ inputs, inp.curr_time < U64)
    (hfb : find_best_split_ratio lookup_bandwidth IO_DEPTH NUM_JOBS c 0 = some r0) :
    ∀ n (hn : n < inputs.length), ∃ s s1 w,
      split_monitor_run lookup_bandwidth start_state (inputs.take n) = some s ∧
      split_monitor_cycle_log lookup_bandwidth s (inputs.get ⟨n, hn⟩) = some (s1, w) ∧
      split_monitor_run lookup_bandwidth start_state (inputs.take (n + 1)) = some s1 ∧
      scenario_invariant c (clock_of inputs 0) r0 (scenario_mode inputs (n + 1)) (n + 1) s1 ∧
      (cycle_drop s).drop_permil = 0 ∧
      (s1.current_mode = NETCAS_MODE_WARMUP → w = [r0]) ∧
      (s1.current_mode = NETCAS_MODE_STABLE →
        (w = [r0] ∨ w = []) ∧
        (w ≠ [] ↔ (¬ (scenario_mode inputs n = NETCAS_MODE_STABLE ∧ RDMA_WINDOW_SIZE ≤ n) ∧
          RDMA_WINDOW_SIZE ≤ n + 1))) := by
  intro n
  induction n with
  | zero =>
    intro hn
    obtain ⟨s1, w, hlog, hinv, hdp, hw⟩ := scenario_first lookup_bandwidth (inputs.get ⟨0, hn⟩)
      c r0 hc100 (hthr _ (List.get_mem _ _ _)) h20 hfb
    rw [← clock_of_get inputs 0 hn, ← scenario_mode_first inputs] at hinv
    refine ⟨start_state, s1, w, rfl, hlog,
      run_take_succ lookup_bandwidth inputs start_state start_state s1 w 0 hn rfl hlog,
      hinv, hdp, fun _ => hw, ?_⟩
    intro hst
    rw [hinv.1, scenario_mode_first] at hst
    exact absurd hst (by decide)
  | succ n ih =>
    intro hn
    obtain ⟨_, s, _, _, _, hrun, hinv, _, _, _⟩ := ih (by omega)
    have hget := clock_of_get inputs (n + 1) hn
    have ht1 : clock_of inputs 0 ≤ (inputs.get ⟨n + 1, hn⟩).curr_time := by
      rw [← hget]
      exact clock_of_mono inputs hmono 0 (n + 1) (by omega) hn
    have hst : scenario_mode inputs (n + 1) = NETCAS_MODE_STABLE →
        WARMUP_PERIOD_NS ≤ (inputs.get ⟨n + 1, hn⟩).curr_time - clock_of inputs 0 := by
      intro h
      rw [scenario_mode_stable_iff] at h
      have := clock_of_mono inputs hmono n (n + 1) (by omega) hn
      rw [← hget]
      simp only [Nat.add_sub_cancel] at h
      omega
    obtain ⟨s1, w, hlog, hinv1, hdp, hwarm, hstab⟩ := scenario_next lookup_bandwidth s
      (inputs.get ⟨n + 1, hn⟩) c (clock_of inputs 0) r0 (n + 1) (scenario_mode inputs (n + 1))
      hinv (scenario_mode_cases inputs (n + 1)) hc100 (hthr _ (List.get_mem _ _ _)) h20 hfb
      ht1 (hclk _ (List.get_mem _ _ _)) hst
    have hmode : (if WARMUP_PERIOD_NS ≤ (inputs.get ⟨n + 1, hn⟩).curr_time - clock_of inputs 0
        then NETCAS_MODE_STABLE else NETCAS_MODE_WARMUP) = scenario_mode inputs (n + 1 + 1) := by
      unfold scenario_mode
      simp only [Nat.add_sub_cancel]
      rw [hget]
    rw [hmode] at hinv1
    exact ⟨s, s1, w, hrun, hlog,
      run_take_succ lookup_bandwidth inputs start_state s s1 w (n + 1) hn hrun hlog,
      hinv1, hdp, hwarm, hstab⟩

/-- C12 as stated fails: with the constant throughput `10^18 > 100` and the
non-decreasing clock readings 0, ..., 19, the running sum of the window wraps
in the 19th cycle, the window average falls below its maximum, and the
`drop_permil` computed in the 20th cycle is 11, not 0. -/
theorem constant_throughput_scenario_counterexample :
    (∀ inp ∈ sample_overflow_inputs,
      inp.current_rdma_metrics.rdma_throughput = 1000000000000000000) ∧
    RDMA_THRESHOLD < 1000000000000000000 ∧
    (sample_overflow_inputs.map (fun i => i.curr_time)).Pairwise (fun a b => a ≤ b) ∧
    (split_monitor_run sample_lookup_bandwidth start_state sample_overflow_inputs).map
      (fun s => s.drop_permil) = some 11 := by
  refine ⟨by decide, by decide, by decide, by decide⟩

/-- C12 (amended): start from the start state and let every cycle's snapshot
have the same throughput `c > 100` with `20 * c < 2^64`, the clock readings
be non-decreasing and below `2^64`, and the oracle give `bw_cache > 0` and
`bw_cache + bw_backend < 2^64`.  Then every cycle completes, and for the
`(n+1)`-th cycle, from the variables `s` to the variables `s1` with writes `w`:
the `drop_permil` used is 0; the mode afterwards is Stable when the time
elapsed since the first cycle (where Warmup is entered) is at least
`WARMUP_PERIOD_NS` and Warmup otherwise, and once Stable it stays Stable;
`data_admit` is false; the window holds `min (n+1) 20` samples; the published
ratio is the value `r0` that `find_best_split_ratio` gives without drop; a
Warmup cycle writes it; and a Stable cycle writes it exactly when it is the
first Stable cycle at which the window holds 20 samples, and writes nothing
otherwise. -/
theorem constant_throughput_scenario (lookup_bandwidth : Nat → Nat → Nat → Nat)
    (inputs : List cycle_input) (c : Nat)
    (hc100 : RDMA_THRESHOLD < c) (h20 : 20 * c < U64)
    (hthr : ∀ inp ∈ inputs, inp.current_rdma_metrics.rdma_throughput = c)
    (hmono : (inputs.map (fun i => i.curr_time)).Pairwise (fun a b => a ≤ b))
    (hclk : ∀ inp ∈ inputs, inp.curr_time < U64)
    (hbc : 0 < lookup_bandwidth IO_DEPTH NUM_JOBS 100)
    (hsum : lookup_bandwidth IO_DEPTH NUM_JOBS 100 + lookup_bandwidth IO_DEPTH NUM_JOBS 0
      < U64) :
    ∃ r0, find_best_split_ratio lookup_bandwidth IO_DEPTH NUM_JOBS c 0 = some r0 ∧
      scenario_mode inputs 1 = NETCAS_MODE_WARMUP ∧
      ∀ n (hn : n < inputs.length), ∃ s s1 w,
        split_monitor_run lookup_bandwidth start_state (inputs.take n) = some s ∧
        split_monitor_cycle_log lookup_bandwidth s (inputs.get ⟨n, hn⟩) = some (s1, w) ∧
        split_monitor_run lookup_bandwidth start_state (inputs.take (n + 1)) = some s1 ∧
        (cycle_drop s).drop_permil = 0 ∧
        s1.drop_permil = 0 ∧
        s1.current_mode = scenario_mode inputs (n + 1) ∧
        (s1.current_mode = NETCAS_MODE_STABLE ↔
          WARMUP_PERIOD_NS ≤ clock_of inputs n - clock_of inputs 0) ∧
        (s1.current_mode = NETCAS_MODE_WARMUP ↔
          clock_of inputs n - clock_of inputs 0 < WARMUP_PERIOD_NS) ∧
        (∀ j, 1 ≤ j → j ≤ n + 1 → scenario_mode inputs j = NETCAS_MODE_STABLE →
          s1.current_mode = NETCAS_MODE_STABLE) ∧
        netcas_query_data_admit s1 = false ∧
        s1.rdma_window_count = min (n + 1) RDMA_WINDOW_SIZE ∧
        netcas_query_optimal_split_ratio s1 = r0 ∧
        (s1.current_mode = NETCAS_MODE_WARMUP → w = [r0]) ∧
        (s1.current_mode = NETCAS_MODE_STABLE →
          (w = [r0] ∨ w = []) ∧
          (w ≠ [] ↔ (RDMA_WINDOW_SIZE ≤ n + 1 ∧
            ∀ j, 1 ≤ j → j ≤ n →
              ¬ (scenario_mode inputs j = NETCAS_MODE_STABLE ∧ RDMA_WINDOW_SIZE ≤ j)))) := by
  obtain ⟨r0, hfb, _⟩ := find_best_some_le lookup_bandwidth IO_DEPTH NUM_JOBS c 0 hbc hsum
    (Nat.zero_le _)
  refine ⟨r0, hfb, scenario_mode_first inputs, ?_⟩
  intro n hn
  obtain ⟨s, s1, w, hrun, hlog, hrun1, hinv, hdp, hwarm, hstab⟩ :=
    scenario_run lookup_bandwidth inputs c r0 hc100 h20 hthr hmono hclk hfb n hn
  obtain ⟨imode, _, _, iadm, idp, _, _, iwin, _, iopt⟩ := hinv
  have hiff := scenario_mode_stable_iff inputs (n + 1)
  simp only [Nat.add_sub_cancel] at hiff
  refine ⟨s, s1, w, hrun, hlog, hrun1, hdp, idp, imode, ?_, ?_, ?_, iadm, ?_, iopt, hwarm, ?_⟩
  · rw [imode]
    exact hiff
  · rw [imode]
    rcases scenario_mode_cases inputs (n + 1) with h | h
    · rw [h]
      refine ⟨fun _ => ?_, fun _ => rfl⟩
      by_contra hc
      have := hiff.mpr (by omega)
      rw [h] at this
      exact absurd this (by decide)
    · rw [h]
      refine ⟨fun hc => absurd hc (by decide), fun hc => ?_⟩
      have := hiff.mp h
      omega
  · intro j hj1 hj2 hj
    rw [imode]
    exact scenario_mode_mono inputs hmono j (n + 1) hj1 hj2 (by omega) hj
  · rw [iwin.2.2.1, List.length_replicate]
  · intro hst
    obtain ⟨hor, hne⟩ := hstab hst
    refine ⟨hor, ?_⟩
    rw [hne]
    constructor
    · rintro ⟨hnot, hge⟩
      refine ⟨hge, fun j hj1 hj2 hj => ?_⟩
      have hR : RDMA_WINDOW_SIZE = 20 := rfl
      exact hnot ⟨scenario_mode_mono inputs hmono j n hj1 hj2 (by omega) hj.1, by omega⟩
    · rintro ⟨hge, hall⟩
      refine ⟨fun hb => ?_, hge⟩
      have hR : RDMA_WINDOW_SIZE = 20 := rfl
      exact hall n (by omega) (Nat.le_refl _) hb

/-- Witness for the amended C12: throughput 500 with the example oracle, at
clocks 10, 20 and 3000000010: all three cycles complete, the third ends in
Stable with `drop_permil` 0 and `data_admit` false. -/
theorem constant_throughput_scenario_witness :
    ∃ s1, split_monitor_run sample_lookup_bandwidth start_state
        (sample_scenario_inputs.take 3) = some s1 ∧
      s1.drop_permil = 0 ∧
      s1.current_mode = scenario_mode sample_scenario_inputs 3 ∧
      netcas_query_data_admit s1 = false :=
  have ⟨_, _, _, h⟩ := constant_throughput_scenario sample_lookup_bandwidth
    sample_scenario_inputs 500 (by decide) (by decide) (by decide) (by decide) (by decide)
    (by decide) (by decide)
  have ⟨_, s1, _, _, _, h3, _, h5, h6, _, _, _, h10, _⟩ := h 2 (by decide)
  ⟨s1, h3, h5, h6, h10⟩

/-! ## Sleep time, published flags, monotonicity of the ratio -/

/-- C21: for every measured `elapsed_time_ms`, the sleep time chosen at the
end of a cycle equals `max 1 (MONITOR_INTERVAL_MS - elapsed_time_ms)` computed
over the integers, with `MONITOR_INTERVAL_MS = 100`, and lies in [1,100]; the
result is 1 without any subtraction when `elapsed_time_ms >= 100`, and when
`elapsed_time_ms < 100` the unsigned 64-bit subtraction is the exact
difference. -/
theorem sleep_time_ms_eq (elapsed_time_ms : Nat) :
    ((sleep_time_ms elapsed_time_ms : Nat) : Int)
      = max 1 ((MONITOR_INTERVAL_MS : Int) - (elapsed_time_ms : Int)) ∧
    MONITOR_INTERVAL_MS = 100 ∧
    1 ≤ sleep_time_ms elapsed_time_ms ∧
    sleep_time_ms elapsed_time_ms ≤ 100 ∧
    (elapsed_time_ms ≥ MONITOR_INTERVAL_MS → sleep_time_ms elapsed_time_ms = 1) ∧
    (elapsed_time_ms < MONITOR_INTERVAL_MS →
      sleep_time_ms elapsed_time_ms = sub64 MONITOR_INTERVAL_MS elapsed_time_ms ∧
      sub64 MONITOR_INTERVAL_MS elapsed_time_ms = MONITOR_INTERVAL_MS - elapsed_time_ms ∧
      elapsed_time_ms ≤ MONITOR_INTERVAL_MS) := by
  have hM : MONITOR_INTERVAL_MS = 100 := rfl
  by_cases h : elapsed_time_ms ≥ MONITOR_INTERVAL_MS
  · have hs : sleep_time_ms elapsed_time_ms = 1 := by
      unfold sleep_time_ms
      rw [if_pos h]
    rw [hs, hM] at *
    refine ⟨?_, rfl, by omega, by omega, fun _ => rfl, fun hlt => by omega⟩
    push_cast
    omega
  · have hsub : sub64 MONITOR_INTERVAL_MS elapsed_time_ms
        = MONITOR_INTERVAL_MS - elapsed_time_ms := by
      unfold sub64 U64
      omega
    have hs : sleep_time_ms elapsed_time_ms = MONITOR_INTERVAL_MS - elapsed_time_ms := by
      unfold sleep_time_ms
      rw [if_neg h, hsub]
    rw [hs, hsub, hM] at *
    refine ⟨?_, rfl, by omega, by omega, fun hge => by omega, fun _ => ⟨rfl, rfl, by omega⟩⟩
    push_cast
    omega

/-- Witness for C21: a cycle that took 30 ms is followed by a sleep of 70 ms,
one that took 250 ms by a sleep of 1 ms. -/
theorem sleep_time_ms_eq_witness :
    sleep_time_ms 30 = sub64 MONITOR_INTERVAL_MS 30 ∧
    sub64 MONITOR_INTERVAL_MS 30 = MONITOR_INTERVAL_MS - 30 ∧
    sleep_time_ms 250 = 1 :=
  have h := (sleep_time_ms_eq 30).2.2.2.2.2 (by decide)
  ⟨h.1, h.2.1, (sleep_time_ms_eq 250).2.2.2.2.1 (by decide)⟩

/-- C24: in every state the monitor loop reaches from the start state (no
other caller of `netcas_set_data_admit`), `data_admit` is true if and only if
the mode is Idle; when the mode is Idle `netCAS_initialized` is true, the
window is empty (count 0, average 0, `max_average` 0) and the published ratio
is 10000; and when the mode is Warmup, Stable or Congestion
`netCAS_initialized` is false. -/
theorem data_admit_iff_idle (lookup_bandwidth : Nat → Nat → Nat → Nat)
    (inputs : List cycle_input) (s : ControllerState)
    (hrun : split_monitor_run lookup_bandwidth start_state inputs = some s) :
    ( netcas_query_data_admit s = true ↔ s.current_mode = NETCAS_MODE_IDLE) ∧
    (s.current_mode = NETCAS_MODE_IDLE →
      s.netCAS_initialized = true ∧ s.rdma_window_count = 0 ∧
      s.rdma_window_average = 0 ∧ s.max_average_rdma_throughput = 0 ∧
      netcas_query_optimal_split_ratio s = 10000) ∧
    (s.current_mode = NETCAS_MODE_WARMUP ∨ s.current_mode = NETCAS_MODE_STABLE ∨
        s.current_mode = NETCAS_MODE_CONGESTION →
      s.netCAS_initialized = false) := by
  obtain ⟨_, hidle, hact⟩ :=
    run_phase_invariant lookup_bandwidth inputs start_state s start_phase_invariant hrun
  refine ⟨?_, ?_, ?_⟩
  · constructor
    · intro ha
      by_contra hc
      have := (hact hc).2
      unfold netcas_query_data_admit at ha
      rw [ha] at this
      exact absurd this (by decide)
    · intro hm
      exact (hidle hm).2.1
  · intro hm
    obtain ⟨i1, _, i3, _, i5, i6, i7⟩ := hidle hm
    exact ⟨i1, i5, i6, i7, i3⟩
  · intro hm
    apply (hact _).1
    rcases hm with h | h | h <;> rw [h] <;> decide

/-- Witness for C24: after two active cycles from the start state the mode is
Stable, `data_admit` is false and `netCAS_initialized` is false. -/
theorem data_admit_iff_idle_witness :
    ( netcas_query_data_admit
      { rdma_throughput_window := [500, 500, 0, 0, 0, 0, 0, 0, 0, 0, 0, 0, 0, 0, 0, 0, 0, 0, 0, 0]
        rdma_window_index := 2
        rdma_window_sum := 1000
        rdma_window_count := 2
        rdma_window_average := 500
        max_average_rdma_throughput := 500
        last_nonzero_transition_time := 10
        netCAS_initialized := false
        split_ratio_calculated_in_stable := false
        optimal_split_ratio := 7500
        global_data_admit := false
        current_mode := NETCAS_MODE_STABLE
        drop_permil := 0 } = true ↔ NETCAS_MODE_STABLE = NETCAS_MODE_IDLE) :=
  (data_admit_iff_idle sample_lookup_bandwidth
    [⟨⟨0, 500, 0⟩, 10⟩, ⟨⟨0, 500, 0⟩, 3000000010⟩] _ (by decide)).1

theorem find_best_derated (lookup_bandwidth : Nat → Nat → Nat → Nat)
    (io_depth numjob thr d : Nat)
    (hc : 0 < lookup_bandwidth io_depth numjob 100)
    (hthr : RDMA_THRESHOLD < thr) (hd : d ≤ 1000)
    (hmulc : lookup_bandwidth io_depth numjob 100 * SPLIT_RATIO_SCALE < U64)
    (hmulb : lookup_bandwidth io_depth numjob 0 * 1000 < U64)
    (hadd : lookup_bandwidth io_depth numjob 100 + lookup_bandwidth io_depth numjob 0 < U64) :
    find_best_split_ratio lookup_bandwidth io_depth numjob thr d =
      some (lookup_bandwidth io_depth numjob 100 * 10000 /
        (lookup_bandwidth io_depth numjob 100 +
          lookup_bandwidth io_depth numjob 0 * (1000 - d) / 1000)) := by
  have hspec : spec_derated_backend (lookup_bandwidth io_depth numjob 0) thr d
      = lookup_bandwidth io_depth numjob 0 * (1000 - d) / 1000 := by
    unfold spec_derated_backend
    rw [if_pos hthr]
  have hle : lookup_bandwidth io_depth numjob 0 * (1000 - d) / 1000
      ≤ lookup_bandwidth io_depth numjob 0 := by
    calc lookup_bandwidth io_depth numjob 0 * (1000 - d) / 1000
        ≤ lookup_bandwidth io_depth numjob 0 * 1000 / 1000 :=
          Nat.div_le_div_right (Nat.mul_le_mul_left _ (Nat.sub_le _ _))
      _ = lookup_bandwidth io_depth numjob 0 := Nat.mul_div_cancel _ (by norm_num)
  have hprod : lookup_bandwidth io_depth numjob 0 * (1000 - d) < U64 :=
    Nat.lt_of_le_of_lt (Nat.mul_le_mul_left _ (Nat.sub_le _ _)) hmulb
  have h := find_best_exact lookup_bandwidth io_depth numjob thr d hd
    (by rw [hspec]; omega) hmulc (fun _ => hprod) (by rw [hspec]; omega)
  rw [hspec] at h
  exact h

/-- C25: for `bw_cache > 0`, throughput above `RDMA_THRESHOLD` and no 64-bit
overflow, `find_best_split_ratio` is non-decreasing in `drop_permil` over
[0,1000]: for `d1 <= d2 <= 1000` both calls return a value and the first is
at most the second; at `drop_permil = 1000` the result is 10000, and at
`drop_permil = 0` it is `bw_cache * 10000 / (bw_cache + bw_backend)`. -/
theorem find_best_split_ratio_monotone (lookup_bandwidth : Nat → Nat → Nat → Nat)
    (io_depth numjob thr d1 d2 : Nat)
    (hc : 0 < lookup_bandwidth io_depth numjob 100)
    (hthr : RDMA_THRESHOLD < thr)
    (hd : d1 ≤ d2) (hd2 : d2 ≤ 1000)
    (hmulc : lookup_bandwidth io_depth numjob 100 * SPLIT_RATIO_SCALE < U64)
    (hmulb : lookup_bandwidth io_depth numjob 0 * 1000 < U64)
    (hadd : lookup_bandwidth io_depth numjob 100 + lookup_bandwidth io_depth numjob 0 < U64) :
    (∃ r1 r2, find_best_split_ratio lookup_bandwidth io_depth numjob thr d1 = some r1 ∧
      find_best_split_ratio lookup_bandwidth io_depth numjob thr d2 = some r2 ∧ r1 ≤ r2) ∧
    find_best_split_ratio lookup_bandwidth io_depth numjob thr 1000 = some 10000 ∧
    find_best_split_ratio lookup_bandwidth io_depth numjob thr 0 =
      some (lookup_bandwidth io_depth numjob 100 * 10000 /
        (lookup_bandwidth io_depth numjob 100 + lookup_bandwidth io_depth numjob 0)) := by
  have h1 := find_best_derated lookup_bandwidth io_depth numjob thr d1 hc hthr (by omega)
    hmulc hmulb hadd
  have h2 := find_best_derated lookup_bandwidth io_depth numjob thr d2 hc hthr hd2
    hmulc hmulb hadd
  have hmax := find_best_derated lookup_bandwidth io_depth numjob thr 1000 hc hthr
    (Nat.le_refl _) hmulc hmulb hadd
  have hzero := find_best_derated lookup_bandwidth io_depth numjob thr 0 hc hthr
    (Nat.zero_le _) hmulc hmulb hadd
  refine ⟨⟨_, _, h1, h2, ?_⟩, ?_, ?_⟩
  · apply Nat.div_le_div_left
    · have : lookup_bandwidth io_depth numjob 0 * (1000 - d2) / 1000
          ≤ lookup_bandwidth io_depth numjob 0 * (1000 - d1) / 1000 :=
        Nat.div_le_div_right (Nat.mul_le_mul_left _ (by omega))
      omega
    · omega
  · rw [hmax]
    simp only [Nat.sub_self, Nat.mul_zero, Nat.zero_div, Nat.add_zero]
    rw [Nat.mul_div_cancel_left _ hc]
  · rw [hzero]
    simp only [Nat.sub_zero]
    rw [Nat.mul_div_cancel _ (by norm_num : 0 < 1000)]

/-- Witness for C25: with the example oracle and throughput 500, drops of 100
and 500 permil give values in that order. -/
theorem find_best_split_ratio_monotone_witness :
    (∃ r1 r2, find_best_split_ratio sample_lookup_bandwidth IO_DEPTH NUM_JOBS 500 100 = some r1 ∧
      find_best_split_ratio sample_lookup_bandwidth IO_DEPTH NUM_JOBS 500 500 = some r2 ∧
      r1 ≤ r2) ∧
    find_best_split_ratio sample_lookup_bandwidth IO_DEPTH NUM_JOBS 500 1000 = some 10000 :=
  have h := find_best_split_ratio_monotone sample_lookup_bandwidth IO_DEPTH NUM_JOBS 500 100 500
    (by decide) (by decide) (by decide) (by decide) (by decide) (by decide) (by decide)
  ⟨h.1, h.2.1⟩

/-! ## The congestion signal stays in range -/

theorem cycle_drop_signal (s : ControllerState) (h : signal_invariant s) :
    signal_invariant (cycle_drop s) := by
  unfold cycle_drop
  split_ifs with hpos
  · exact ⟨h.1, h.2.1, drop_le _ _ h.1 h.2.1 hpos⟩
  · exact h

theorem cycle_determine_signal (s : ControllerState) (inp : cycle_input)
    (h : signal_invariant s) : signal_invariant (cycle_determine s inp) := by
  obtain ⟨_, h2, h3, h4, _⟩ := determine_keeps (cycle_drop s) inp.curr_time
    inp.current_rdma_metrics.rdma_throughput inp.current_rdma_metrics.rdma_latency
    inp.current_rdma_metrics.iops (cycle_drop s).drop_permil
  unfold signal_invariant cycle_determine
  rw [h2, h3, h4]
  exact cycle_drop_signal s h

theorem update_average_le_max (s : ControllerState) (x : Nat) :
    (update_rdma_window s x).rdma_window_average
      ≤ (update_rdma_window s x).max_average_rdma_throughput := by
  rw [update_max_eq]
  exact Nat.le_max_right _ _

theorem update_max_lt (s : ControllerState) (x : Nat)
    (h : s.max_average_rdma_throughput < U64) :
    (update_rdma_window s x).max_average_rdma_throughput < U64 := by
  rw [update_max_eq]
  exact max_lt h (update_average_lt s x)

theorem cycle_push_signal (s : ControllerState) (inp : cycle_input)
    (h : signal_invariant s) : signal_invariant (cycle_push s inp) := by
  have hd := cycle_determine_signal s inp h
  refine ⟨?_, ?_, ?_⟩
  · exact update_average_le_max _ _
  · exact update_max_lt _ _ hd.2.1
  · rw [(cycle_push_keeps s inp).2.1]
    exact (cycle_drop_signal s h).2.2

theorem cycle_signal (lookup_bandwidth : Nat → Nat → Nat → Nat) (s s1 : ControllerState)
    (inp : cycle_input) (w : List Nat) (h : signal_invariant s)
    (hlog : split_monitor_cycle_log lookup_bandwidth s inp = some (s1, w)) :
    signal_invariant s1 := by
  have hd := cycle_determine_signal s inp h
  rcases mode_cases (cycle_determine s inp).current_mode with hm | hm | hm | hm | hm
  · rw [cycle_log_idle lookup_bandwidth s inp hm] at hlog
    split_ifs at hlog <;> simp only [Option.some.injEq, Prod.mk.injEq] at hlog <;>
      rw [← hlog.1]
    · exact ⟨Nat.le_refl _, U64_pos, hd.2.2⟩
    · exact hd
  · obtain ⟨r, f, hs1⟩ := cycle_log_active lookup_bandwidth s s1 inp w (Or.inl hm) hlog
    rw [hs1]
    exact cycle_push_signal s inp h
  · obtain ⟨r, f, hs1⟩ := cycle_log_active lookup_bandwidth s s1 inp w
      (Or.inr (Or.inl hm)) hlog
    rw [hs1]
    exact cycle_push_signal s inp h
  · obtain ⟨r, f, hs1⟩ := cycle_log_active lookup_bandwidth s s1 inp w
      (Or.inr (Or.inr hm)) hlog
    rw [hs1]
    exact cycle_push_signal s inp h
  · rw [cycle_log_failure lookup_bandwidth s inp hm] at hlog
    simp only [Option.some.injEq, Prod.mk.injEq] at hlog
    rw [← hlog.1]
    exact hd

theorem run_signal (lookup_bandwidth : Nat → Nat → Nat → Nat) :
    ∀ (inputs : List cycle_input) (s s1 : ControllerState),
      signal_invariant s →
      split_monitor_run lookup_bandwidth s inputs = some s1 →
      signal_invariant s1 := by
  intro inputs
  induction inputs with
  | nil =>
    intro s s1 hs h
    simp only [split_monitor_run, Option.some.injEq] at h
    rw [← h]
    exact hs
  | cons inp rest ih =>
    intro s s1 hs h
    simp only [split_monitor_run] at h
    cases hc : split_monitor_cycle lookup_bandwidth s inp with
    | none => rw [hc] at h; simp at h
    | some s2 =>
      rw [hc] at h
      obtain ⟨w, hw⟩ := cycle_some_log lookup_bandwidth s s2 inp hc
      exact ih s2 s1 (cycle_signal lookup_bandwidth s s2 inp w hs hw) h

theorem window_ops_bounds (ops : List window_op) :
    ∀ s : ControllerState,
      s.rdma_window_average ≤ s.max_average_rdma_throughput →
      s.max_average_rdma_throughput < U64 →
      (ops.foldl apply_window_op s).rdma_window_average
        ≤ (ops.foldl apply_window_op s).max_average_rdma_throughput ∧
      (ops.foldl apply_window_op s).max_average_rdma_throughput < U64 := by
  induction ops with
  | nil => intro s h1 h2; exact ⟨h1, h2⟩
  | cons op rest ih =>
    intro s h1 h2
    cases op with
    | push x =>
      exact ih (update_rdma_window s x) (update_average_le_max s x) (update_max_lt s x h2)
    | reinit =>
      exact ih (init_netCAS s) (Nat.le_refl _) U64_pos

/-- C23: in every state `s` the monitor loop reaches from the start state,
`rdma_window_average <= max_average_rdma_throughput`, so the 64-bit
subtraction `max_average - window_average` is the exact difference; the
`drop_permil` held in `s` and the one the next cycle uses (computed when
`max_average > 0`, retained otherwise) are at most 1000, so the 64-bit factor
`1000 - drop_permil` is the exact difference too.  The same bound on the
average holds after any sequence of pushes and re-initialisations applied to
a state left by `init_netCAS`, and the signal computed there is at most
1000. -/
theorem window_average_le_max (lookup_bandwidth : Nat → Nat → Nat → Nat)
    (inputs : List cycle_input) (s : ControllerState)
    (hrun : split_monitor_run lookup_bandwidth start_state inputs = some s) :
    s.rdma_window_average ≤ s.max_average_rdma_throughput ∧
    sub64 s.max_average_rdma_throughput s.rdma_window_average
      = s.max_average_rdma_throughput - s.rdma_window_average ∧
    s.drop_permil ≤ 1000 ∧
    (cycle_drop s).drop_permil ≤ 1000 ∧
    (0 < s.max_average_rdma_throughput → cycle_start_drop_permil s ≤ 1000) ∧
    sub64 1000 (cycle_drop s).drop_permil = 1000 - (cycle_drop s).drop_permil ∧
    (∀ (s0 : ControllerState) (ops : List window_op),
      (ops.foldl apply_window_op (init_netCAS s0)).rdma_window_average
        ≤ (ops.foldl apply_window_op (init_netCAS s0)).max_average_rdma_throughput ∧
      sub64 (ops.foldl apply_window_op (init_netCAS s0)).max_average_rdma_throughput
          (ops.foldl apply_window_op (init_netCAS s0)).rdma_window_average
        = (ops.foldl apply_window_op (init_netCAS s0)).max_average_rdma_throughput
          - (ops.foldl apply_window_op (init_netCAS s0)).rdma_window_average ∧
      (0 < (ops.foldl apply_window_op (init_netCAS s0)).max_average_rdma_throughput →
        cycle_start_drop_permil (ops.foldl apply_window_op (init_netCAS s0)) ≤ 1000)) := by
  have hstart : signal_invariant start_state := ⟨Nat.le_refl _, U64_pos, Nat.zero_le _⟩
  obtain ⟨h1, h2, h3⟩ := run_signal lookup_bandwidth inputs start_state s hstart hrun
  have hnext := cycle_drop_signal s ⟨h1, h2, h3⟩
  refine ⟨h1, sub64_of_le _ _ h1 h2, h3, hnext.2.2, fun hpos => drop_le _ _ h1 h2 hpos,
    sub64_1000 _ hnext.2.2, ?_⟩
  intro s0 ops
  obtain ⟨o1, o2⟩ := window_ops_bounds ops (init_netCAS s0) (Nat.le_refl _) U64_pos
  exact ⟨o1, sub64_of_le _ _ o1 o2, fun hpos => drop_le _ _ o1 o2 hpos⟩

/-- Witness for C23: the state after the cycles with throughput 1000 and 200
from the start state (average 600, maximum 1000): the next signal is 400. -/
theorem window_average_le_max_witness :
    (600 : Nat) ≤ 1000 ∧
    (cycle_drop
      { rdma_throughput_window :=
          [1000, 200, 0, 0, 0, 0, 0, 0, 0, 0, 0, 0, 0, 0, 0, 0, 0, 0, 0, 0]
        rdma_window_index := 2
        rdma_window_sum := 1200
        rdma_window_count := 2
        rdma_window_average := 600
        max_average_rdma_throughput := 1000
        last_nonzero_transition_time := 0
        netCAS_initialized := false
        split_ratio_calculated_in_stable := false
        optimal_split_ratio := 7500
        global_data_admit := false
        current_mode := NETCAS_MODE_WARMUP
        drop_permil := 0 }).drop_permil ≤ 1000 :=
  have h := window_average_le_max sample_lookup_bandwidth
    [⟨⟨0, 1000, 0⟩, 0⟩, ⟨⟨0, 200, 0⟩, 1⟩] _ (by decide)
  ⟨h.1, h.2.2.2.1⟩

/-! ## The flag assignment of the Stable to Congestion transition is not observed -/

theorem dispatch_state (lookup_bandwidth : Nat → Nat → Nat → Nat) (d : ControllerState)
    (thr : Nat) :
    (cycle_dispatch_log lookup_bandwidth d thr).map Prod.fst =
      match d.current_mode with
      | NETCAS_MODE_IDLE =>
        if !d.netCAS_initialized then some (init_netCAS d) else some d
      | NETCAS_MODE_WARMUP =>
        match find_best_split_ratio lookup_bandwidth IO_DEPTH NUM_JOBS thr 0 with
        | none => none
        | some split_ratio =>
          some (split_set_optimal_ratio
            { update_rdma_window ( netcas_set_data_admit d false) thr with
              optimal_split_ratio := split_ratio } split_ratio)
      | NETCAS_MODE_STABLE =>
        if !(update_rdma_window ( netcas_set_data_admit d false)
              thr).split_ratio_calculated_in_stable ∧
            (update_rdma_window ( netcas_set_data_admit d false) thr).rdma_window_count
              ≥ RDMA_WINDOW_SIZE then
          match find_best_split_ratio lookup_bandwidth IO_DEPTH NUM_JOBS thr
              (update_rdma_window ( netcas_set_data_admit d false) thr).drop_permil with
          | none => none
          | some split_ratio =>
            some { split_set_optimal_ratio
              { update_rdma_window ( netcas_set_data_admit d false) thr with
                optimal_split_ratio := split_ratio } split_ratio with
              split_ratio_calculated_in_stable := true }
        else some (update_rdma_window ( netcas_set_data_admit d false) thr)
      | NETCAS_MODE_CONGESTION =>
        if (update_rdma_window ( netcas_set_data_admit d false) thr).rdma_window_count
            ≥ RDMA_WINDOW_SIZE then
          match find_best_split_ratio lookup_bandwidth IO_DEPTH NUM_JOBS thr
              (update_rdma_window ( netcas_set_data_admit d false) thr).drop_permil with
          | none => none
          | some split_ratio =>
            if split_ratio ≠
                (update_rdma_window ( netcas_set_data_admit d false) thr).optimal_split_ratio then
              some (split_set_optimal_ratio
                { update_rdma_window ( netcas_set_data_admit d false) thr with
                  optimal_split_ratio := split_ratio } split_ratio)
            else some (update_rdma_window ( netcas_set_data_admit d false) thr)
        else some (update_rdma_window ( netcas_set_data_admit d false) thr)
      | NETCAS_MODE_FAILURE => some d := by
  unfold cycle_dispatch_log
  cases d.current_mode with
  | NETCAS_MODE_IDLE => simp only []; split_ifs <;> rfl
  | NETCAS_MODE_WARMUP => simp only []; split <;> rfl
  | NETCAS_MODE_STABLE =>
    simp only []
    split_ifs
    · split <;> rfl
    · rfl
  | NETCAS_MODE_CONGESTION =>
    simp only []
    split_ifs
    · split
      · rfl
      · split_ifs <;> rfl
    · rfl
  | NETCAS_MODE_FAILURE => rfl

theorem cycle_as_dispatch (lookup_bandwidth : Nat → Nat → Nat → Nat) (s : ControllerState)
    (inp : cycle_input) :
    split_monitor_cycle lookup_bandwidth s inp =
      (cycle_dispatch_log lookup_bandwidth
        (determine_netcas_mode (cycle_drop s) inp.curr_time
          inp.current_rdma_metrics.rdma_throughput inp.current_rdma_metrics.rdma_latency
          inp.current_rdma_metrics.iops (cycle_drop s).drop_permil)
        inp.current_rdma_metrics.rdma_throughput).map Prod.fst := by
  rw [dispatch_state]
  rfl

theorem cycle_assignment_removed_as_dispatch (lookup_bandwidth : Nat → Nat → Nat → Nat)
    (s : ControllerState) (inp : cycle_input) :
    split_monitor_cycle_assignment_removed lookup_bandwidth s inp =
      (cycle_dispatch_log lookup_bandwidth
        (determine_netcas_mode_assignment_removed (cycle_drop s) inp.curr_time
          inp.current_rdma_metrics.rdma_throughput inp.current_rdma_metrics.rdma_latency
          inp.current_rdma_metrics.iops (cycle_drop s).drop_permil)
        inp.current_rdma_metrics.rdma_throughput).map Prod.fst := by
  rw [dispatch_state]
  rfl

theorem update_set_flag (a : ControllerState) (f : Bool) (x : Nat) :
    update_rdma_window (set_flag a f) x = set_flag (update_rdma_window a x) f := by
  unfold update_rdma_window set_flag
  by_cases hc : a.rdma_window_count < RDMA_WINDOW_SIZE <;> simp only [hc, if_true, if_false]
  all_goals split_ifs
  all_goals rfl

theorem cycle_drop_set_flag (a : ControllerState) (f : Bool) :
    cycle_drop (set_flag a f) = set_flag (cycle_drop a) f := by
  unfold cycle_drop set_flag
  simp only []
  split_ifs <;> rfl

theorem flag_related_refl (a : ControllerState) : flag_related a a :=
  ⟨rfl, fun _ => rfl⟩

theorem option_flag_related_refl (x : Option ControllerState) : option_flag_related x x := by
  cases x with
  | none => exact True.intro
  | some a => exact flag_related_refl a

theorem determine_related (a b : ControllerState) (ct thr lat iops dp : Nat)
    (h : flag_related a b) :
    flag_related (determine_netcas_mode a ct thr lat iops dp)
      (determine_netcas_mode_assignment_removed b ct thr lat iops dp) := by
  obtain ⟨hb, hst⟩ := h
  by_cases hm : a.current_mode = NETCAS_MODE_STABLE
  · rw [hst hm]
    unfold determine_netcas_mode determine_netcas_mode_assignment_removed
    split_ifs
    all_goals first
      | exact flag_related_refl _
      | exact ⟨rfl, fun h => by simp at h⟩
  · generalize b.split_ratio_calculated_in_stable = f at hb
    subst hb
    unfold determine_netcas_mode determine_netcas_mode_assignment_removed
    simp only [set_flag]
    split_ifs
    all_goals first
      | exact flag_related_refl _
      | exact ⟨rfl, fun h => by simp at h⟩
      | exact ⟨rfl, fun h => absurd h hm⟩

theorem dispatch_related (lookup_bandwidth : Nat → Nat → Nat → Nat) (a b : ControllerState)
    (thr : Nat) (h : flag_related a b) :
    option_flag_related ((cycle_dispatch_log lookup_bandwidth a thr).map Prod.fst)
      ((cycle_dispatch_log lookup_bandwidth b thr).map Prod.fst) := by
  obtain ⟨hb, hst⟩ := h
  by_cases hm : a.current_mode = NETCAS_MODE_STABLE
  · rw [hst hm]
    exact option_flag_related_refl _
  · generalize b.split_ratio_calculated_in_stable = f at hb
    subst hb
    rw [dispatch_state, dispatch_state]
    have hmode : (set_flag a f).current_mode = a.current_mode := rfl
    have hinit : (set_flag a f).netCAS_initialized = a.netCAS_initialized := rfl
    have hupd : update_rdma_window ( netcas_set_data_admit (set_flag a f) false) thr
        = set_flag (update_rdma_window ( netcas_set_data_admit a false) thr) f :=
      update_set_flag ( netcas_set_data_admit a false) f thr
    rw [hmode, hinit, hupd]
    have hum : (update_rdma_window ( netcas_set_data_admit a false) thr).current_mode
        = a.current_mode := (update_keeps _ _).2.2.1
    cases hmd : a.current_mode with
    | NETCAS_MODE_IDLE =>
      simp only []
      split_ifs
      · exact flag_related_refl _
      · exact ⟨rfl, fun h => absurd h hm⟩
    | NETCAS_MODE_WARMUP =>
      simp only []
      split
      · exact True.intro
      · refine ⟨rfl, fun h => ?_⟩
        exact absurd (hum.symm.trans h) hm
    | NETCAS_MODE_STABLE => exact absurd hmd hm
    | NETCAS_MODE_CONGESTION =>
      simp only []
      have hcnt : (set_flag (update_rdma_window ( netcas_set_data_admit a false) thr)
          f).rdma_window_count
            = (update_rdma_window ( netcas_set_data_admit a false) thr).rdma_window_count := rfl
      have hdp : (set_flag (update_rdma_window ( netcas_set_data_admit a false) thr)
          f).drop_permil
            = (update_rdma_window ( netcas_set_data_admit a false) thr).drop_permil := rfl
      have hopt : (set_flag (update_rdma_window ( netcas_set_data_admit a false) thr)
          f).optimal_split_ratio
            = (update_rdma_window ( netcas_set_data_admit a false) thr).optimal_split_ratio :=
        rfl
      rw [hcnt, hdp, hopt]
      split_ifs
      · split
        · exact True.intro
        · split_ifs
          · exact ⟨rfl, fun h => absurd (hum.symm.trans h) hm⟩
          · exact ⟨rfl, fun h => absurd (hum.symm.trans h) hm⟩
      · exact ⟨rfl, fun h => absurd (hum.symm.trans h) hm⟩
    | NETCAS_MODE_FAILURE => exact ⟨rfl, fun h => absurd h hm⟩

theorem cycle_drop_related (a b : ControllerState) (h : flag_related a b) :
    flag_related (cycle_drop a) (cycle_drop b) ∧
    (cycle_drop b).drop_permil = (cycle_drop a).drop_permil := by
  obtain ⟨hb, hst⟩ := h
  by_cases hm : a.current_mode = NETCAS_MODE_STABLE
  · rw [hst hm]
    exact ⟨flag_related_refl _, rfl⟩
  · generalize b.split_ratio_calculated_in_stable = f at hb
    subst hb
    rw [cycle_drop_set_flag]
    refine ⟨⟨rfl, fun h => ?_⟩, rfl⟩
    have hmode : (cycle_drop a).current_mode = a.current_mode := by
      unfold cycle_drop
      split_ifs <;> rfl
    exact absurd (hmode.symm.trans h) hm

theorem cycle_related (lookup_bandwidth : Nat → Nat → Nat → Nat) (a b : ControllerState)
    (inp : cycle_input) (h : flag_related a b) :
    option_flag_related (split_monitor_cycle lookup_bandwidth a inp)
      (split_monitor_cycle_assignment_removed lookup_bandwidth b inp) := by
  rw [cycle_as_dispatch, cycle_assignment_removed_as_dispatch]
  apply dispatch_related
  obtain ⟨hd, hdp⟩ := cycle_drop_related a b h
  rw [hdp]
  exact determine_related _ _ _ _ _ _ _ hd

theorem run_related (lookup_bandwidth : Nat → Nat → Nat → Nat) (inputs : List cycle_input) :
    ∀ a b : ControllerState, flag_related a b →
      option_flag_related (split_monitor_run lookup_bandwidth a inputs)
        (split_monitor_run_assignment_removed lookup_bandwidth b inputs) := by
  induction inputs with
  | nil => intro a b h; exact h
  | cons inp rest ih =>
    intro a b h
    have hc := cycle_related lookup_bandwidth a b inp h
    unfold split_monitor_run split_monitor_run_assignment_removed
    cases h1 : split_monitor_cycle lookup_bandwidth a inp with
    | none =>
      cases h2 : split_monitor_cycle_assignment_removed lookup_bandwidth b inp with
      | none => exact True.intro
      | some b1 => rw [h1, h2] at hc; exact hc.elim
    | some a1 =>
      cases h2 : split_monitor_cycle_assignment_removed lookup_bandwidth b inp with
      | none => rw [h1, h2] at hc; exact hc.elim
      | some b1 =>
        rw [h1, h2] at hc
        exact ih a1 b1 hc

theorem observed_of_related (a b : ControllerState) (h : flag_related a b) :
    observed b = observed a := by
  rw [h.1]
  rfl

theorem assignment_removed_differs :
    (split_monitor_run sample_lookup_bandwidth start_state sample_congestion_inputs).map
      (fun s => (s.current_mode, s.split_ratio_calculated_in_stable))
        = some (NETCAS_MODE_CONGESTION, true) ∧
    (split_monitor_run_assignment_removed sample_lookup_bandwidth start_state
      sample_congestion_inputs).map
      (fun s => (s.current_mode, s.split_ratio_calculated_in_stable))
        = some (NETCAS_MODE_CONGESTION, false) := by
  decide

/-- C22: the assignment `split_ratio_calculated_in_stable = true` of the
Stable -> Congestion transition is never observed.  For every bandwidth table,
every state `s0` the loop starts in (the initial state `start_state` among
them), every input sequence and every number `n` of iterations, the loop
with the assignment removed and the original loop have both faulted or have
both produced a state, and the two states agree in every variable other than
the flag: mode, published split ratio, data_admit, the window variables,
drop_permil, netCAS_initialized and the transition time.  Whenever the mode is
Stable the two states are equal, flag included, and in the next iteration the
variables the Stable dispatch reads after `determine_netcas_mode` are equal
again.  The flag itself does differ: after `sample_congestion_inputs` it is
true in the original loop and false in the loop without the assignment. -/
theorem flag_assignment_unobserved (lookup_bandwidth : Nat → Nat → Nat → Nat)
    (s0 : ControllerState) (inputs : List cycle_input) (n : Nat) :
    (split_monitor_run_assignment_removed lookup_bandwidth s0 (inputs.take n)).map observed
      = (split_monitor_run lookup_bandwidth s0 (inputs.take n)).map observed ∧
    (∀ s, split_monitor_run lookup_bandwidth s0 (inputs.take n) = some s →
      ∃ s1, split_monitor_run_assignment_removed lookup_bandwidth s0 (inputs.take n)
          = some s1 ∧
        s1.current_mode = s.current_mode ∧
        s1.optimal_split_ratio = s.optimal_split_ratio ∧
        s1.global_data_admit = s.global_data_admit ∧
        same_window s1 s ∧
        s1.drop_permil = s.drop_permil ∧
        s1.netCAS_initialized = s.netCAS_initialized ∧
        s1.last_nonzero_transition_time = s.last_nonzero_transition_time ∧
        (s.current_mode = NETCAS_MODE_STABLE → s1 = s) ∧
        ∀ inp : cycle_input,
          (cycle_determine s inp).current_mode = NETCAS_MODE_STABLE →
            determine_netcas_mode_assignment_removed (cycle_drop s1) inp.curr_time
              inp.current_rdma_metrics.rdma_throughput inp.current_rdma_metrics.rdma_latency
              inp.current_rdma_metrics.iops (cycle_drop s1).drop_permil
                = cycle_determine s inp) ∧
    ((split_monitor_run sample_lookup_bandwidth start_state sample_congestion_inputs).map
        (fun s => (s.current_mode, s.split_ratio_calculated_in_stable))
          = some (NETCAS_MODE_CONGESTION, true) ∧
      (split_monitor_run_assignment_removed sample_lookup_bandwidth start_state
        sample_congestion_inputs).map
        (fun s => (s.current_mode, s.split_ratio_calculated_in_stable))
          = some (NETCAS_MODE_CONGESTION, false)) := by
  have hrel := run_related lookup_bandwidth (inputs.take n) s0 s0 (flag_related_refl s0)
  refine ⟨?_, ?_, assignment_removed_differs⟩
  · cases h1 : split_monitor_run lookup_bandwidth s0 (inputs.take n) with
    | none =>
      cases h2 : split_monitor_run_assignment_removed lookup_bandwidth s0 (inputs.take n) with
      | none => rfl
      | some b => rw [h1, h2] at hrel; exact hrel.elim
    | some a =>
      cases h2 : split_monitor_run_assignment_removed lookup_bandwidth s0 (inputs.take n) with
      | none => rw [h1, h2] at hrel; exact hrel.elim
      | some b =>
        rw [h1, h2] at hrel
        simp only [Option.map_some']
        rw [observed_of_related a b hrel]
  · intro s hs
    rw [hs] at hrel
    cases h2 : split_monitor_run_assignment_removed lookup_bandwidth s0 (inputs.take n) with
    | none => rw [h2] at hrel; exact hrel.elim
    | some b =>
      rw [h2] at hrel
      have hrel0 : flag_related s b := hrel
      obtain ⟨hb, hst⟩ := hrel0
      refine ⟨b, rfl, ?_, ?_, ?_, ?_, ?_, ?_, ?_, hst, ?_⟩
      · rw [hb]; rfl
      · rw [hb]; rfl
      · rw [hb]; rfl
      · rw [hb]; exact ⟨rfl, rfl, rfl, rfl, rfl, rfl⟩
      · rw [hb]; rfl
      · rw [hb]; rfl
      · rw [hb]; rfl
      · intro inp hm
        obtain ⟨hd, hdp⟩ := cycle_drop_related s b hrel
        have hdet := determine_related (cycle_drop s) (cycle_drop b) inp.curr_time
          inp.current_rdma_metrics.rdma_throughput inp.current_rdma_metrics.rdma_latency
          inp.current_rdma_metrics.iops (cycle_drop s).drop_permil hd
        rw [hdp]
        exact hdet.2 hm

end NetCAS
